import Mathlib

/-!
# ESPKeylessCar: persistent-state subsystem

A shallow embedding of `src/storage.h` (paired-device registry, circular audit
log and settings, persisted through the `Preferences` key-value store), of the
time reconciliation and formatting of `src/audit_log.h`, of the connectivity
manager of `src/wifi_manager.h` and of the settings and log handlers of
`src/web_server.h`, followed by theorems about them.

Conventions of the embedding

* A C array is a total function from its index to the element; every index the
  functions below use is inside the array whenever `0 ≤ deviceCount ≤ 10` and
  `logHead < 50`, the ranges the program maintains.
* Bytes, characters and unsigned machine integers are `Nat`, signed ones are
  `Int`; a narrowing assignment is written with an explicit `%`.
* A method that changes the object takes the old `Storage` and returns the new
  one, together with the method's return value when it has one.
* `Preferences` is the flash-backed key-value store of the platform. It is
  modelled as a finite map in which every `put` succeeds.
* What a method reads from the platform (clock, link status, time source,
  portal request) is an argument; what it does to the platform is returned as
  a list of calls in program order.
-/

namespace ESPKeylessCar

/-! ## Configuration (`storage.h`, lines 12-14) -/

def MAX_DEVICES : Nat := 10
def MAX_LOG_ENTRIES : Nat := 50
def DEVICE_NAME_LEN : Nat := 20

/-! ## C library functions used by the registry -/

/-- The 16 bytes of an identity key, `uint8_t irk[16]`. -/
abbrev Irk := { l : List Nat // l.length = 16 }

/-- The C string found at a `char` pointer: the bytes before the first NUL.
A list without a NUL stands for memory whose terminator follows the list. -/
def cstr (p : List Nat) : List Nat := p.takeWhile (fun c => c != 0)

/-- The `n` bytes that `strncpy(dst, src, n)` writes to `dst`: the characters
of the string `src`, at most `n` of them, then NUL padding up to `n` bytes. -/
def strncpy (src : List Nat) (n : Nat) : List Nat :=
  (cstr src).take n ++ List.replicate (n - ((cstr src).take n).length) 0

/-- The call `memcmp(a, b, n)`: zero when the first `n` bytes agree, otherwise the
difference of the first pair of bytes that differ. -/
def memcmp : List Nat → List Nat → Nat → Int
  | _, _, 0 => 0
  | x :: xs, y :: ys, n + 1 => if x = y then memcmp xs ys n else (x : Int) - (y : Int)
  | _, _, _ + 1 => 0

/-! ## Data model (`storage.h`, lines 17-52) -/

/-- The record `struct StoredDevice`; `name` is the whole 20-byte buffer. -/
structure StoredDevice where
  irk : Irk
  name : List Nat
  active : Bool
  deriving DecidableEq

/-- The record `struct LogEntry`. -/
structure LogEntry where
  timestamp : Nat
  deviceIndex : Nat
  action : Nat
  rssi : Int
  deriving DecidableEq

/-- The record `struct KeylessSettings`. -/
structure KeylessSettings where
  rssiUnlockThreshold : Int
  rssiLockThreshold : Int
  proximityTimeout : Nat
  weakSignalThreshold : Nat
  deriving DecidableEq

/-- Keys of the `keyless` namespace. `irk i`, `name i` and `act i` are the keys
that `snprintf(key, sizeof(key), "irk%d", i)` and its siblings build; the
16-byte key buffer holds them untruncated for every non-negative `int`. -/
inductive PKey where
  | devCount
  | irk (i : Nat)
  | name (i : Nat)
  | act (i : Nat)
  | logHead
  | logCount
  | logBuf
  | rssiUnlock
  | rssiLock
  | proxTimeout
  | weakSigThr
  | migrated
  deriving DecidableEq

/-- Values of the store, one constructor per `put` flavour; `blob` is the raw
image of the log buffer written by `putBytes("logBuf", …)`. -/
inductive PVal where
  | int (v : Int)
  | bytes (b : List Nat)
  | str (s : List Nat)
  | bool (b : Bool)
  | uchar (v : Nat)
  | char (v : Int)
  | blob (b : List LogEntry)
  deriving DecidableEq

/-- The contents of a `Preferences` namespace. -/
abbrev Prefs := PKey → Option PVal

/-- Any of `putInt`, `putBytes`, `putString`, `putBool`, `putUChar`, `putChar`. -/
def Prefs.put (p : Prefs) (k : PKey) (v : PVal) : Prefs := Function.update p k (some v)

/-- The state of `class Storage`. -/
structure Storage where
  prefs : Prefs
  devices : Nat → StoredDevice
  deviceCount : Int
  logBuffer : Nat → LogEntry
  logHead : Nat
  logCount : Nat
  settings : KeylessSettings

/-! ## Device storage (`storage.h`, lines 86-147) -/

/-- The body of the loop of `saveDevices`, run `fuel` times from index `i`. -/
def saveLoop (devices : Nat → StoredDevice) : Nat → Nat → Prefs → Prefs
  | 0, _, p => p
  | fuel + 1, i, p =>
    let p1 := p.put (PKey.irk i) (PVal.bytes (devices i).irk.val)
    let p2 := p1.put (PKey.name i) (PVal.str (cstr (devices i).name))
    let p3 := p2.put (PKey.act i) (PVal.bool (devices i).active)
    saveLoop devices fuel (i + 1) p3

/-- The method `Storage::saveDevices`. -/
def saveDevices (s : Storage) : Storage :=
  { s with prefs := saveLoop s.devices s.deviceCount.toNat 0
                      (s.prefs.put PKey.devCount (PVal.int s.deviceCount)) }

/-- The duplicate scan of `addDevice`, run over `fuel` slots from index `i`:
`true` when some scanned slot has `memcmp(devices[i].irk, irk, 16) == 0`. -/
def dupLoop (devices : Nat → StoredDevice) (irk : Irk) : Nat → Nat → Bool
  | 0, _ => false
  | fuel + 1, i =>
    if memcmp (devices i).irk.val irk.val 16 = 0 then true
    else dupLoop devices irk fuel (i + 1)

/-- The buffer `name` after `strncpy(name, src, DEVICE_NAME_LEN - 1)` and
`name[DEVICE_NAME_LEN - 1] = 0`. -/
def setName (src : List Nat) : List Nat :=
  strncpy src (DEVICE_NAME_LEN - 1) ++ [0]

/-- The method `Storage::addDevice`. -/
def addDevice (s : Storage) (irk : Irk) (name : List Nat) : Bool × Storage :=
  if s.deviceCount ≥ (MAX_DEVICES : Int) then (false, s)
  else if dupLoop s.devices irk s.deviceCount.toNat 0 then (false, s)
  else
    let d : StoredDevice := { irk := irk, name := setName name, active := true }
    (true, saveDevices { s with devices := Function.update s.devices s.deviceCount.toNat d
                                deviceCount := s.deviceCount + 1 })

/-- The method `Storage::renameDevice`. -/
def renameDevice (s : Storage) (index : Int) (newName : List Nat) : Bool × Storage :=
  if index < 0 ∨ index ≥ s.deviceCount then (false, s)
  else
    let d : StoredDevice := { s.devices index.toNat with name := setName newName }
    (true, { s with devices := Function.update s.devices index.toNat d
                    prefs := s.prefs.put (PKey.name index.toNat) (PVal.str (cstr d.name)) })

/-- The shifting loop of `deleteDevice`, run `fuel` times from index `i`:
`memcpy(&devices[i], &devices[i + 1], sizeof(StoredDevice))`. -/
def shiftLoop : Nat → Nat → (Nat → StoredDevice) → (Nat → StoredDevice)
  | 0, _, d => d
  | fuel + 1, i, d => shiftLoop fuel (i + 1) (Function.update d i (d (i + 1)))

/-- The method `Storage::deleteDevice`. -/
def deleteDevice (s : Storage) (index : Int) : Bool × Storage :=
  if index < 0 ∨ index ≥ s.deviceCount then (false, s)
  else
    (true, saveDevices { s with devices := shiftLoop (s.deviceCount - 1 - index).toNat
                                             index.toNat s.devices
                                deviceCount := s.deviceCount - 1 })

/-! ## Audit log storage (`storage.h`, lines 161-195) -/

/-- The bytes of `logBuffer` as written by `putBytes("logBuf", logBuffer, sizeof(logBuffer))`. -/
def logImage (buf : Nat → LogEntry) : List LogEntry :=
  (List.range MAX_LOG_ENTRIES).map buf

/-- The method `Storage::addLogEntry`. -/
def addLogEntry (s : Storage) (deviceIndex action : Nat) (rssi : Int) (timestamp : Nat) :
    Storage :=
  let e : LogEntry :=
    { timestamp := timestamp, deviceIndex := deviceIndex, action := action, rssi := rssi }
  let buf := Function.update s.logBuffer s.logHead e
  let head := ((s.logHead + 1) % MAX_LOG_ENTRIES) % 256
  let cnt := if s.logCount < MAX_LOG_ENTRIES then (s.logCount + 1) % 256 else s.logCount
  { s with
    logBuffer := buf
    logHead := head
    logCount := cnt
    prefs := ((s.prefs.put PKey.logHead (PVal.uchar head)).put PKey.logCount
                (PVal.uchar cnt)).put PKey.logBuf (PVal.blob (logImage buf)) }

/-- The copy loop of `getLogEntries`, run `fuel` times from `i`:
`output[i] = logBuffer[(startIdx + i) % MAX_LOG_ENTRIES]`. -/
def copyLoop (buf : Nat → LogEntry) (startIdx : Nat) :
    Nat → Nat → (Nat → LogEntry) → (Nat → LogEntry)
  | 0, _, out => out
  | fuel + 1, i, out =>
    copyLoop buf startIdx fuel (i + 1)
      (Function.update out i (buf ((startIdx + i) % MAX_LOG_ENTRIES)))

/-- The method `Storage::getLogEntries`: the returned count and the caller's
array `output` after the call. -/
def getLogEntries (s : Storage) (output : Nat → LogEntry) (maxEntries : Int) :
    Int × (Nat → LogEntry) :=
  if s.logCount = 0 then (0, output)
  else
    let count : Int := min (s.logCount : Int) maxEntries
    let startIdx : Nat := if s.logCount < MAX_LOG_ENTRIES then 0 else s.logHead
    (count, copyLoop s.logBuffer startIdx count.toNat 0 output)

/-! ## Time reconciliation (`audit_log.h`, lines 21-49) -/

/-- The synchronisation fields of `class AuditLog`. `time_t` is a signed type
whose width the platform fixes; its values are integers here. -/
structure AuditLog where
  ntpSyncTime : Int
  ntpSyncMillis : Nat
  ntpSynced : Bool
  deriving DecidableEq

/-- The method `AuditLog::setNtpSync`; `millis` is what `millis()` returns
during the call, a `uint32_t`. -/
def setNtpSync (_a : AuditLog) (unixTime : Int) (millis : Nat) : AuditLog :=
  { ntpSyncTime := unixTime, ntpSyncMillis := millis, ntpSynced := true }

/-- The method `AuditLog::isNtpSynced`. -/
def isNtpSynced (a : AuditLog) : Bool := a.ntpSynced

/-- Subtraction `a - b` of two `uint32_t` values, both below `2 ^ 32`. -/
def sub32 (a b : Nat) : Nat := (a + 2 ^ 32 - b) % 2 ^ 32

/-- The cast `(int32_t)x` of a `uint32_t` value. -/
def toInt32 (x : Nat) : Int :=
  if x % 2 ^ 32 < 2 ^ 31 then ((x % 2 ^ 32 : Nat) : Int) else ((x % 2 ^ 32 : Nat) : Int) - 2 ^ 32

/-- The local `diff` of `millisToRealTime`: `(int32_t)(logMillis - ntpSyncMillis)`. -/
def millisDiff (a : AuditLog) (logMillis : Nat) : Int :=
  toInt32 (sub32 logMillis a.ntpSyncMillis)

/-- The method `AuditLog::millisToRealTime`; `diff / 1000` is the division of C,
which rounds towards zero. -/
def millisToRealTime (a : AuditLog) (logMillis : Nat) : Int :=
  if !a.ntpSynced then 0
  else a.ntpSyncTime + Int.tdiv (millisDiff a logMillis) 1000

/-! ## Loading from the store (`storage.h`, lines 60-84 and 151-159) -/

/-- The call `getInt(key, defaultValue)`: the stored value when the key holds an
`int`, the default otherwise. -/
def Prefs.getInt (p : Prefs) (k : PKey) (d : Int) : Int :=
  match p k with
  | some (PVal.int v) => v
  | _ => d

/-- The call `getUChar(key, defaultValue)`. -/
def Prefs.getUChar (p : Prefs) (k : PKey) (d : Nat) : Nat :=
  match p k with
  | some (PVal.uchar v) => v
  | _ => d

/-- The call `getChar(key, defaultValue)`. -/
def Prefs.getChar (p : Prefs) (k : PKey) (d : Int) : Int :=
  match p k with
  | some (PVal.char v) => v
  | _ => d

/-- The call `getBool(key, defaultValue)`. -/
def Prefs.getBool (p : Prefs) (k : PKey) (d : Bool) : Bool :=
  match p k with
  | some (PVal.bool v) => v
  | _ => d

/-- The key buffer after `getBytes(key, irk, 16)`: a stored blob of at most 16
bytes is copied to the front of the buffer; without such a blob the buffer
keeps its content. -/
def Prefs.getBytes (p : Prefs) (k : PKey) (buf : Irk) : Irk :=
  match p k with
  | some (PVal.bytes b) =>
    if h : b.length ≤ 16 then
      ⟨b ++ buf.val.drop b.length, by
        rw [List.length_append, List.length_drop, buf.property]
        omega⟩
    else buf
  | _ => buf

/-- The character buffer after `getString(key, buf, maxLen)`: a stored string that
fits with its terminator is copied to the front of the buffer, terminator
included; otherwise the buffer keeps its content. -/
def Prefs.getString (p : Prefs) (k : PKey) (buf : List Nat) (maxLen : Nat) : List Nat :=
  match p k with
  | some (PVal.str v) =>
    if v.length + 1 ≤ maxLen then v ++ [0] ++ buf.drop (v.length + 1) else buf
  | _ => buf

/-- The array `logBuffer` after `getBytes("logBuf", logBuffer, sizeof(logBuffer))`. -/
def Prefs.getLogBuf (p : Prefs) (buf : Nat → LogEntry) : Nat → LogEntry :=
  match p PKey.logBuf with
  | some (PVal.blob b) =>
    if b.length ≤ MAX_LOG_ENTRIES then fun i => b.getD i (buf i) else buf
  | _ => buf

/-- The loop of `loadDevices`, run `fuel` times from index `i`. -/
def loadLoop (p : Prefs) : Nat → Nat → (Nat → StoredDevice) → (Nat → StoredDevice)
  | 0, _, d => d
  | fuel + 1, i, d =>
    let dev : StoredDevice :=
      { irk := p.getBytes (PKey.irk i) (d i).irk
        name := p.getString (PKey.name i) (d i).name DEVICE_NAME_LEN
        active := p.getBool (PKey.act i) true }
    loadLoop p fuel (i + 1) (Function.update d i dev)

/-- The method `Storage::loadDevices`. -/
def loadDevices (s : Storage) : Bool × Storage :=
  if s.prefs.getInt PKey.devCount 0 < 0 ∨ s.prefs.getInt PKey.devCount 0 > (MAX_DEVICES : Int)
  then (false, { s with deviceCount := 0 })
  else
    (decide (s.prefs.getInt PKey.devCount 0 > 0),
      { s with
        deviceCount := s.prefs.getInt PKey.devCount 0
        devices := loadLoop s.prefs (s.prefs.getInt PKey.devCount 0).toNat 0 s.devices })

/-- The method `Storage::loadLog`. -/
def loadLog (s : Storage) : Storage :=
  { s with
    logHead :=
      if s.prefs.getUChar PKey.logHead 0 ≥ MAX_LOG_ENTRIES then 0
      else s.prefs.getUChar PKey.logHead 0
    logCount :=
      if s.prefs.getUChar PKey.logCount 0 > MAX_LOG_ENTRIES then 0
      else s.prefs.getUChar PKey.logCount 0
    logBuffer := s.prefs.getLogBuf s.logBuffer }

/-- The bounds the data model keeps: `0 ≤ deviceCount ≤ 10`, `logCount ≤ 50`
and `logHead < 50`. -/
def Storage.inBounds (s : Storage) : Prop :=
  0 ≤ s.deviceCount ∧ s.deviceCount ≤ 10 ∧ s.logCount ≤ 50 ∧ s.logHead < 50

instance (s : Storage) : Decidable s.inBounds := by
  unfold Storage.inBounds
  infer_instance

/-! ## The remaining methods of `AuditLog` (`audit_log.h`, lines 26-29 and 51-64) -/

/-- The method `AuditLog::begin`: it stores the pointer and calls `loadLog`. -/
def AuditLog.begin (a : AuditLog) (s : Storage) : AuditLog × Storage := (a, loadLog s)

/-- The method `AuditLog::getCurrentTimestamp`; `millis` is what `millis()` returns. -/
def getCurrentTimestamp (_a : AuditLog) (millis : Nat) : Nat := millis

/-- The method `AuditLog::logEvent`; `millis` is what `millis()` returns. -/
def logEvent (a : AuditLog) (s : Storage) (deviceIndex action : Nat) (rssi : Int)
    (millis : Nat) : AuditLog × Storage :=
  (a, addLogEntry s deviceIndex action rssi millis)

/-- The method `AuditLog::getEntryCount`. -/
def getEntryCount (_a : AuditLog) (s : Storage) : Nat := s.logCount

/-- A call of a public method of `AuditLog`, with its arguments and the clock value
it reads. -/
inductive AuditOp where
  | begin
  | setNtpSync (unixTime : Int) (millis : Nat)
  | isNtpSynced
  | millisToRealTime (logMillis : Nat)
  | getCurrentTimestamp
  | logEvent (deviceIndex action : Nat) (rssi : Int) (millis : Nat)
  | formatTime (logMillis : Nat) (bufSize : Nat)
  | getLogEntryJson (e : LogEntry) (deviceName : List Nat)
  | getEntryCount

/-- Whether a call is `setNtpSync`. -/
def AuditOp.isSync : AuditOp → Bool
  | AuditOp.setNtpSync _ _ => true
  | _ => false

/-- The state of the `AuditLog` object and of its `Storage` after one call; the
methods that only compute a value or fill a buffer of the caller leave both
unchanged. -/
def AuditOp.apply (a : AuditLog) (s : Storage) : AuditOp → AuditLog × Storage
  | AuditOp.begin => a.begin s
  | AuditOp.setNtpSync unixTime millis => (ESPKeylessCar.setNtpSync a unixTime millis, s)
  | AuditOp.logEvent deviceIndex action rssi millis =>
    ESPKeylessCar.logEvent a s deviceIndex action rssi millis
  | AuditOp.isNtpSynced => (a, s)
  | AuditOp.millisToRealTime _ => (a, s)
  | AuditOp.getCurrentTimestamp => (a, s)
  | AuditOp.formatTime _ _ => (a, s)
  | AuditOp.getLogEntryJson _ _ => (a, s)
  | AuditOp.getEntryCount => (a, s)

/-! ## Time formatting (`audit_log.h`, lines 67-86) -/

/-- The text that `printf` produces for `%lu`. -/
def fmtLu (n : Nat) : List Char := Nat.toDigits 10 n

/-- The text that `printf` produces for `%02lu`: zero padding to two characters. -/
def fmt02Lu (n : Nat) : List Char :=
  List.replicate (2 - (Nat.toDigits 10 n).length) '0' ++ Nat.toDigits 10 n

/-- The string in `buffer` after `snprintf(buffer, bufSize, …)` has produced the
text `out`: at most `bufSize - 1` characters are stored, and nothing is stored
when `bufSize` is 0. -/
def snprintf (buffer : String) (bufSize : Nat) (out : List Char) : String :=
  if bufSize = 0 then buffer else String.mk (out.take (bufSize - 1))

/-- The method `AuditLog::formatTime`: the string in `buffer` after the call.
The parameter `strftime` stands for the library calls of the synchronised
branch, `strftime(buffer, bufSize, "%H:%M:%S", localtime(&realTime))`. -/
def formatTime (strftime : Int → String → Nat → String) (a : AuditLog) (logMillis : Nat)
    (buffer : String) (bufSize : Nat) : String :=
  if a.ntpSynced then strftime (millisToRealTime a logMillis) buffer bufSize
  else
    let seconds := logMillis / 1000
    let minutes := seconds / 60
    let hours := minutes / 60
    if hours > 0 then
      snprintf buffer bufSize
        (['+'] ++ fmtLu hours ++ ['h'] ++ fmt02Lu (minutes % 60) ++ ['m'])
    else if minutes > 0 then
      snprintf buffer bufSize
        (['+'] ++ fmtLu minutes ++ ['m'] ++ fmt02Lu (seconds % 60) ++ ['s'])
    else
      snprintf buffer bufSize (['+'] ++ fmtLu seconds ++ ['s'])

/-! ## Settings storage (`storage.h`, lines 199-219) -/

/-- The method `Storage::loadSettings`. -/
def loadSettings (s : Storage) : Storage :=
  { s with
    settings :=
      { rssiUnlockThreshold := s.prefs.getChar PKey.rssiUnlock (-90)
        rssiLockThreshold := s.prefs.getChar PKey.rssiLock (-80)
        proximityTimeout := s.prefs.getUChar PKey.proxTimeout 10
        weakSignalThreshold := s.prefs.getUChar PKey.weakSigThr 3 } }

/-- The method `Storage::saveSettings`. -/
def saveSettings (s : Storage) : Storage :=
  { s with
    prefs :=
      (((s.prefs.put PKey.rssiUnlock (PVal.char s.settings.rssiUnlockThreshold)).put
          PKey.rssiLock (PVal.char s.settings.rssiLockThreshold)).put
          PKey.proxTimeout (PVal.uchar s.settings.proximityTimeout)).put
          PKey.weakSigThr (PVal.uchar s.settings.weakSignalThreshold) }

/-! ## Dashboard handlers (`web_server.h`, lines 215-289) -/

/-- The globals of the proximity logic that `web_server.h` declares `extern`:
three `int` and one `unsigned long`. -/
structure Globals where
  RSSI_UNLOCK_THRESHOLD : Int
  RSSI_LOCK_THRESHOLD : Int
  PROXIMITY_TIMEOUT : Nat
  WEAK_SIGNAL_THRESHOLD : Int
  deriving DecidableEq

/-- The conversion of a `long` to `int8_t`. -/
def toInt8 (v : Int) : Int := (v + 128) % 256 - 128

/-- The conversion of a `long` to `uint8_t`. -/
def toUInt8 (v : Int) : Nat := (v % 256).toNat

/-- The arguments of a `POST /api/settings` request: for each of the four names,
`none` when `server.hasArg(name)` is false and otherwise the `long` that
`server.arg(name).toInt()` returns. -/
structure SettingsArgs where
  rssiUnlock : Option Int
  rssiLock : Option Int
  timeout : Option Int
  weakCount : Option Int
  deriving DecidableEq

/-- The outcome of the settings handler: the HTTP status it sends and the state
it leaves. -/
structure SettingsResult where
  code : Nat
  storage : Storage
  globals : Globals

/-- The four conditional assignments of the `POST /api/settings` handler. -/
def assignSettings (st : KeylessSettings) (r : SettingsArgs) : KeylessSettings :=
  let st1 := match r.rssiUnlock with
    | some v => { st with rssiUnlockThreshold := toInt8 v }
    | none => st
  let st2 := match r.rssiLock with
    | some v => { st1 with rssiLockThreshold := toInt8 v }
    | none => st1
  let st3 := match r.timeout with
    | some v => { st2 with proximityTimeout := toUInt8 v }
    | none => st2
  match r.weakCount with
  | some v => { st3 with weakSignalThreshold := toUInt8 v }
  | none => st3

/-- The handler of `POST /api/settings`. The product
`proximityTimeout * 1000UL` of a `uint8_t` stays below `2 ^ 32`. -/
def postSettings (s : Storage) (g : Globals) (r : SettingsArgs) : SettingsResult :=
  let changed := r.rssiUnlock.isSome || r.rssiLock.isSome || r.timeout.isSome
    || r.weakCount.isSome
  let s1 : Storage := { s with settings := assignSettings s.settings r }
  if changed then
    let s2 := saveSettings s1
    { code := 200
      storage := s2
      globals :=
        { RSSI_UNLOCK_THRESHOLD := s2.settings.rssiUnlockThreshold
          RSSI_LOCK_THRESHOLD := s2.settings.rssiLockThreshold
          PROXIMITY_TIMEOUT := s2.settings.proximityTimeout * 1000
          WEAK_SIGNAL_THRESHOLD := (s2.settings.weakSignalThreshold : Int) } }
  else { code := 400, storage := s1, globals := g }

/-- The string literal "Unknown" as character codes. -/
def unknownName : List Nat := [85, 110, 107, 110, 111, 119, 110]

/-- The device name that the `GET /api/log` handler passes on for an entry:
`devices[deviceIndex].name` when `deviceIndex < deviceCount`, else "Unknown". -/
def resolveName (s : Storage) (e : LogEntry) : List Nat :=
  if (e.deviceIndex : Int) < s.deviceCount then cstr (s.devices e.deviceIndex).name
  else unknownName

/-- The four values that `getLogEntryJson` prints into the JSON object of one
entry. -/
structure LogRow where
  time : String
  device : List Nat
  action : String
  rssi : Int
  deriving DecidableEq

/-- The method `AuditLog::getLogEntryJson`, with its 16-byte `timeStr`. -/
def getLogEntryJson (strftime : Int → String → Nat → String) (a : AuditLog) (e : LogEntry)
    (deviceName : List Nat) : LogRow :=
  { time := formatTime strftime a e.timestamp "" 16
    device := deviceName
    action := if e.action = 1 then "Unlock" else "Lock"
    rssi := e.rssi }

/-- The loop of the `GET /api/log` handler, run `fuel` times from index `i`. -/
def logLoop (strftime : Int → String → Nat → String) (s : Storage) (a : AuditLog)
    (entries : Nat → LogEntry) : Nat → Nat → List LogRow
  | 0, _ => []
  | fuel + 1, i =>
    getLogEntryJson strftime a (entries i) (resolveName s (entries i))
      :: logLoop strftime s a entries fuel (i + 1)

/-- The handler of `GET /api/log`: the rows of the JSON array it sends; `entries`
is the local array before `getLogEntries` fills it. -/
def apiLog (strftime : Int → String → Nat → String) (s : Storage) (a : AuditLog)
    (entries : Nat → LogEntry) : List LogRow :=
  logLoop strftime s a (getLogEntries s entries MAX_LOG_ENTRIES).2
    (getLogEntries s entries MAX_LOG_ENTRIES).1.toNat 0

/-! ## Connectivity (`wifi_manager.h`, lines 26-27 and 116-361)

One call of `connect` or `update` observes one snapshot of the environment: the
link status and `millis()` have the same value at every check of the call. The
two blocking loops, the credential test of the portal and the time
synchronisation, poll the environment once per iteration. -/

def WIFI_RECONNECT_INTERVAL : Nat := 30000
def WIFI_CONNECT_TIMEOUT : Nat := 15000

/-- The contents of the `wificreds` namespace. -/
structure CredStore where
  ssid : Option String
  pass : Option String
  deriving DecidableEq

/-- The replies of the set-up portal: the page, the scan result, the JSON object
`success` of `/save`, and the redirect of the captive portal. -/
inductive Reply where
  | setupPage
  | networks
  | saveResult (success : Bool)
  | redirect
  deriving DecidableEq

/-- The calls by which the manager acts on the platform, in program order.
`wifiMode true` is `WiFi.mode(WIFI_STA)` and `wifiMode false` is `WiFi.mode(WIFI_AP)`;
`startPortal` stands for starting the DNS server and the web server of the portal;
`getLocalTime` is one query of the time source. -/
inductive Action where
  | wifiMode (sta : Bool)
  | softAP
  | setAutoReconnect
  | wifiBegin (ssid pass : String)
  | startPortal
  | putString (key value : String)
  | send (r : Reply)
  | delay (ms : Nat)
  | restart
  | configTime
  | getLocalTime
  deriving DecidableEq

/-- The state of `class WifiManager`. The pointers `auditLog`, `setupServer` and
`dnsServer` are represented by whether they are non-null. -/
structure WifiManager where
  wifiPrefs : CredStore
  auditLog : Bool
  setupServer : Bool
  dnsServer : Bool
  configured : Bool
  connected : Bool
  apMode : Bool
  ntpInitialized : Bool
  lastReconnectAttempt : Nat
  connectStartTime : Nat
  connecting : Bool
  storedSSID : String
  storedPass : String
  ipAddress : String
  deriving DecidableEq

/-- A request that `handleClient` dispatches to a handler of the portal. -/
inductive Request where
  | root
  | scan
  | save (ssid pass : String)
  | notFound
  deriving DecidableEq

/-- What one call observes: whether `WiFi.status()` is `WL_CONNECTED`, the value of
`millis()`, the local address, the request the portal receives, the result of
the k-th status poll of the credential test, the result of the k-th
`getLocalTime`, the value of `time()` and of `millis()` when the anchor is set. -/
structure Env where
  linkUp : Bool
  now : Nat
  localIP : String
  request : Option Request
  status : Nat → Bool
  timeOk : Nat → Bool
  unixTime : Int
  syncMillis : Nat

/-- The result of a method of the manager: its state, the `AuditLog` object it
points to, and the platform calls made. -/
structure Out where
  wifi : WifiManager
  log : AuditLog
  acts : List Action

/-- The call `getString(key, "")` on the credential store. -/
def CredStore.get (v : Option String) : String := v.getD ""

/-- The method `WifiManager::loadCredentials`. -/
def loadCredentials (w : WifiManager) : WifiManager :=
  { w with
    storedSSID := CredStore.get w.wifiPrefs.ssid
    storedPass := CredStore.get w.wifiPrefs.pass
    configured := decide ((CredStore.get w.wifiPrefs.ssid).length > 0) }

/-- The method `WifiManager::saveCredentials`. -/
def saveCredentials (w : WifiManager) (ssid pass : String) : WifiManager × List Action :=
  ({ w with
      wifiPrefs := { ssid := some ssid, pass := some pass }
      storedSSID := ssid
      storedPass := pass
      configured := true },
    [Action.putString "ssid" ssid, Action.putString "pass" pass])

/-- The loop `while (WiFi.status() != WL_CONNECTED && attempts < 20)` of the `/save`
handler, entered with the given `attempts`: the value of `attempts` when the loop
ends. The k-th evaluation of the condition reads `status k`. -/
def waitLoop (status : Nat → Bool) : Nat → Nat → Nat
  | 0, attempts => attempts
  | fuel + 1, attempts =>
    if !status attempts && decide (attempts < 20) then waitLoop status fuel (attempts + 1)
    else attempts

/-- The handler of `POST /save` that `startAPMode` registers. The status check after
the loop is one more poll. -/
def handleSave (w : WifiManager) (ssid pass : String) (status : Nat → Bool) :
    WifiManager × List Action :=
  if ssid.length = 0 then (w, [Action.send (Reply.saveResult false)])
  else
    let attempts := waitLoop status 21 0
    let test := [Action.wifiMode true, Action.wifiBegin ssid pass]
      ++ List.replicate attempts (Action.delay 500)
    if status (attempts + 1) then
      ((saveCredentials w ssid pass).1,
        test ++ (saveCredentials w ssid pass).2
          ++ [Action.send (Reply.saveResult true), Action.delay 1000, Action.restart])
    else
      (w, test ++ [Action.wifiMode false, Action.softAP,
        Action.send (Reply.saveResult false)])

/-- The call `setupServer->handleClient()`: the handler of the received request runs. -/
def handleClient (w : WifiManager) (request : Option Request) (status : Nat → Bool) :
    WifiManager × List Action :=
  match request with
  | none => (w, [])
  | some Request.root => (w, [Action.send Reply.setupPage])
  | some Request.scan => (w, [Action.send Reply.networks])
  | some (Request.save ssid pass) => handleSave w ssid pass status
  | some Request.notFound => (w, [Action.send Reply.redirect])

/-- The method `WifiManager::startAPMode`. -/
def startAPMode (w : WifiManager) : WifiManager × List Action :=
  ({ w with apMode := true, dnsServer := true, setupServer := true },
    [Action.wifiMode false, Action.softAP, Action.startPortal])

/-- The method `WifiManager::begin`; `logPtr` tells whether the pointer passed is
non-null. -/
def WifiManager.begin (w : WifiManager) (logPtr : Bool) : WifiManager × List Action :=
  if !(loadCredentials { w with auditLog := logPtr }).configured then
    startAPMode (loadCredentials { w with auditLog := logPtr })
  else
    (loadCredentials { w with auditLog := logPtr },
      [Action.wifiMode true, Action.setAutoReconnect])

/-- The loop `while (!getLocalTime(&timeinfo) && retries < 10)` of `syncNTP`, entered
with the given `retries`: the value of `retries` when the loop ends and the calls
made. The k-th evaluation of the condition reads `timeOk k`. -/
def ntpLoop (timeOk : Nat → Bool) : Nat → Nat → Nat × List Action
  | 0, retries => (retries, [])
  | fuel + 1, retries =>
    if !timeOk retries && decide (retries < 10) then
      ((ntpLoop timeOk fuel (retries + 1)).1,
        Action.getLocalTime :: Action.delay 500 :: (ntpLoop timeOk fuel (retries + 1)).2)
    else (retries, [Action.getLocalTime])

/-- The method `WifiManager::syncNTP`. -/
def syncNTP (w : WifiManager) (a : AuditLog) (e : Env) : Out :=
  if w.ntpInitialized || !w.auditLog then { wifi := w, log := a, acts := [] }
  else if (ntpLoop e.timeOk 11 0).1 < 10 then
    { wifi := { w with ntpInitialized := true }
      log := setNtpSync a e.unixTime e.syncMillis
      acts := Action.configTime :: (ntpLoop e.timeOk 11 0).2 }
  else { wifi := w, log := a, acts := Action.configTime :: (ntpLoop e.timeOk 11 0).2 }

/-- The start of an attempt in `connect`: `if (!connecting && configured)`. -/
def startAttempt (w : WifiManager) (e : Env) : WifiManager × List Action :=
  if !w.connecting && w.configured then
    ({ w with connecting := true, connectStartTime := e.now },
      [Action.wifiBegin w.storedSSID w.storedPass])
  else (w, [])

/-- The timeout check of `connect`:
`if (connecting && (millis() - connectStartTime > WIFI_CONNECT_TIMEOUT))`. -/
def checkTimeout (w : WifiManager) (e : Env) : WifiManager :=
  if w.connecting && decide (sub32 e.now w.connectStartTime > WIFI_CONNECT_TIMEOUT) then
    { w with connecting := false }
  else w

/-- The method `WifiManager::connect`. -/
def connect (w : WifiManager) (a : AuditLog) (e : Env) : Out :=
  if w.apMode then { wifi := w, log := a, acts := [] }
  else if e.linkUp then
    if !w.connected then syncNTP { w with connected := true, ipAddress := e.localIP } a e
    else { wifi := w, log := a, acts := [] }
  else
    { wifi := checkTimeout (startAttempt w e).1 e, log := a, acts := (startAttempt w e).2 }

/-- The link-lost step of `update`: `if (connected) { connected = false; ipAddress = ""; }`. -/
def dropLink (w : WifiManager) : WifiManager :=
  if w.connected then { w with connected := false, ipAddress := "" } else w

/-- The method `WifiManager::update`. -/
def update (w : WifiManager) (a : AuditLog) (e : Env) : Out :=
  if w.apMode then
    if w.setupServer then
      { wifi := (handleClient w e.request e.status).1, log := a,
        acts := (handleClient w e.request e.status).2 }
    else { wifi := w, log := a, acts := [] }
  else if e.linkUp then
    if !w.connected then
      syncNTP { w with connected := true, connecting := false, ipAddress := e.localIP } a e
    else { wifi := w, log := a, acts := [] }
  else if !(dropLink w).connecting
      && decide (sub32 e.now (dropLink w).lastReconnectAttempt > WIFI_RECONNECT_INTERVAL) then
    connect { dropLink w with lastReconnectAttempt := e.now } a e
  else { wifi := dropLink w, log := a, acts := [] }

/-- A call of one of the two polling methods. -/
inductive Call where
  | update (e : Env)
  | connect (e : Env)

/-- The effect of one call. -/
def step (w : WifiManager) (a : AuditLog) : Call → Out
  | Call.update e => update w a e
  | Call.connect e => connect w a e

/-- A run of calls; `ESP.restart()` ends it. -/
def run (w : WifiManager) (a : AuditLog) : List Call → Out
  | [] => { wifi := w, log := a, acts := [] }
  | c :: cs =>
    if Action.restart ∈ (step w a c).acts then step w a c
    else
      { wifi := (run (step w a c).wifi (step w a c).log cs).wifi
        log := (run (step w a c).wifi (step w a c).log cs).log
        acts := (step w a c).acts ++ (run (step w a c).wifi (step w a c).log cs).acts }

/-- Whether a platform call is `WiFi.begin`. -/
def Action.isWifiBegin : Action → Bool
  | Action.wifiBegin _ _ => true
  | _ => false

/-- The call made at `T` milliseconds after boot: `millis()` returns `T mod 2 ^ 32`. -/
def Call.atTime (T : Nat) : Call → Call
  | Call.update e => Call.update { e with now := T % 2 ^ 32 }
  | Call.connect e => Call.connect { e with now := T % 2 ^ 32 }

/-- The times, in a run of timed calls, of the `update` calls that start a
connection attempt. -/
def updateAttempts (w : WifiManager) (a : AuditLog) : List (Nat × Call) → List Nat
  | [] => []
  | (T, Call.update e) :: rest =>
    (if (step w a (Call.atTime T (Call.update e))).acts.any Action.isWifiBegin then [T]
      else [])
      ++ updateAttempts (step w a (Call.atTime T (Call.update e))).wifi
          (step w a (Call.atTime T (Call.update e))).log rest
  | (T, Call.connect e) :: rest =>
    updateAttempts (step w a (Call.atTime T (Call.connect e))).wifi
      (step w a (Call.atTime T (Call.connect e))).log rest

/-- A newly constructed `WifiManager` over a credential store: its member
initialisers. -/
def WifiManager.init (prefs : CredStore) : WifiManager :=
  { wifiPrefs := prefs, auditLog := false, setupServer := false, dnsServer := false,
    configured := false, connected := false, apMode := false, ntpInitialized := false,
    lastReconnectAttempt := 0, connectStartTime := 0, connecting := false,
    storedSSID := "", storedPass := "", ipAddress := "" }

/-! ## Runs of calls -/

/-- A run of `addDevice` calls, one per listed (key, name) pair, in order: the
return values of the calls and the final state. -/
def addAll (s : Storage) : List (Irk × List Nat) → List Bool × Storage
  | [] => ([], s)
  | x :: rest =>
    ((addDevice s x.1 x.2).1 :: (addAll (addDevice s x.1 x.2).2 rest).1,
      (addAll (addDevice s x.1 x.2).2 rest).2)

/-- A run of `addLogEntry` calls, one per listed entry, in order. -/
def appendAll (s : Storage) : List LogEntry → Storage
  | [] => s
  | e :: es => appendAll (addLogEntry s e.deviceIndex e.action e.rssi e.timestamp) es

/-- A call of one of the three mutating methods of the registry. -/
inductive RegOp where
  | add (irk : Irk) (name : List Nat)
  | rename (index : Int) (name : List Nat)
  | delete (index : Int)

/-- The state after one registry call. -/
def RegOp.apply (s : Storage) : RegOp → Storage
  | RegOp.add irk name => (addDevice s irk name).2
  | RegOp.rename index name => (renameDevice s index name).2
  | RegOp.delete index => (deleteDevice s index).2

/-- A run of registry calls, in order. -/
def applyOps (s : Storage) : List RegOp → Storage
  | [] => s
  | op :: ops => applyOps (op.apply s) ops

/-- A run of `AuditLog` calls, in order. -/
def runAudit (a : AuditLog) (s : Storage) : List AuditOp → AuditLog × Storage
  | [] => (a, s)
  | op :: ops => runAudit (op.apply a s).1 (op.apply a s).2 ops

/-- The keys of the live entries are pairwise distinct. -/
def Storage.keysDistinct (s : Storage) : Prop :=
  ∀ i j : Nat, (i : Int) < s.deviceCount → (j : Int) < s.deviceCount → i ≠ j →
    (s.devices i).irk ≠ (s.devices j).irk

/-- The store holds the registry: the count under `devCount` and, for every live
slot, its key bytes, its name (of at most 19 characters) and its active flag
under `irk<i>`, `name<i>` and `act<i>`. -/
def Storage.persisted (s : Storage) : Prop :=
  0 ≤ s.deviceCount ∧ s.deviceCount ≤ 10 ∧
  s.prefs.getInt PKey.devCount 0 = s.deviceCount ∧
  ∀ i : Nat, (i : Int) < s.deviceCount →
    s.prefs (PKey.irk i) = some (PVal.bytes (s.devices i).irk.val) ∧
    s.prefs (PKey.name i) = some (PVal.str (cstr (s.devices i).name)) ∧
    (cstr (s.devices i).name).length ≤ 19 ∧
    s.prefs (PKey.act i) = some (PVal.bool (s.devices i).active)

/-! ## Concrete values used to instantiate the theorems -/

/-- A key whose first byte is `b` and whose other bytes are zero. -/
def keyOf (b : Nat) : Irk := ⟨b :: List.replicate 15 0, by simp⟩

/-- A zero-filled device slot. -/
def zeroDevice : StoredDevice :=
  { irk := keyOf 0, name := List.replicate 20 0, active := false }

/-- A zero-filled log slot. -/
def zeroEntry : LogEntry := { timestamp := 0, deviceIndex := 0, action := 0, rssi := 0 }

/-- A freshly constructed `Storage` object: the member initialisers of the class
over zero-filled arrays and an empty store. -/
def initStorage : Storage :=
  { prefs := fun _ => none
    devices := fun _ => zeroDevice
    deviceCount := 0
    logBuffer := fun _ => zeroEntry
    logHead := 0
    logCount := 0
    settings := { rssiUnlockThreshold := -90, rssiLockThreshold := -80,
                  proximityTimeout := 10, weakSignalThreshold := 3 } }

/-- Three additions with distinct keys. -/
def threeAdds : List (Irk × List Nat) := [(keyOf 1, [65]), (keyOf 2, [66]), (keyOf 3, [67])]

/-- A name of 25 characters, longer than a name buffer holds. -/
def longName : List Nat := List.replicate 25 97

/-- The log entry number `k` of a test run: slot `k % 3`, an unlock, at `1000 * k` ms. -/
def sampleEntry (k : Nat) : LogEntry :=
  { timestamp := 1000 * k, deviceIndex := k % 3, action := 1, rssi := -70 }

/-- An `AuditLog` object before any synchronisation: its member initialisers. -/
def initAuditLog : AuditLog := { ntpSyncTime := 0, ntpSyncMillis := 0, ntpSynced := false }

/-- The registry after adding the keys `keyOf 1` and `keyOf 2`, named "A" and "B". -/
def twoDevices : Storage :=
  (addDevice (addDevice initStorage (keyOf 1) [65]).2 (keyOf 2) [66]).2

/-- A store whose persisted counters are all out of range. -/
def corruptPrefs : Prefs := fun k =>
  match k with
  | PKey.devCount => some (PVal.int 11)
  | PKey.logHead => some (PVal.uchar 50)
  | PKey.logCount => some (PVal.uchar 51)
  | _ => none

/-- A stand-in for the wall-clock rendering of the C library, which the unsynchronised
branch of `formatTime` never calls. -/
def noStrftime : Int → String → Nat → String := fun _ buffer _ => buffer

/-- A `Storage` object over a store whose counters are out of range. -/
def corruptStorage : Storage := { initStorage with prefs := corruptPrefs }

/-- The globals of the proximity logic at their start-up values. -/
def initGlobals : Globals :=
  { RSSI_UNLOCK_THRESHOLD := -90, RSSI_LOCK_THRESHOLD := -80, PROXIMITY_TIMEOUT := 10000,
    WEAK_SIGNAL_THRESHOLD := 3 }

/-- A request that carries only `timeout=300`. -/
def timeout300 : SettingsArgs :=
  { rssiUnlock := none, rssiLock := none, timeout := some 300, weakCount := none }

/-- A request that carries only `rssiLock=-75`. -/
def lockMinus75 : SettingsArgs :=
  { rssiUnlock := none, rssiLock := some (-75), timeout := none, weakCount := none }

/-- A registry whose only device is named "Unknown", with one log entry recorded
for its slot 0. -/
def namedUnknown : Storage :=
  addLogEntry (addDevice initStorage (keyOf 1) unknownName).2 0 1 (-70) 1000

/-- The registry `twoDevices` with one log entry recorded for slot 1 and one for slot 5. -/
def twoDevicesLogged : Storage :=
  addLogEntry (addLogEntry twoDevices 1 1 (-70) 1000) 5 0 (-85) 2000

/-- An environment in which the link is down, no request arrives and the time
source never answers, at time 0. -/
def quietEnv : Env :=
  { linkUp := false, now := 0, localIP := "", request := none, status := fun _ => false,
    timeOk := fun _ => false, unixTime := 0, syncMillis := 0 }

/-- An environment in which the link is up and the time source answers at once. -/
def linkUpEnv : Env :=
  { quietEnv with
    linkUp := true, now := 5000, localIP := "192.168.1.7", timeOk := fun _ => true,
    unixTime := 1700000000, syncMillis := 5000 }

/-- The manager after `begin` over an empty credential store. -/
def apWifi : WifiManager := ((WifiManager.init { ssid := none, pass := none }).begin true).1

/-- The manager after `begin` over stored credentials. -/
def stationWifi : WifiManager :=
  ((WifiManager.init { ssid := some "home", pass := some "secret" }).begin true).1

/-- The station-mode manager after a `connect()` at time 0 with the link down: it is
connecting, with attempt-start time 0. -/
def stuckWifi : WifiManager := (connect stationWifi initAuditLog quietEnv).wifi

/-- The quiet environment at 20000 ms. -/
def tick20000 : Env := { quietEnv with now := 20000 }

/-- The quiet environment at 40000 ms. -/
def tick40000 : Env := { quietEnv with now := 40000 }

/-- The station-mode manager after one tick with the link up, which synchronises the
time, and one tick with the link down. -/
def reconnecting : WifiManager :=
  (update (update stationWifi initAuditLog linkUpEnv).wifi
    (update stationWifi initAuditLog linkUpEnv).log quietEnv).wifi

/-- The audit log that goes with `reconnecting`. -/
def reconnectingLog : AuditLog :=
  (update (update stationWifi initAuditLog linkUpEnv).wifi
    (update stationWifi initAuditLog linkUpEnv).log quietEnv).log

/-- A run with the link down: `update` at 40 s, `connect` at 56 s, `update` at 60 s
and at 71 s. -/
def backoffRun : List (Nat × Call) :=
  [(40000, Call.update quietEnv), (56000, Call.connect quietEnv),
    (60000, Call.update quietEnv), (71000, Call.update quietEnv)]

/-- A tick of the portal that receives the credentials "home" and "secret" while
every status poll reports a connection. -/
def succeedingSave : Env :=
  { quietEnv with
    request := some (Request.save "home" "secret"), status := fun _ => true }

/-- A tick of the portal that receives the credentials "home" and "secret" while no
status poll reports a connection. -/
def failingSave : Env := { quietEnv with request := some (Request.save "home" "secret") }

/-- A request that carries all four fields, each outside the range of its type. -/
def outOfRange : SettingsArgs :=
  { rssiUnlock := some (-200), rssiLock := some 130, timeout := some 300,
    weakCount := some (-1) }

/-- The log after 60 appends to the empty log. -/
def wrappedLog : Storage := appendAll initStorage ((List.range 60).map sampleEntry)

/-- The calls of a session of the audit log: an event, a formatting, a reload. -/
def auditSession : List AuditOp :=
  [AuditOp.logEvent 0 1 (-70) 7000, AuditOp.formatTime 7000 16, AuditOp.begin,
    AuditOp.getEntryCount]

/-- An environment in which the link is up and the time source answers only the
eleventh query. -/
def lateAnswerEnv : Env :=
  { linkUpEnv with timeOk := fun k => decide (k = 10) }

/-- An environment in which the link is up and the time source answers the tenth
query. -/
def tenthAnswerEnv : Env :=
  { linkUpEnv with timeOk := fun k => decide (k = 9) }

/-- A run of registry calls: three additions, one of them a duplicate, a rename and
a delete. -/
def registrySession : List RegOp :=
  [RegOp.add (keyOf 1) [65], RegOp.add (keyOf 2) [66], RegOp.add (keyOf 1) [67],
    RegOp.add (keyOf 3) longName, RegOp.rename 1 [68, 69], RegOp.delete 0]

/-- A `Storage` object after a restart over the store that `registrySession` leaves. -/
def rebooted : Storage := { initStorage with prefs := (applyOps initStorage registrySession).prefs }

/-! ## Lemmas about the C library functions -/

theorem memcmp_eq_zero_iff_of_length :
    ∀ (n : Nat) (a b : List Nat), a.length = n → b.length = n →
      (memcmp a b n = 0 ↔ a = b) := by
  intro n
  induction n with
  | zero =>
    intro a b ha hb
    rw [List.length_eq_zero] at ha hb
    subst ha hb
    simp [memcmp]
  | succ n ih =>
    intro a b ha hb
    cases a with
    | nil => simp at ha
    | cons x xs =>
      cases b with
      | nil => simp at hb
      | cons y ys =>
        simp only [List.length_cons, Nat.add_right_cancel_iff] at ha hb
        by_cases hxy : x = y
        · subst hxy
          simp [memcmp, ih xs ys ha hb]
        · have hne : (x : Int) - (y : Int) ≠ 0 := by omega
          simp [memcmp, hxy, hne]

/-- On 16-byte keys `memcmp(a, b, 16) == 0` is equality of the keys. -/
theorem memcmp_irk_eq_zero_iff (a b : Irk) : memcmp a.val b.val 16 = 0 ↔ a = b := by
  rw [memcmp_eq_zero_iff_of_length 16 a.val b.val a.property b.property]
  exact Subtype.ext_iff.symm

theorem cstr_ne_zero {p : List Nat} {c : Nat} (h : c ∈ cstr p) : c ≠ 0 := by
  have := List.mem_takeWhile_imp h
  simpa using this

/-- The string held by a name buffer after `strncpy` and the forced terminator:
the source string cut to `DEVICE_NAME_LEN - 1` characters. -/
theorem cstr_setName (src : List Nat) : cstr (setName src) = (cstr src).take 19 := by
  have hpos : ∀ a ∈ (cstr src).take 19, (fun c : Nat => c != 0) a = true := by
    intro a ha
    have := cstr_ne_zero (List.mem_of_mem_take ha)
    simpa using this
  unfold setName strncpy
  show List.takeWhile (fun c => c != 0) _ = _
  simp only [DEVICE_NAME_LEN, List.append_assoc]
  rw [List.takeWhile_append_of_pos hpos]
  have hz : List.takeWhile (fun c : Nat => c != 0)
      (List.replicate (19 - ((cstr src).take 19).length) 0 ++ [0]) = [] := by
    cases (19 - ((cstr src).take 19).length) with
    | zero => simp
    | succ k => simp [List.replicate_succ]
  rw [hz, List.append_nil]

/-! ## Lemmas about the registry loops -/

theorem dupLoop_eq_true_iff (devices : Nat → StoredDevice) (irk : Irk) :
    ∀ (fuel i : Nat), dupLoop devices irk fuel i = true ↔
      ∃ j, i ≤ j ∧ j < i + fuel ∧ (devices j).irk = irk := by
  intro fuel
  induction fuel with
  | zero =>
    intro i
    simp only [dupLoop, Nat.add_zero, Bool.false_eq_true, false_iff, not_exists, not_and]
    intro j h1 h2
    omega
  | succ n ih =>
    intro i
    simp only [dupLoop]
    by_cases hm : memcmp (devices i).irk.val irk.val 16 = 0
    · simp only [hm, if_true, true_iff]
      exact ⟨i, le_refl i, by omega, (memcmp_irk_eq_zero_iff _ _).mp hm⟩
    · simp only [hm, if_false, ih (i + 1)]
      constructor
      · rintro ⟨j, h1, h2, h3⟩
        exact ⟨j, by omega, by omega, h3⟩
      · rintro ⟨j, h1, h2, h3⟩
        have hji : j ≠ i := by
          rintro rfl
          exact hm ((memcmp_irk_eq_zero_iff _ _).mpr h3)
        exact ⟨j, by omega, by omega, h3⟩

theorem shiftLoop_apply :
    ∀ (fuel i : Nat) (d : Nat → StoredDevice) (j : Nat),
      shiftLoop fuel i d j = if i ≤ j ∧ j < i + fuel then d (j + 1) else d j := by
  intro fuel
  induction fuel with
  | zero =>
    intro i d j
    have hno : ¬ (i ≤ j ∧ j < i) := by omega
    simp [shiftLoop, hno]
  | succ n ih =>
    intro i d j
    simp only [shiftLoop, ih]
    by_cases h1 : i + 1 ≤ j ∧ j < i + 1 + n
    · have h2 : i ≤ j ∧ j < i + (n + 1) := by omega
      have h3 : j + 1 ≠ i := by omega
      simp [h1, h2, Function.update_noteq h3]
    · by_cases hji : j = i
      · subst hji
        have h2 : j ≤ j ∧ j < j + (n + 1) := by omega
        simp [h1, h2]
      · have h2 : ¬ (i ≤ j ∧ j < i + (n + 1)) := by omega
        simp [h1, h2, Function.update_noteq hji]

@[simp]
theorem saveDevices_devices (s : Storage) : (saveDevices s).devices = s.devices := rfl

@[simp]
theorem saveDevices_deviceCount (s : Storage) :
    (saveDevices s).deviceCount = s.deviceCount := rfl

theorem dupLoop_registry_iff (s : Storage) (irk : Irk) :
    dupLoop s.devices irk s.deviceCount.toNat 0 = true ↔
      ∃ j : Nat, (j : Int) < s.deviceCount ∧ (s.devices j).irk = irk := by
  rw [dupLoop_eq_true_iff]
  constructor
  · rintro ⟨j, _, h2, h3⟩
    exact ⟨j, by omega, h3⟩
  · rintro ⟨j, h2, h3⟩
    exact ⟨j, by omega, by omega, h3⟩

/-- The method `addDevice` rejects when the registry is full or a live slot holds the key. -/
theorem addDevice_reject (s : Storage) (irk : Irk) (name : List Nat)
    (h : s.deviceCount ≥ 10 ∨
      ∃ j : Nat, (j : Int) < s.deviceCount ∧ (s.devices j).irk = irk) :
    addDevice s irk name = (false, s) := by
  unfold addDevice
  simp only [MAX_DEVICES, Nat.cast_ofNat]
  by_cases hfull : s.deviceCount ≥ 10
  · simp [hfull]
  · have hd := (dupLoop_registry_iff s irk).mpr (h.resolve_left hfull)
    simp [hfull, hd]

/-- The method `addDevice` appends and saves when there is room and no live slot holds
the key. -/
theorem addDevice_accept (s : Storage) (irk : Irk) (name : List Nat)
    (hroom : s.deviceCount < 10)
    (hnew : ∀ j : Nat, (j : Int) < s.deviceCount → (s.devices j).irk ≠ irk) :
    addDevice s irk name =
      (true, saveDevices
        { s with
          devices := Function.update s.devices s.deviceCount.toNat
            { irk := irk, name := setName name, active := true }
          deviceCount := s.deviceCount + 1 }) := by
  have hd : ¬ dupLoop s.devices irk s.deviceCount.toNat 0 = true := by
    rw [dupLoop_registry_iff]
    rintro ⟨j, h1, h2⟩
    exact hnew j h1 h2
  have hfull : ¬ s.deviceCount ≥ 10 := by omega
  unfold addDevice
  simp only [MAX_DEVICES, Nat.cast_ofNat]
  simp [hfull, hd]

theorem addAll_spec :
    ∀ (xs : List (Irk × List Nat)) (s : Storage) (k : Nat),
      s.deviceCount = (k : Int) → k + xs.length ≤ 10 → (xs.map Prod.fst).Nodup →
      (∀ j : Nat, j < k → ∀ x ∈ xs, (s.devices j).irk ≠ x.1) →
      (addAll s xs).1 = List.replicate xs.length true ∧
      (addAll s xs).2.deviceCount = ((k + xs.length : Nat) : Int) ∧
      (∀ j : Nat, j < k → (addAll s xs).2.devices j = s.devices j) ∧
      ∀ (i : Nat) (h : i < xs.length),
        ((addAll s xs).2.devices (k + i)).irk = (xs.get ⟨i, h⟩).1 := by
  intro xs
  induction xs with
  | nil =>
    intro s k hk _ _ _
    refine ⟨rfl, by simpa [addAll] using hk, fun j _ => rfl, ?_⟩
    intro i h
    simp at h
  | cons x rest ih =>
    intro s k hk hlen hnd hfresh
    simp only [List.length_cons] at hlen
    simp only [List.map_cons, List.nodup_cons, List.mem_map, not_exists, not_and] at hnd
    have hadd := addDevice_accept s x.1 x.2 (by omega)
      (fun j hj => hfresh j (by omega) x (List.mem_cons_self _ _))
    have hk1 : (addDevice s x.1 x.2).2.deviceCount = ((k + 1 : Nat) : Int) := by
      rw [hadd]
      simp [hk]
    have hdev : (addDevice s x.1 x.2).2.devices =
        Function.update s.devices k { irk := x.1, name := setName x.2, active := true } := by
      rw [hadd]
      simp [hk]
    have hfresh1 : ∀ j : Nat, j < k + 1 → ∀ y ∈ rest,
        ((addDevice s x.1 x.2).2.devices j).irk ≠ y.1 := by
      intro j hj y hy
      rw [hdev]
      by_cases hjk : j = k
      · subst hjk
        rw [Function.update_same]
        intro heq
        exact hnd.1 y hy heq.symm
      · rw [Function.update_noteq hjk]
        exact hfresh j (by omega) y (List.mem_cons_of_mem _ hy)
    obtain ⟨r1, r2, r3, r4⟩ :=
      ih (addDevice s x.1 x.2).2 (k + 1) hk1 (by omega) hnd.2 hfresh1
    refine ⟨?_, ?_, ?_, ?_⟩
    · simp only [addAll, r1, List.length_cons, List.replicate_succ]
      rw [hadd]
    · simp only [addAll, r2, List.length_cons]
      congr 1
      omega
    · intro j hj
      simp only [addAll]
      rw [r3 j (by omega), hdev, Function.update_noteq (by omega)]
    · intro i h
      cases i with
      | zero =>
        simp only [addAll, Nat.add_zero, List.get_eq_getElem, List.getElem_cons_zero]
        rw [r3 k (by omega), hdev, Function.update_same]
      | succ i =>
        have hi : i < rest.length := by simpa using h
        have := r4 i hi
        simp only [addAll, List.get_eq_getElem, List.getElem_cons_succ]
        rw [show k + (i + 1) = k + 1 + i by omega]
        simpa using this

/-! ## Lemmas about the audit log loops -/

theorem copyLoop_apply (buf : Nat → LogEntry) (startIdx : Nat) :
    ∀ (fuel i : Nat) (out : Nat → LogEntry) (j : Nat),
      copyLoop buf startIdx fuel i out j =
        if i ≤ j ∧ j < i + fuel then buf ((startIdx + j) % 50) else out j := by
  intro fuel
  induction fuel with
  | zero =>
    intro i out j
    have hno : ¬ (i ≤ j ∧ j < i) := by omega
    simp [copyLoop, hno]
  | succ n ih =>
    intro i out j
    simp only [copyLoop, ih, MAX_LOG_ENTRIES]
    by_cases h1 : i + 1 ≤ j ∧ j < i + 1 + n
    · have h2 : i ≤ j ∧ j < i + (n + 1) := by omega
      rw [if_pos h1, if_pos h2]
    · by_cases hji : j = i
      · subst hji
        have h2 : j ≤ j ∧ j < j + (n + 1) := by omega
        rw [if_neg h1, if_pos h2, Function.update_same]
      · have h2 : ¬ (i ≤ j ∧ j < i + (n + 1)) := by omega
        rw [if_neg h1, if_neg h2, Function.update_noteq hji]

theorem appendAll_append (s : Storage) (es fs : List LogEntry) :
    appendAll s (es ++ fs) = appendAll (appendAll s es) fs := by
  induction es generalizing s with
  | nil => rfl
  | cons e es ih => exact ih (addLogEntry s e.deviceIndex e.action e.rssi e.timestamp)

/-- The state of the ring after a run of appends from an empty log: `logHead` is the
number of appends modulo 50, `logCount` saturates at 50, and each of the last
50 appended entries sits at its ordinal modulo 50. -/
theorem appendAll_ring (s : Storage) (hhead : s.logHead = 0) (hcount : s.logCount = 0) :
    ∀ es : List LogEntry,
      (appendAll s es).logHead = es.length % 50 ∧
      (appendAll s es).logCount = min es.length 50 ∧
      ∀ (k : Nat) (h : k < es.length), es.length ≤ k + 50 →
        (appendAll s es).logBuffer (k % 50) = es.get ⟨k, h⟩ := by
  intro es
  induction es using List.reverseRecOn with
  | nil =>
    refine ⟨by simpa [appendAll] using hhead, by simpa [appendAll] using hcount, ?_⟩
    intro k h
    simp at h
  | append_singleton l a ih =>
    obtain ⟨ih1, ih2, ih3⟩ := ih
    rw [appendAll_append]
    simp only [appendAll, addLogEntry, MAX_LOG_ENTRIES, List.length_append,
      List.length_singleton, ih1, ih2]
    refine ⟨by omega, ?_, ?_⟩
    · split <;> omega
    · intro k h hk
      simp only [List.get_eq_getElem]
      by_cases hkl : k = l.length
      · subst hkl
        rw [Function.update_same, List.getElem_concat_length l a l.length rfl]
      · have hlt : k < l.length := by omega
        have hne : k % 50 ≠ l.length % 50 := by omega
        rw [Function.update_noteq hne, List.getElem_append_left hlt]
        simpa using ih3 k hlt (by omega)

/-! ## Lemmas about time reconciliation -/

/-- The signed difference is the representative of `t - M` modulo `2 ^ 32` in
the range of `int32_t`. -/
theorem millisDiff_range_congr (a : AuditLog) (t : Nat)
    (hM : a.ntpSyncMillis < 2 ^ 32) (ht : t < 2 ^ 32) :
    -(2 ^ 31) ≤ millisDiff a t ∧ millisDiff a t < 2 ^ 31 ∧
    (millisDiff a t - ((t : Int) - (a.ntpSyncMillis : Int))) % 2 ^ 32 = 0 := by
  unfold millisDiff toInt32 sub32
  have hmod : (t + 2 ^ 32 - a.ntpSyncMillis) % 2 ^ 32 % 2 ^ 32
      = (t + 2 ^ 32 - a.ntpSyncMillis) % 2 ^ 32 := Nat.mod_mod _ _
  rw [hmod]
  split <;> omega

theorem millisDiff_forward (a : AuditLog) (d : Nat)
    (hM : a.ntpSyncMillis < 2 ^ 32) (hd : d < 2 ^ 31) :
    millisDiff a ((a.ntpSyncMillis + d) % 2 ^ 32) = (d : Int) := by
  unfold millisDiff toInt32 sub32
  have hs : ((a.ntpSyncMillis + d) % 2 ^ 32 + 2 ^ 32 - a.ntpSyncMillis) % 2 ^ 32 = d := by
    omega
  have hdm : d % 2 ^ 32 = d := by omega
  rw [hs, hdm, if_pos hd]

theorem millisDiff_backward (a : AuditLog) (d : Nat)
    (hM : a.ntpSyncMillis < 2 ^ 32) (hd0 : 0 < d) (hd : d ≤ 2 ^ 31) :
    millisDiff a ((a.ntpSyncMillis + 2 ^ 32 - d) % 2 ^ 32) = -(d : Int) := by
  unfold millisDiff toInt32 sub32
  have hs : ((a.ntpSyncMillis + 2 ^ 32 - d) % 2 ^ 32 + 2 ^ 32 - a.ntpSyncMillis) % 2 ^ 32
      = 2 ^ 32 - d := by
    omega
  have hdm : (2 ^ 32 - d) % 2 ^ 32 = 2 ^ 32 - d := by omega
  have hbig : ¬ (2 ^ 32 - d < 2 ^ 31) := by omega
  rw [hs, hdm, if_neg hbig]
  omega

/-! ## Theorems about the device registry -/

/-- C1: starting from an empty registry, a run of at most 10 `addDevice` calls with
pairwise distinct keys succeeds at every call, ends with `deviceCount` equal to
the number of calls, and leaves the key of the i-th call in slot i. -/
theorem addDevice_preserves_insertion_order (s : Storage) (xs : List (Irk × List Nat))
    (hempty : s.deviceCount = 0) (hlen : xs.length ≤ 10)
    (hdistinct : (xs.map Prod.fst).Nodup) :
    (addAll s xs).1 = List.replicate xs.length true ∧
    (addAll s xs).2.deviceCount = (xs.length : Int) ∧
    ∀ (i : Nat) (h : i < xs.length),
      ((addAll s xs).2.devices i).irk = (xs.get ⟨i, h⟩).1 := by
  obtain ⟨r1, r2, _, r4⟩ :=
    addAll_spec xs s 0 (by simpa using hempty) (by omega) hdistinct
      (fun j hj => absurd hj (Nat.not_lt_zero j))
  refine ⟨r1, by simpa using r2, ?_⟩
  intro i h
  simpa using r4 i h

theorem addDevice_preserves_insertion_order_witness :
    initStorage.deviceCount = 0 ∧ threeAdds.length ≤ 10 ∧
    (threeAdds.map Prod.fst).Nodup ∧
    ((addAll initStorage threeAdds).1 = List.replicate threeAdds.length true ∧
      (addAll initStorage threeAdds).2.deviceCount = (threeAdds.length : Int) ∧
      ∀ (i : Nat) (h : i < threeAdds.length),
        ((addAll initStorage threeAdds).2.devices i).irk = (threeAdds.get ⟨i, h⟩).1) :=
  ⟨rfl, by decide, by decide,
    addDevice_preserves_insertion_order initStorage threeAdds rfl (by decide) (by decide)⟩

/-- C2: when the key passed to `addDevice` equals, byte for byte, the key of a
live slot, the call returns false for every name and leaves the whole state,
so `deviceCount` and every slot, as it was. -/
theorem addDevice_duplicate_rejected (s : Storage) (irk : Irk) (name : List Nat) (j : Nat)
    (hlive : (j : Int) < s.deviceCount) (hsame : (s.devices j).irk.val = irk.val) :
    (addDevice s irk name).1 = false ∧ (addDevice s irk name).2 = s := by
  have h := addDevice_reject s irk name (Or.inr ⟨j, hlive, Subtype.ext hsame⟩)
  rw [h]
  exact ⟨rfl, rfl⟩

theorem addDevice_duplicate_rejected_witness :
    ((1 : Nat) : Int) < twoDevices.deviceCount ∧
    (twoDevices.devices 1).irk.val = (keyOf 2).val ∧
    ((addDevice twoDevices (keyOf 2) [67]).1 = false ∧
      (addDevice twoDevices (keyOf 2) [67]).2 = twoDevices) :=
  ⟨by decide, by decide,
    addDevice_duplicate_rejected twoDevices (keyOf 2) [67] 1 (by decide) (by decide)⟩

/-- C3: in a registry with `0 ≤ deviceCount ≤ 10`, `addDevice` returns true exactly
when `deviceCount < 10` and no live slot holds the key; on success the slot at the
old `deviceCount` holds the key, the name cut to 19 characters and `active = true`,
`deviceCount` grows by one and every other slot is unchanged; on failure the
state is unchanged. -/
theorem addDevice_spec (s : Storage) (irk : Irk) (name : List Nat)
    (h0 : 0 ≤ s.deviceCount) (h10 : s.deviceCount ≤ 10) :
    ((addDevice s irk name).1 = true ↔
      (s.deviceCount < 10 ∧
        ∀ j : Nat, (j : Int) < s.deviceCount → (s.devices j).irk ≠ irk)) ∧
    ((addDevice s irk name).1 = true →
      ((addDevice s irk name).2.devices s.deviceCount.toNat).irk = irk ∧
      cstr ((addDevice s irk name).2.devices s.deviceCount.toNat).name
        = (cstr name).take 19 ∧
      ((addDevice s irk name).2.devices s.deviceCount.toNat).active = true ∧
      (addDevice s irk name).2.deviceCount = s.deviceCount + 1 ∧
      ∀ j : Nat, j ≠ s.deviceCount.toNat →
        (addDevice s irk name).2.devices j = s.devices j) ∧
    ((addDevice s irk name).1 = false → (addDevice s irk name).2 = s) := by
  by_cases hrej : s.deviceCount ≥ 10 ∨
      ∃ j : Nat, (j : Int) < s.deviceCount ∧ (s.devices j).irk = irk
  · rw [addDevice_reject s irk name hrej]
    refine ⟨⟨fun h => absurd h (by simp), ?_⟩, fun h => absurd h (by simp), fun _ => rfl⟩
    rintro ⟨hlt, hnew⟩
    rcases hrej with hfull | ⟨j, hj, hk⟩
    · omega
    · exact absurd hk (hnew j hj)
  · have hroom : s.deviceCount < 10 := by
      by_contra hge
      exact hrej (Or.inl (by omega))
    have hnew : ∀ j : Nat, (j : Int) < s.deviceCount → (s.devices j).irk ≠ irk :=
      fun j hj hk => hrej (Or.inr ⟨j, hj, hk⟩)
    rw [addDevice_accept s irk name hroom hnew]
    refine ⟨⟨fun _ => ⟨hroom, hnew⟩, fun _ => rfl⟩, fun _ => ?_, fun h => absurd h (by simp)⟩
    refine ⟨by simp, ?_, by simp, by simp, ?_⟩
    · simp [cstr_setName]
    · intro j hj
      simp [Function.update_noteq hj]

theorem addDevice_spec_witness :
    0 ≤ twoDevices.deviceCount ∧ twoDevices.deviceCount ≤ 10 ∧
    (((addDevice twoDevices (keyOf 3) longName).1 = true ↔
      (twoDevices.deviceCount < 10 ∧
        ∀ j : Nat, (j : Int) < twoDevices.deviceCount →
          (twoDevices.devices j).irk ≠ keyOf 3)) ∧
    ((addDevice twoDevices (keyOf 3) longName).1 = true →
      ((addDevice twoDevices (keyOf 3) longName).2.devices
        twoDevices.deviceCount.toNat).irk = keyOf 3 ∧
      cstr ((addDevice twoDevices (keyOf 3) longName).2.devices
        twoDevices.deviceCount.toNat).name = (cstr longName).take 19 ∧
      ((addDevice twoDevices (keyOf 3) longName).2.devices
        twoDevices.deviceCount.toNat).active = true ∧
      (addDevice twoDevices (keyOf 3) longName).2.deviceCount
        = twoDevices.deviceCount + 1 ∧
      ∀ j : Nat, j ≠ twoDevices.deviceCount.toNat →
        (addDevice twoDevices (keyOf 3) longName).2.devices j = twoDevices.devices j) ∧
    ((addDevice twoDevices (keyOf 3) longName).1 = false →
      (addDevice twoDevices (keyOf 3) longName).2 = twoDevices)) :=
  ⟨by decide, by decide,
    addDevice_spec twoDevices (keyOf 3) longName (by decide) (by decide)⟩

/-- C4: for an index `i` with `0 ≤ i < deviceCount`, `deleteDevice(i)` returns true, lowers `deviceCount` by exactly one,
leaves the slots below `i` unchanged and moves each later live slot one place
down; deleting the only entry of a one-entry registry leaves `deviceCount = 0`. -/
theorem deleteDevice_spec (s : Storage) (i : Int)
    (h0 : 0 ≤ i) (hi : i < s.deviceCount) :
    (deleteDevice s i).1 = true ∧
    (deleteDevice s i).2.deviceCount = s.deviceCount - 1 ∧
    (∀ j : Nat, (j : Int) < i → (deleteDevice s i).2.devices j = s.devices j) ∧
    (∀ j : Nat, i ≤ (j : Int) → (j : Int) < s.deviceCount - 1 →
      (deleteDevice s i).2.devices j = s.devices (j + 1)) ∧
    (s.deviceCount = 1 → (deleteDevice s i).2.deviceCount = 0) := by
  have hguard : ¬ (i < 0 ∨ i ≥ s.deviceCount) := by omega
  have hdel : deleteDevice s i =
      (true, saveDevices
        { s with
          devices := shiftLoop (s.deviceCount - 1 - i).toNat i.toNat s.devices
          deviceCount := s.deviceCount - 1 }) := by
    unfold deleteDevice
    rw [if_neg hguard]
  rw [hdel]
  refine ⟨rfl, by simp, ?_, ?_, ?_⟩
  · intro j hj
    have hno : ¬ (i.toNat ≤ j ∧ j < i.toNat + (s.deviceCount - 1 - i).toNat) := by omega
    simp only [saveDevices_devices]
    rw [shiftLoop_apply, if_neg hno]
  · intro j hj1 hj2
    have hyes : i.toNat ≤ j ∧ j < i.toNat + (s.deviceCount - 1 - i).toNat := by omega
    simp only [saveDevices_devices]
    rw [shiftLoop_apply, if_pos hyes]
  · intro h1
    simp [h1]

theorem deleteDevice_spec_witness :
    (0 : Int) ≤ 0 ∧ (0 : Int) < twoDevices.deviceCount ∧
    ((deleteDevice twoDevices 0).1 = true ∧
    (deleteDevice twoDevices 0).2.deviceCount = twoDevices.deviceCount - 1 ∧
    (∀ j : Nat, (j : Int) < 0 → (deleteDevice twoDevices 0).2.devices j = twoDevices.devices j) ∧
    (∀ j : Nat, 0 ≤ (j : Int) → (j : Int) < twoDevices.deviceCount - 1 →
      (deleteDevice twoDevices 0).2.devices j = twoDevices.devices (j + 1)) ∧
    (twoDevices.deviceCount = 1 → (deleteDevice twoDevices 0).2.deviceCount = 0)) :=
  ⟨by decide, by decide, deleteDevice_spec twoDevices 0 (by decide) (by decide)⟩

/-- C5: for an index that is negative or at least `deviceCount`, `renameDevice`
and `deleteDevice` both return false and leave the whole state unchanged:
`deviceCount`, every slot and the persisted store. -/
theorem invalid_index_rejected (s : Storage) (index : Int) (name : List Nat)
    (hbad : index < 0 ∨ index ≥ s.deviceCount) :
    renameDevice s index name = (false, s) ∧ deleteDevice s index = (false, s) := by
  unfold renameDevice deleteDevice
  simp only [if_pos hbad, and_self]

theorem invalid_index_rejected_witness :
    ((2 : Int) < 0 ∨ (2 : Int) ≥ twoDevices.deviceCount) ∧
    (renameDevice twoDevices 2 [67] = (false, twoDevices) ∧
      deleteDevice twoDevices 2 = (false, twoDevices)) :=
  ⟨by decide, invalid_index_rejected twoDevices 2 [67] (by decide)⟩

/-- C6: for a valid index `i` (`0 ≤ i < deviceCount`), `renameDevice(i, newName)`
returns true and sets the name of slot `i` to the first `min(len(newName), 19)`
characters of `newName`; the key and active flag of slot `i`, every other slot,
`deviceCount` and the log are unchanged, and the only store entry written is the
name of slot `i`. -/
theorem renameDevice_spec (s : Storage) (i : Int) (newName : List Nat)
    (h0 : 0 ≤ i) (hi : i < s.deviceCount) :
    (renameDevice s i newName).1 = true ∧
    cstr ((renameDevice s i newName).2.devices i.toNat).name
      = (cstr newName).take (min (cstr newName).length 19) ∧
    ((renameDevice s i newName).2.devices i.toNat).irk = (s.devices i.toNat).irk ∧
    ((renameDevice s i newName).2.devices i.toNat).active = (s.devices i.toNat).active ∧
    (∀ j : Nat, j ≠ i.toNat → (renameDevice s i newName).2.devices j = s.devices j) ∧
    (renameDevice s i newName).2.deviceCount = s.deviceCount ∧
    (renameDevice s i newName).2.logBuffer = s.logBuffer ∧
    (renameDevice s i newName).2.logHead = s.logHead ∧
    (renameDevice s i newName).2.logCount = s.logCount ∧
    (renameDevice s i newName).2.settings = s.settings ∧
    (renameDevice s i newName).2.prefs
      = s.prefs.put (PKey.name i.toNat) (PVal.str ((cstr newName).take 19)) ∧
    (∀ k : PKey, k ≠ PKey.name i.toNat → (renameDevice s i newName).2.prefs k = s.prefs k) := by
  have hguard : ¬ (i < 0 ∨ i ≥ s.deviceCount) := by omega
  have hlen : (cstr newName).take (min (cstr newName).length 19) = (cstr newName).take 19 := by
    rcases Nat.le_total (cstr newName).length 19 with h | h
    · rw [Nat.min_eq_left h, List.take_of_length_le (le_refl _), List.take_of_length_le h]
    · rw [Nat.min_eq_right h]
  unfold renameDevice
  rw [if_neg hguard]
  refine ⟨rfl, ?_, by simp, by simp, ?_, rfl, rfl, rfl, rfl, rfl, ?_, ?_⟩
  · simp [cstr_setName, hlen]
  · intro j hj
    simp [Function.update_noteq hj]
  · simp [cstr_setName]
  · intro k hk
    simp [Prefs.put, Function.update_noteq hk]

theorem renameDevice_spec_witness :
    (0 : Int) ≤ 1 ∧ (1 : Int) < twoDevices.deviceCount ∧
    (renameDevice twoDevices 1 longName).1 = true ∧
    cstr ((renameDevice twoDevices 1 longName).2.devices 1).name = List.replicate 19 97 ∧
    ((renameDevice twoDevices 1 longName).2.devices 1).irk = keyOf 2 :=
  ⟨by decide, by decide,
    (renameDevice_spec twoDevices 1 longName (by decide) (by decide)).1,
    (renameDevice_spec twoDevices 1 longName (by decide) (by decide)).2.1,
    (renameDevice_spec twoDevices 1 longName (by decide) (by decide)).2.2.1⟩

/-! ## Theorems about the audit log -/

/-- C7: starting from an empty log, after appending the entries `es` with
`addLogEntry`, `logCount` is `min(n, 50)` for `n` the number of entries, and
`getLogEntries(out, 50)` returns `min(n, 50)` and fills `out` with the last
`min(n, 50)` appended entries in append order, whatever the number of wraps;
after 51 appends these are the entries 2 to 51. -/
theorem getLogEntries_after_appends (s : Storage) (es : List LogEntry) (out : Nat → LogEntry)
    (hhead : s.logHead = 0) (hcount : s.logCount = 0) :
    (appendAll s es).logCount = min es.length 50 ∧
    (getLogEntries (appendAll s es) out 50).1 = ((min es.length 50 : Nat) : Int) ∧
    (List.range (min es.length 50)).map (getLogEntries (appendAll s es) out 50).2
      = es.drop (es.length - min es.length 50) ∧
    (es.length = 51 →
      (getLogEntries (appendAll s es) out 50).1 = 50 ∧
      (List.range 50).map (getLogEntries (appendAll s es) out 50).2 = es.tail) := by
  obtain ⟨r1, r2, r3⟩ := appendAll_ring s hhead hcount es
  have hret : (getLogEntries (appendAll s es) out 50).1 = ((min es.length 50 : Nat) : Int) := by
    unfold getLogEntries
    by_cases hz : (appendAll s es).logCount = 0
    · rw [if_pos hz]
      rw [r2] at hz
      simp [hz]
    · rw [if_neg hz]
      simp only [r2]
      omega
  have hout : (List.range (min es.length 50)).map (getLogEntries (appendAll s es) out 50).2
      = es.drop (es.length - min es.length 50) := by
    apply List.ext_getElem
    · simp only [List.length_map, List.length_range, List.length_drop]
      omega
    · intro i h1 h2
      have hi : i < min es.length 50 := by simpa using h1
      have hcnt : (appendAll s es).logCount ≠ 0 := by rw [r2]; omega
      have hfuel : (min ((appendAll s es).logCount : Int) 50).toNat = min es.length 50 := by
        rw [r2]
        omega
      have hin : 0 ≤ i ∧ i < 0 + min es.length 50 := by omega
      simp only [List.getElem_map, List.getElem_range, List.getElem_drop]
      unfold getLogEntries
      rw [if_neg hcnt]
      simp only [hfuel, copyLoop_apply, if_pos hin, MAX_LOG_ENTRIES]
      by_cases hfull : es.length < 50
      · have hlt : (appendAll s es).logCount < 50 := by rw [r2]; omega
        have hidx : es.length - min es.length 50 + i = i := by omega
        have hk := r3 i (by omega) (by omega)
        simp only [List.get_eq_getElem] at hk
        rw [if_pos hlt]
        simp only [Nat.zero_add, hidx]
        rw [← hk]
      · have hge : ¬ (appendAll s es).logCount < 50 := by rw [r2]; omega
        have hk := r3 (es.length - min es.length 50 + i) (by omega) (by omega)
        simp only [List.get_eq_getElem] at hk
        rw [if_neg hge, r1, ← hk]
        congr 1
        omega
  refine ⟨r2, hret, hout, ?_⟩
  intro h51
  refine ⟨by rw [hret, h51]; rfl, ?_⟩
  have := hout
  rw [h51] at this
  simpa using this

theorem getLogEntries_after_appends_witness :
    initStorage.logHead = 0 ∧ initStorage.logCount = 0 ∧
    ((appendAll initStorage ((List.range 51).map sampleEntry)).logCount
        = min ((List.range 51).map sampleEntry).length 50 ∧
    (getLogEntries (appendAll initStorage ((List.range 51).map sampleEntry))
        (fun _ => zeroEntry) 50).1
      = ((min ((List.range 51).map sampleEntry).length 50 : Nat) : Int) ∧
    (List.range (min ((List.range 51).map sampleEntry).length 50)).map
        (getLogEntries (appendAll initStorage ((List.range 51).map sampleEntry))
          (fun _ => zeroEntry) 50).2
      = ((List.range 51).map sampleEntry).drop
          (((List.range 51).map sampleEntry).length
            - min ((List.range 51).map sampleEntry).length 50) ∧
    (((List.range 51).map sampleEntry).length = 51 →
      (getLogEntries (appendAll initStorage ((List.range 51).map sampleEntry))
          (fun _ => zeroEntry) 50).1 = 50 ∧
      (List.range 50).map
          (getLogEntries (appendAll initStorage ((List.range 51).map sampleEntry))
            (fun _ => zeroEntry) 50).2
        = ((List.range 51).map sampleEntry).tail)) :=
  ⟨rfl, rfl,
    getLogEntries_after_appends initStorage ((List.range 51).map sampleEntry)
      (fun _ => zeroEntry) rfl rfl⟩

/-- C8: with `logHead < 50` and `logCount ≤ 50`, `addLogEntry` writes the four
given values into the buffer slot at the old `logHead` and into no other slot,
sets `logHead` to `(logHead + 1) mod 50` and `logCount` to `min(logCount + 1, 50)`;
on a full log it does the same, overwriting the slot at `logHead`, and has no
failure result. The registry and the settings are not touched. -/
theorem addLogEntry_spec (s : Storage) (deviceIndex action : Nat) (rssi : Int)
    (timestamp : Nat) (_hhead : s.logHead < 50) (hcount : s.logCount ≤ 50) :
    (addLogEntry s deviceIndex action rssi timestamp).logBuffer s.logHead
      = { timestamp := timestamp, deviceIndex := deviceIndex, action := action,
          rssi := rssi } ∧
    (∀ j : Nat, j ≠ s.logHead →
      (addLogEntry s deviceIndex action rssi timestamp).logBuffer j = s.logBuffer j) ∧
    (addLogEntry s deviceIndex action rssi timestamp).logHead = (s.logHead + 1) % 50 ∧
    (addLogEntry s deviceIndex action rssi timestamp).logCount = min (s.logCount + 1) 50 ∧
    (s.logCount = 50 →
      (addLogEntry s deviceIndex action rssi timestamp).logCount = 50) ∧
    (addLogEntry s deviceIndex action rssi timestamp).devices = s.devices ∧
    (addLogEntry s deviceIndex action rssi timestamp).deviceCount = s.deviceCount ∧
    (addLogEntry s deviceIndex action rssi timestamp).settings = s.settings := by
  refine ⟨?_, ?_, ?_, ?_, ?_, rfl, rfl, rfl⟩
  · simp only [addLogEntry, Function.update_same]
  · intro j hj
    simp only [addLogEntry, Function.update_noteq hj]
  · simp only [addLogEntry, MAX_LOG_ENTRIES]
    omega
  · simp only [addLogEntry, MAX_LOG_ENTRIES]
    split <;> omega
  · intro h50
    simp only [addLogEntry, MAX_LOG_ENTRIES, h50]
    rfl

theorem addLogEntry_spec_witness :
    initStorage.logHead < 50 ∧ initStorage.logCount ≤ 50 ∧
    (addLogEntry initStorage 2 1 (-70) 5000).logBuffer 0
      = { timestamp := 5000, deviceIndex := 2, action := 1, rssi := -70 } ∧
    (addLogEntry initStorage 2 1 (-70) 5000).logHead = 1 ∧
    (addLogEntry initStorage 2 1 (-70) 5000).logCount = 1 :=
  ⟨by decide, by decide,
    (addLogEntry_spec initStorage 2 1 (-70) 5000 (by decide) (by decide)).1,
    (addLogEntry_spec initStorage 2 1 (-70) 5000 (by decide) (by decide)).2.2.1,
    (addLogEntry_spec initStorage 2 1 (-70) 5000 (by decide) (by decide)).2.2.2.1⟩

/-! ## Theorems about time reconciliation -/

/-- C9: after `setNtpSync` anchors wall-clock `T` at monotonic `M`, for every
elapsed `d` with `0 ≤ d < 2 ^ 31` ms, `millisToRealTime((M + d) mod 2 ^ 32)` is
`T + floor(d / 1000)`, also when `M + d` passes `2 ^ 32`; for `d = 90000` it is
`T + 90`. -/
theorem millisToRealTime_after_anchor (a : AuditLog) (T : Int) (M d : Nat)
    (hM : M < 2 ^ 32) (hd : d < 2 ^ 31) :
    millisToRealTime (setNtpSync a T M) ((M + d) % 2 ^ 32) = T + ((d / 1000 : Nat) : Int) ∧
    (d = 90000 → millisToRealTime (setNtpSync a T M) ((M + d) % 2 ^ 32) = T + 90) := by
  have hdiff := millisDiff_forward (setNtpSync a T M) d hM hd
  have hval : millisToRealTime (setNtpSync a T M) ((M + d) % 2 ^ 32)
      = T + ((d / 1000 : Nat) : Int) := by
    have hsync : (setNtpSync a T M).ntpSyncMillis = M := rfl
    rw [hsync] at hdiff
    unfold millisToRealTime
    rw [hdiff, Int.ofNat_tdiv]
    simp [setNtpSync]
  refine ⟨hval, ?_⟩
  intro h90
  rw [hval, h90]
  rfl

theorem millisToRealTime_after_anchor_witness :
    (4294960000 : Nat) < 2 ^ 32 ∧ (90000 : Nat) < 2 ^ 31 ∧
    millisToRealTime (setNtpSync initAuditLog 1700000000 4294960000)
      ((4294960000 + 90000) % 2 ^ 32) = 1700000000 + ((90000 / 1000 : Nat) : Int) ∧
    millisToRealTime (setNtpSync initAuditLog 1700000000 4294960000) 82704 = 1700000090 :=
  ⟨by decide, by decide,
    (millisToRealTime_after_anchor initAuditLog 1700000000 4294960000 90000
      (by decide) (by decide)).1,
    (millisToRealTime_after_anchor initAuditLog 1700000000 4294960000 90000
      (by decide) (by decide)).2 rfl⟩

/-- C10: for every anchor `(T, M)` and every 32-bit timestamp `t`,
`millisToRealTime` adds to `T` the quotient by 1000 of a signed difference that
is the two's-complement reading of `(t - M) mod 2 ^ 32`: it is congruent to
`t - M` modulo `2 ^ 32`, lies in `[-2 ^ 31, 2 ^ 31)` and is smaller in magnitude
than the wrap period `2 ^ 32`. So for an entry recorded `d` ms before the anchor,
`0 < d ≤ 2 ^ 31`, wrapped counter or not, the result is `T - floor(d / 1000)`. -/
theorem millisToRealTime_signed_difference (a : AuditLog) (T : Int) (M t : Nat)
    (hM : M < 2 ^ 32) (ht : t < 2 ^ 32) :
    millisToRealTime (setNtpSync a T M) t
      = T + Int.tdiv (millisDiff (setNtpSync a T M) t) 1000 ∧
    (millisDiff (setNtpSync a T M) t - ((t : Int) - (M : Int))) % 2 ^ 32 = 0 ∧
    -(2 ^ 31) ≤ millisDiff (setNtpSync a T M) t ∧
    millisDiff (setNtpSync a T M) t < 2 ^ 31 ∧
    |millisDiff (setNtpSync a T M) t| < 2 ^ 32 ∧
    (∀ d : Nat, 0 < d → d ≤ 2 ^ 31 → t = (M + 2 ^ 32 - d) % 2 ^ 32 →
      millisToRealTime (setNtpSync a T M) t = T - ((d / 1000 : Nat) : Int)) := by
  obtain ⟨hlo, hhi, hcongr⟩ := millisDiff_range_congr (setNtpSync a T M) t hM ht
  have hconv : millisToRealTime (setNtpSync a T M) t
      = T + Int.tdiv (millisDiff (setNtpSync a T M) t) 1000 := by
    simp [millisToRealTime, setNtpSync]
  refine ⟨hconv, hcongr, hlo, hhi, ?_, ?_⟩
  · rw [abs_lt]
    constructor <;> omega
  · intro d hd0 hd ht'
    have hback := millisDiff_backward (setNtpSync a T M) d hM hd0 hd
    have hsync : (setNtpSync a T M).ntpSyncMillis = M := rfl
    rw [hsync, ← ht'] at hback
    rw [hconv, hback, Int.neg_tdiv, Int.ofNat_tdiv]
    rfl

theorem millisToRealTime_signed_difference_witness :
    (1000 : Nat) < 2 ^ 32 ∧ (4294964796 : Nat) < 2 ^ 32 ∧
    millisToRealTime (setNtpSync initAuditLog 1700000000 1000) 4294964796 = 1699999997 :=
  ⟨by decide, by decide,
    (millisToRealTime_signed_difference initAuditLog 1700000000 1000 4294964796
      (by decide) (by decide)).2.2.2.2.2 3500 (by decide) (by decide) (by decide)⟩

/-! ## Theorems about the bounds of the data model -/

/-- C20: for every persisted content `loadDevices` leaves `0 ≤ deviceCount ≤ 10`
and `loadLog` leaves `logCount ≤ 50` and `logHead < 50`, an out-of-range
persisted value being replaced by 0, so the bounds hold after both loads; and
`addDevice`, `renameDevice`, `deleteDevice` and `addLogEntry` keep the bounds
for every argument. -/
theorem storage_bounds (s : Storage) :
    (0 ≤ (loadDevices s).2.deviceCount ∧ (loadDevices s).2.deviceCount ≤ 10) ∧
    ((s.prefs.getInt PKey.devCount 0 < 0 ∨ s.prefs.getInt PKey.devCount 0 > 10) →
      (loadDevices s).2.deviceCount = 0) ∧
    ((loadLog s).logCount ≤ 50 ∧ (loadLog s).logHead < 50) ∧
    (s.prefs.getUChar PKey.logCount 0 > 50 → (loadLog s).logCount = 0) ∧
    (s.prefs.getUChar PKey.logHead 0 ≥ 50 → (loadLog s).logHead = 0) ∧
    (loadLog (loadDevices s).2).inBounds ∧
    (loadDevices (loadLog s)).2.inBounds ∧
    (s.inBounds →
      (∀ (irk : Irk) (name : List Nat), (addDevice s irk name).2.inBounds) ∧
      (∀ (index : Int) (name : List Nat), (renameDevice s index name).2.inBounds) ∧
      (∀ index : Int, (deleteDevice s index).2.inBounds) ∧
      (∀ (deviceIndex action : Nat) (rssi : Int) (timestamp : Nat),
        (addLogEntry s deviceIndex action rssi timestamp).inBounds)) := by
  have hdev : ∀ t : Storage,
      0 ≤ (loadDevices t).2.deviceCount ∧ (loadDevices t).2.deviceCount ≤ 10 := by
    intro t
    unfold loadDevices
    simp only [MAX_DEVICES, Nat.cast_ofNat]
    split
    · simp
    · constructor <;> simp only <;> omega
  have hlog : ∀ t : Storage, (loadLog t).logCount ≤ 50 ∧ (loadLog t).logHead < 50 := by
    intro t
    unfold loadLog
    simp only [MAX_LOG_ENTRIES]
    constructor <;> split <;> omega
  have hdevlog : ∀ t : Storage, (loadDevices t).2.logCount = t.logCount ∧
      (loadDevices t).2.logHead = t.logHead ∧ (loadDevices t).2.prefs = t.prefs := by
    intro t
    unfold loadDevices
    split <;> exact ⟨rfl, rfl, rfl⟩
  refine ⟨hdev s, ?_, hlog s, ?_, ?_, ?_, ?_, ?_⟩
  · intro h
    unfold loadDevices
    simp only [MAX_DEVICES, Nat.cast_ofNat]
    rw [if_pos h]
  · intro h
    unfold loadLog
    simp only [MAX_LOG_ENTRIES]
    rw [if_pos h]
  · intro h
    unfold loadLog
    simp only [MAX_LOG_ENTRIES]
    rw [if_pos h]
  · exact ⟨(hdev s).1, (hdev s).2, (hlog _).1, (hlog _).2⟩
  · obtain ⟨h1, h2, _⟩ := hdevlog (loadLog s)
    refine ⟨(hdev _).1, (hdev _).2, ?_, ?_⟩
    · rw [h1]
      exact (hlog s).1
    · rw [h2]
      exact (hlog s).2
  · rintro ⟨h0, h10, hc, hh⟩
    refine ⟨?_, ?_, ?_, ?_⟩
    · intro irk name
      unfold addDevice
      simp only [MAX_DEVICES, Nat.cast_ofNat]
      split
      · exact ⟨h0, h10, hc, hh⟩
      · split
        · exact ⟨h0, h10, hc, hh⟩
        · refine ⟨?_, ?_, hc, hh⟩ <;> simp only [saveDevices_deviceCount] <;> omega
    · intro index name
      unfold renameDevice
      split
      · exact ⟨h0, h10, hc, hh⟩
      · exact ⟨h0, h10, hc, hh⟩
    · intro index
      unfold deleteDevice
      split
      · exact ⟨h0, h10, hc, hh⟩
      · refine ⟨?_, ?_, hc, hh⟩ <;> simp only [saveDevices_deviceCount] <;> omega
    · intro deviceIndex action rssi timestamp
      refine ⟨h0, h10, ?_, ?_⟩
      · simp only [addLogEntry, MAX_LOG_ENTRIES]
        split <;> omega
      · simp only [addLogEntry, MAX_LOG_ENTRIES]
        omega

theorem storage_bounds_witness :
    (corruptPrefs.getInt PKey.devCount 0 < 0 ∨ corruptPrefs.getInt PKey.devCount 0 > 10) ∧
    (loadDevices corruptStorage).2.deviceCount = 0 ∧
    initStorage.inBounds ∧
    (addLogEntry initStorage 2 1 (-70) 5000).inBounds :=
  ⟨by decide, (storage_bounds corruptStorage).2.1 (by decide), by decide,
    ((storage_bounds initStorage).2.2.2.2.2.2.2 (by decide)).2.2.2 2 1 (-70) 5000⟩

/-! ## Theorems about time formatting -/

theorem toDigits_length_le (n e : Nat) (hlt : n < 10 ^ e) (hpos : 0 < e) :
    (Nat.toDigits 10 n).length ≤ e :=
  Nat.toDigitsCore_length 10 (by decide) (n + 1) n e hlt hpos

/-- Below 100 the conversion `%02lu` prints the tens digit and the units digit. -/
theorem fmt02Lu_lt_sixty (n : Nat) (h : n < 60) :
    fmt02Lu n = [Nat.digitChar (n / 10), Nat.digitChar (n % 10)] := by
  interval_cases n <;> rfl

theorem snprintf_fits (buffer : String) (bufSize : Nat) (out : List Char)
    (h : out.length + 1 ≤ bufSize) : snprintf buffer bufSize out = String.mk out := by
  unfold snprintf
  rw [if_neg (by omega), List.take_of_length_le (by omega)]

/-- C11: while unsynced, for a 32-bit timestamp `ms` with `s = ms / 1000`,
`m = s / 60` and `h = m / 60`, `formatTime` into a buffer of at least 10 bytes
(the caller passes 16) renders `+<s>s` when `m = 0`, `+<m>m` followed by the two
digits of `s mod 60` and `s` when `m > 0` and `h = 0`, and `+<h>h` followed by the
two digits of `m mod 60` and `m` when `h > 0`; for `ms = 125000` it renders
`+2m05s`. -/
theorem formatTime_unsynced (strftime : Int → String → Nat → String) (a : AuditLog)
    (ms : Nat) (buffer : String) (bufSize : Nat)
    (hunsynced : a.ntpSynced = false) (hms : ms < 2 ^ 32) (hbuf : 10 ≤ bufSize) :
    (ms / 1000 / 60 = 0 →
      formatTime strftime a ms buffer bufSize
        = String.mk (['+'] ++ Nat.toDigits 10 (ms / 1000) ++ ['s'])) ∧
    (0 < ms / 1000 / 60 → ms / 1000 / 60 / 60 = 0 →
      formatTime strftime a ms buffer bufSize
        = String.mk (['+'] ++ Nat.toDigits 10 (ms / 1000 / 60) ++ ['m']
            ++ [Nat.digitChar (ms / 1000 % 60 / 10), Nat.digitChar (ms / 1000 % 60 % 10)]
            ++ ['s'])) ∧
    (0 < ms / 1000 / 60 / 60 →
      formatTime strftime a ms buffer bufSize
        = String.mk (['+'] ++ Nat.toDigits 10 (ms / 1000 / 60 / 60) ++ ['h']
            ++ [Nat.digitChar (ms / 1000 / 60 % 60 / 10),
                Nat.digitChar (ms / 1000 / 60 % 60 % 10)]
            ++ ['m'])) ∧
    (ms = 125000 → formatTime strftime a ms buffer bufSize = "+2m05s") := by
  have hcase1 : ms / 1000 / 60 = 0 →
      formatTime strftime a ms buffer bufSize
        = String.mk (['+'] ++ Nat.toDigits 10 (ms / 1000) ++ ['s']) := by
    intro hm
    have hh : ¬ ms / 1000 / 60 / 60 > 0 := by omega
    have hm0 : ¬ ms / 1000 / 60 > 0 := by omega
    have hlen := toDigits_length_le (ms / 1000) 2 (by omega) (by decide)
    unfold formatTime
    simp only [hunsynced, Bool.false_eq_true, if_false, hh, hm0, fmtLu]
    apply snprintf_fits
    simp only [List.length_append, List.length_singleton]
    omega
  have hcase2 : 0 < ms / 1000 / 60 → ms / 1000 / 60 / 60 = 0 →
      formatTime strftime a ms buffer bufSize
        = String.mk (['+'] ++ Nat.toDigits 10 (ms / 1000 / 60) ++ ['m']
            ++ [Nat.digitChar (ms / 1000 % 60 / 10), Nat.digitChar (ms / 1000 % 60 % 10)]
            ++ ['s']) := by
    intro hm hh0
    have hh : ¬ ms / 1000 / 60 / 60 > 0 := by omega
    have hlen := toDigits_length_le (ms / 1000 / 60) 2 (by omega) (by decide)
    unfold formatTime
    simp only [hunsynced, Bool.false_eq_true, if_false, hh, gt_iff_lt, hm, if_true, fmtLu]
    rw [fmt02Lu_lt_sixty _ (Nat.mod_lt _ (by decide))]
    apply snprintf_fits
    simp only [List.length_append, List.length_singleton, List.length_cons, List.length_nil]
    omega
  have hcase3 : 0 < ms / 1000 / 60 / 60 →
      formatTime strftime a ms buffer bufSize
        = String.mk (['+'] ++ Nat.toDigits 10 (ms / 1000 / 60 / 60) ++ ['h']
            ++ [Nat.digitChar (ms / 1000 / 60 % 60 / 10),
                Nat.digitChar (ms / 1000 / 60 % 60 % 10)]
            ++ ['m']) := by
    intro hh
    have hlen := toDigits_length_le (ms / 1000 / 60 / 60) 4 (by omega) (by decide)
    unfold formatTime
    simp only [hunsynced, Bool.false_eq_true, if_false, gt_iff_lt, hh, if_true, fmtLu]
    rw [fmt02Lu_lt_sixty _ (Nat.mod_lt _ (by decide))]
    apply snprintf_fits
    simp only [List.length_append, List.length_singleton, List.length_cons, List.length_nil]
    omega
  refine ⟨hcase1, hcase2, hcase3, ?_⟩
  intro h125
  subst h125
  rw [hcase2 (by decide) (by decide)]
  decide

theorem formatTime_unsynced_witness :
    initAuditLog.ntpSynced = false ∧ (125000 : Nat) < 2 ^ 32 ∧ (10 : Nat) ≤ 16 ∧
    formatTime noStrftime initAuditLog 125000 "" 16 = "+2m05s" :=
  ⟨rfl, by decide, by decide,
    (formatTime_unsynced noStrftime initAuditLog 125000 "" 16 rfl (by decide)
      (by decide)).2.2.2 rfl⟩

/-! ## Theorems about the settings handler -/

theorem postSettings_settings (s : Storage) (g : Globals) (r : SettingsArgs) :
    (postSettings s g r).storage.settings = assignSettings s.settings r := by
  dsimp only [postSettings]
  split <;> rfl

theorem assignSettings_rssiUnlock (st : KeylessSettings) (r : SettingsArgs) :
    (assignSettings st r).rssiUnlockThreshold
      = match r.rssiUnlock with
        | some v => toInt8 v
        | none => st.rssiUnlockThreshold := by
  obtain ⟨a, b, c, d⟩ := r
  cases a <;> cases b <;> cases c <;> cases d <;> rfl

theorem assignSettings_rssiLock (st : KeylessSettings) (r : SettingsArgs) :
    (assignSettings st r).rssiLockThreshold
      = match r.rssiLock with
        | some v => toInt8 v
        | none => st.rssiLockThreshold := by
  obtain ⟨a, b, c, d⟩ := r
  cases a <;> cases b <;> cases c <;> cases d <;> rfl

theorem assignSettings_timeout (st : KeylessSettings) (r : SettingsArgs) :
    (assignSettings st r).proximityTimeout
      = match r.timeout with
        | some v => toUInt8 v
        | none => st.proximityTimeout := by
  obtain ⟨a, b, c, d⟩ := r
  cases a <;> cases b <;> cases c <;> cases d <;> rfl

theorem assignSettings_weakCount (st : KeylessSettings) (r : SettingsArgs) :
    (assignSettings st r).weakSignalThreshold
      = match r.weakCount with
        | some v => toUInt8 v
        | none => st.weakSignalThreshold := by
  obtain ⟨a, b, c, d⟩ := r
  cases a <;> cases b <;> cases c <;> cases d <;> rfl

theorem toInt8_eq_of_range (v : Int) (hlo : -128 ≤ v) (hhi : v ≤ 127) : toInt8 v = v := by
  unfold toInt8
  omega

theorem toUInt8_cast (v : Int) : ((toUInt8 v : Nat) : Int) = v % 256 := by
  unfold toUInt8
  omega

/-- C16: a settings update that carries at least one of the four fields is
answered with success, and then each live value of the proximity logic equals
the field of the settings record (`PROXIMITY_TIMEOUT` being `proximityTimeout * 1000`)
and the store holds the same four field values. -/
theorem postSettings_applied (s : Storage) (g : Globals) (r : SettingsArgs)
    (hsome : r.rssiUnlock ≠ none ∨ r.rssiLock ≠ none ∨ r.timeout ≠ none ∨
      r.weakCount ≠ none) :
    (postSettings s g r).code = 200 ∧
    (postSettings s g r).globals.RSSI_UNLOCK_THRESHOLD
      = (postSettings s g r).storage.settings.rssiUnlockThreshold ∧
    (postSettings s g r).globals.RSSI_LOCK_THRESHOLD
      = (postSettings s g r).storage.settings.rssiLockThreshold ∧
    (postSettings s g r).globals.WEAK_SIGNAL_THRESHOLD
      = ((postSettings s g r).storage.settings.weakSignalThreshold : Int) ∧
    (postSettings s g r).globals.PROXIMITY_TIMEOUT
      = (postSettings s g r).storage.settings.proximityTimeout * 1000 ∧
    (postSettings s g r).storage.prefs PKey.rssiUnlock
      = some (PVal.char (postSettings s g r).storage.settings.rssiUnlockThreshold) ∧
    (postSettings s g r).storage.prefs PKey.rssiLock
      = some (PVal.char (postSettings s g r).storage.settings.rssiLockThreshold) ∧
    (postSettings s g r).storage.prefs PKey.proxTimeout
      = some (PVal.uchar (postSettings s g r).storage.settings.proximityTimeout) ∧
    (postSettings s g r).storage.prefs PKey.weakSigThr
      = some (PVal.uchar (postSettings s g r).storage.settings.weakSignalThreshold) := by
  have hchanged : (r.rssiUnlock.isSome || r.rssiLock.isSome || r.timeout.isSome
      || r.weakCount.isSome) = true := by
    obtain ⟨a, b, c, d⟩ := r
    cases a <;> cases b <;> cases c <;> cases d <;> simp at hsome ⊢
  have heq : postSettings s g r =
      { code := 200
        storage := saveSettings { s with settings := assignSettings s.settings r }
        globals :=
          { RSSI_UNLOCK_THRESHOLD := (assignSettings s.settings r).rssiUnlockThreshold
            RSSI_LOCK_THRESHOLD := (assignSettings s.settings r).rssiLockThreshold
            PROXIMITY_TIMEOUT := (assignSettings s.settings r).proximityTimeout * 1000
            WEAK_SIGNAL_THRESHOLD :=
              ((assignSettings s.settings r).weakSignalThreshold : Int) } } := by
    dsimp only [postSettings]
    rw [if_pos hchanged]
    rfl
  rw [heq]
  refine ⟨rfl, rfl, rfl, rfl, rfl, ?_, ?_, ?_, ?_⟩ <;>
    simp [saveSettings, Prefs.put, Function.update]

theorem postSettings_applied_witness :
    (lockMinus75.rssiUnlock ≠ none ∨ lockMinus75.rssiLock ≠ none ∨
      lockMinus75.timeout ≠ none ∨ lockMinus75.weakCount ≠ none) ∧
    (postSettings initStorage initGlobals lockMinus75).code = 200 ∧
    (postSettings initStorage initGlobals lockMinus75).globals.RSSI_LOCK_THRESHOLD = -75 ∧
    (postSettings initStorage initGlobals lockMinus75).storage.prefs PKey.rssiLock
      = some (PVal.char (-75)) :=
  ⟨by decide,
    (postSettings_applied initStorage initGlobals lockMinus75 (by decide)).1,
    (postSettings_applied initStorage initGlobals lockMinus75 (by decide)).2.2.1,
    (postSettings_applied initStorage initGlobals lockMinus75 (by decide)).2.2.2.2.2.2.1⟩

/-- C17, as stated, fails: a request that carries `timeout=300` leaves 44 in
`proximityTimeout`, not the submitted 300. -/
theorem postSettings_timeout_300_not_kept :
    timeout300.timeout = some 300 ∧
    (postSettings initStorage initGlobals timeout300).storage.settings.proximityTimeout = 44 ∧
    ¬ (((postSettings initStorage initGlobals timeout300).storage.settings.proximityTimeout
        : Int) = 300) := by
  decide

/-- C17, amended: in a settings update each field whose argument is absent keeps its
value; each field whose argument `v` is present takes `v` reduced to the 8-bit
type of the field, `((v + 128) mod 256) - 128` for the two thresholds and
`v mod 256` for the timeout and the weak-signal count, which is `v` itself when
`v` is in the range of the type; a request with none of the four fields is
answered with 400 and changes neither the settings, the live values nor the
store. -/
theorem postSettings_fields (s : Storage) (g : Globals) (r : SettingsArgs) :
    (r.rssiUnlock = none →
      (postSettings s g r).storage.settings.rssiUnlockThreshold
        = s.settings.rssiUnlockThreshold) ∧
    (∀ v : Int, r.rssiUnlock = some v →
      (postSettings s g r).storage.settings.rssiUnlockThreshold = (v + 128) % 256 - 128 ∧
      (-128 ≤ v → v ≤ 127 →
        (postSettings s g r).storage.settings.rssiUnlockThreshold = v)) ∧
    (r.rssiLock = none →
      (postSettings s g r).storage.settings.rssiLockThreshold
        = s.settings.rssiLockThreshold) ∧
    (∀ v : Int, r.rssiLock = some v →
      (postSettings s g r).storage.settings.rssiLockThreshold = (v + 128) % 256 - 128 ∧
      (-128 ≤ v → v ≤ 127 →
        (postSettings s g r).storage.settings.rssiLockThreshold = v)) ∧
    (r.timeout = none →
      (postSettings s g r).storage.settings.proximityTimeout
        = s.settings.proximityTimeout) ∧
    (∀ v : Int, r.timeout = some v →
      ((postSettings s g r).storage.settings.proximityTimeout : Int) = v % 256 ∧
      (0 ≤ v → v ≤ 255 →
        ((postSettings s g r).storage.settings.proximityTimeout : Int) = v)) ∧
    (r.weakCount = none →
      (postSettings s g r).storage.settings.weakSignalThreshold
        = s.settings.weakSignalThreshold) ∧
    (∀ v : Int, r.weakCount = some v →
      ((postSettings s g r).storage.settings.weakSignalThreshold : Int) = v % 256 ∧
      (0 ≤ v → v ≤ 255 →
        ((postSettings s g r).storage.settings.weakSignalThreshold : Int) = v)) ∧
    (r.rssiUnlock = none → r.rssiLock = none → r.timeout = none → r.weakCount = none →
      (postSettings s g r).code = 400 ∧ (postSettings s g r).storage = s ∧
      (postSettings s g r).globals = g) := by
  rw [postSettings_settings, assignSettings_rssiUnlock, assignSettings_rssiLock,
    assignSettings_timeout, assignSettings_weakCount]
  refine ⟨?_, ?_, ?_, ?_, ?_, ?_, ?_, ?_, ?_⟩
  · intro h
    rw [h]
  · intro v h
    rw [h]
    exact ⟨rfl, toInt8_eq_of_range v⟩
  · intro h
    rw [h]
  · intro v h
    rw [h]
    exact ⟨rfl, toInt8_eq_of_range v⟩
  · intro h
    rw [h]
  · intro v h
    rw [h]
    refine ⟨toUInt8_cast v, fun h0 h255 => ?_⟩
    simp only [toUInt8_cast]
    omega
  · intro h
    rw [h]
  · intro v h
    rw [h]
    refine ⟨toUInt8_cast v, fun h0 h255 => ?_⟩
    simp only [toUInt8_cast]
    omega
  · intro h1 h2 h3 h4
    obtain ⟨a, b, c, d⟩ := r
    simp only at h1 h2 h3 h4
    subst h1 h2 h3 h4
    exact ⟨rfl, rfl, rfl⟩

/-! ## Theorems about the log read-out -/

theorem logLoop_getElem_opt (strftime : Int → String → Nat → String) (s : Storage)
    (a : AuditLog) (entries : Nat → LogEntry) :
    ∀ (fuel i k : Nat), k < fuel →
      (logLoop strftime s a entries fuel i)[k]?
        = some (getLogEntryJson strftime a (entries (i + k))
            (resolveName s (entries (i + k)))) := by
  intro fuel
  induction fuel with
  | zero =>
    intro i k hk
    omega
  | succ n ih =>
    intro i k hk
    cases k with
    | zero => simp [logLoop]
    | succ k =>
      simp only [logLoop, List.getElem?_cons_succ]
      rw [ih (i + 1) k (by omega)]
      have hidx : i + 1 + k = i + (k + 1) := by omega
      rw [hidx]

/-- C18, as stated, fails: with a device named "Unknown" in slot 0 and a log entry
recorded for slot 0, the read-out resolves the entry to "Unknown" although its
slot is below `deviceCount`. -/
theorem resolved_unknown_for_live_slot :
    (apiLog noStrftime namedUnknown initAuditLog (fun _ => zeroEntry)).map LogRow.device
      = [unknownName] ∧
    ((getLogEntries namedUnknown (fun _ => zeroEntry) 50).2 0).deviceIndex = 0 ∧
    namedUnknown.deviceCount = 1 ∧
    ¬ (resolveName namedUnknown ((getLogEntries namedUnknown (fun _ => zeroEntry) 50).2 0)
          = unknownName ↔
        (((getLogEntries namedUnknown (fun _ => zeroEntry) 50).2 0).deviceIndex : Int)
          ≥ namedUnknown.deviceCount) := by
  decide

/-- C18, amended: for every registry state and every entry `i` that the log
read-out returns, the device name of row `i` is the string "Unknown" whenever the
entry's slot is at least the current `deviceCount`, and otherwise is the name of
the device that now occupies that slot; so it is "Unknown" exactly when the slot
is at least `deviceCount`, provided the occupant of the slot is not itself named
"Unknown". -/
theorem apiLog_resolved_name (strftime : Int → String → Nat → String) (s : Storage)
    (a : AuditLog) (entries : Nat → LogEntry) (i : Nat)
    (hi : (i : Int) < (getLogEntries s entries MAX_LOG_ENTRIES).1) :
    ((apiLog strftime s a entries)[i]?).map LogRow.device
      = some (resolveName s ((getLogEntries s entries MAX_LOG_ENTRIES).2 i)) ∧
    ((((getLogEntries s entries MAX_LOG_ENTRIES).2 i).deviceIndex : Int) ≥ s.deviceCount →
      resolveName s ((getLogEntries s entries MAX_LOG_ENTRIES).2 i) = unknownName) ∧
    ((((getLogEntries s entries MAX_LOG_ENTRIES).2 i).deviceIndex : Int) < s.deviceCount →
      resolveName s ((getLogEntries s entries MAX_LOG_ENTRIES).2 i)
        = cstr (s.devices ((getLogEntries s entries MAX_LOG_ENTRIES).2 i).deviceIndex).name) ∧
    (cstr (s.devices ((getLogEntries s entries MAX_LOG_ENTRIES).2 i).deviceIndex).name
        ≠ unknownName →
      (resolveName s ((getLogEntries s entries MAX_LOG_ENTRIES).2 i) = unknownName ↔
        (((getLogEntries s entries MAX_LOG_ENTRIES).2 i).deviceIndex : Int)
          ≥ s.deviceCount)) := by
  refine ⟨?_, ?_, ?_, ?_⟩
  · unfold apiLog
    rw [logLoop_getElem_opt strftime s a _ _ 0 i (by omega)]
    simp [getLogEntryJson]
  · intro hge
    unfold resolveName
    rw [if_neg (by omega)]
  · intro hlt
    unfold resolveName
    rw [if_pos hlt]
  · intro hname
    unfold resolveName
    constructor
    · intro hres
      by_contra hlt
      rw [if_pos (by omega)] at hres
      exact hname hres
    · intro hge
      rw [if_neg (by omega)]

theorem apiLog_resolved_name_witness :
    ((1 : Nat) : Int) < (getLogEntries twoDevicesLogged (fun _ => zeroEntry) MAX_LOG_ENTRIES).1 ∧
    ((apiLog noStrftime twoDevicesLogged initAuditLog (fun _ => zeroEntry))[1]?).map
        LogRow.device
      = some (resolveName twoDevicesLogged
          ((getLogEntries twoDevicesLogged (fun _ => zeroEntry) MAX_LOG_ENTRIES).2 1)) ∧
    resolveName twoDevicesLogged
        ((getLogEntries twoDevicesLogged (fun _ => zeroEntry) MAX_LOG_ENTRIES).2 1)
      = unknownName ∧
    resolveName twoDevicesLogged
        ((getLogEntries twoDevicesLogged (fun _ => zeroEntry) MAX_LOG_ENTRIES).2 0)
      = [66] :=
  ⟨by decide,
    (apiLog_resolved_name noStrftime twoDevicesLogged initAuditLog (fun _ => zeroEntry) 1
      (by decide)).1,
    (apiLog_resolved_name noStrftime twoDevicesLogged initAuditLog (fun _ => zeroEntry) 1
      (by decide)).2.1 (by decide),
    by decide⟩

/-! ## Lemmas about the portal -/

theorem waitLoop_le (status : Nat → Bool) :
    ∀ (fuel attempts : Nat), attempts ≤ 20 → waitLoop status fuel attempts ≤ 20 := by
  intro fuel
  induction fuel with
  | zero =>
    intro attempts h
    simpa [waitLoop] using h
  | succ n ih =>
    intro attempts h
    unfold waitLoop
    split
    next hc =>
      simp only [Bool.and_eq_true, decide_eq_true_eq] at hc
      exact ih (attempts + 1) (by omega)
    next => exact h

/-- A `/save` request whose test fails leaves the manager as it was and makes no
store write, no success reply and no restart. -/
theorem handleSave_of_fail (w : WifiManager) (ssid pass : String) (status : Nat → Bool)
    (hfail : ssid.length = 0 ∨ status (waitLoop status 21 0 + 1) = false) :
    (handleSave w ssid pass status).1 = w ∧
    (∀ k v, Action.putString k v ∉ (handleSave w ssid pass status).2) ∧
    Action.send (Reply.saveResult false) ∈ (handleSave w ssid pass status).2 ∧
    Action.send (Reply.saveResult true) ∉ (handleSave w ssid pass status).2 ∧
    Action.restart ∉ (handleSave w ssid pass status).2 := by
  unfold handleSave
  by_cases hlen : ssid.length = 0
  · simp [hlen]
  · have hst : status (waitLoop status 21 0 + 1) = false := hfail.resolve_left hlen
    simp [hlen, hst, List.mem_replicate]

/-- A `/save` request never touches the mode flags. -/
theorem handleSave_flags (w : WifiManager) (ssid pass : String) (status : Nat → Bool) :
    (handleSave w ssid pass status).1.apMode = w.apMode ∧
    (handleSave w ssid pass status).1.connecting = w.connecting ∧
    (handleSave w ssid pass status).1.connected = w.connected ∧
    (handleSave w ssid pass status).1.setupServer = w.setupServer := by
  dsimp only [handleSave]
  split
  · exact ⟨rfl, rfl, rfl, rfl⟩
  · split
    · exact ⟨rfl, rfl, rfl, rfl⟩
    · exact ⟨rfl, rfl, rfl, rfl⟩

/-- What the trace of a `/save` request tells: a restart comes with a success reply
and saved credentials, its absence with an unchanged manager, and the only
`WiFi.begin` is the test of the submitted pair. -/
theorem handleSave_trace (w : WifiManager) (ssid pass : String) (status : Nat → Bool) :
    (Action.restart ∈ (handleSave w ssid pass status).2 →
      Action.send (Reply.saveResult true) ∈ (handleSave w ssid pass status).2) ∧
    (Action.restart ∉ (handleSave w ssid pass status).2 →
      (handleSave w ssid pass status).1 = w) ∧
    (∀ s p, Action.wifiBegin s p ∈ (handleSave w ssid pass status).2 →
      s = ssid ∧ p = pass) := by
  dsimp only [handleSave]
  split
  · simp
  · split
    · simp [saveCredentials, List.mem_replicate]
    · simp [List.mem_replicate]

theorem handleClient_flags (w : WifiManager) (request : Option Request)
    (status : Nat → Bool) :
    (handleClient w request status).1.apMode = w.apMode ∧
    (handleClient w request status).1.connecting = w.connecting ∧
    (handleClient w request status).1.connected = w.connected ∧
    (handleClient w request status).1.setupServer = w.setupServer := by
  unfold handleClient
  split
  · exact ⟨rfl, rfl, rfl, rfl⟩
  · exact ⟨rfl, rfl, rfl, rfl⟩
  · exact ⟨rfl, rfl, rfl, rfl⟩
  · exact handleSave_flags w _ _ status
  · exact ⟨rfl, rfl, rfl, rfl⟩

theorem handleClient_trace (w : WifiManager) (request : Option Request)
    (status : Nat → Bool) :
    (Action.restart ∈ (handleClient w request status).2 →
      Action.send (Reply.saveResult true) ∈ (handleClient w request status).2) ∧
    (Action.restart ∉ (handleClient w request status).2 →
      (handleClient w request status).1 = w) ∧
    (∀ s p, Action.wifiBegin s p ∈ (handleClient w request status).2 →
      request = some (Request.save s p)) := by
  unfold handleClient
  split
  · simp
  · simp
  · simp
  · next ssid pass =>
    obtain ⟨h1, h2, h3⟩ := handleSave_trace w ssid pass status
    refine ⟨h1, h2, ?_⟩
    intro s p hmem
    obtain ⟨rfl, rfl⟩ := h3 s p hmem
    rfl
  · simp

/-- In access-point mode a call of `update` or `connect` keeps the mode flags and the
audit log, restarts only together with a success reply, leaves the manager
unchanged when it does not restart, and calls `WiFi.begin` only to test the
pair submitted by the request it dispatches. -/
theorem step_apMode (w : WifiManager) (a : AuditLog) (c : Call) (hap : w.apMode = true) :
    (step w a c).wifi.apMode = true ∧
    (step w a c).wifi.connecting = w.connecting ∧
    (step w a c).wifi.connected = w.connected ∧
    (step w a c).log = a ∧
    (Action.restart ∈ (step w a c).acts →
      Action.send (Reply.saveResult true) ∈ (step w a c).acts) ∧
    (Action.restart ∉ (step w a c).acts → (step w a c).wifi = w) ∧
    (∀ s p, Action.wifiBegin s p ∈ (step w a c).acts →
      ∃ e, c = Call.update e ∧ e.request = some (Request.save s p)) := by
  cases c with
  | connect e =>
    simp only [step, connect, hap, if_true]
    simp
  | update e =>
    by_cases hs : w.setupServer = true
    · have hupd : step w a (Call.update e) =
          { wifi := (handleClient w e.request e.status).1, log := a,
            acts := (handleClient w e.request e.status).2 } := by
        simp only [step, update, hap, hs, if_true]
      obtain ⟨f1, f2, f3, _⟩ := handleClient_flags w e.request e.status
      obtain ⟨t1, t2, t3⟩ := handleClient_trace w e.request e.status
      rw [hupd]
      refine ⟨by rw [f1, hap], f2, f3, rfl, t1, t2, ?_⟩
      intro s p hmem
      exact ⟨e, rfl, t3 s p hmem⟩
    · simp [step, update, hs, hap]

theorem run_apMode (a : AuditLog) :
    ∀ (calls : List Call) (w : WifiManager), w.apMode = true →
      (run w a calls).wifi.apMode = true ∧
      (run w a calls).wifi.connecting = w.connecting ∧
      (run w a calls).wifi.connected = w.connected ∧
      (run w a calls).log = a ∧
      (Action.restart ∈ (run w a calls).acts →
        Action.send (Reply.saveResult true) ∈ (run w a calls).acts) ∧
      (Action.restart ∉ (run w a calls).acts → (run w a calls).wifi = w) ∧
      (∀ s p, Action.wifiBegin s p ∈ (run w a calls).acts →
        ∃ e, Call.update e ∈ calls ∧ e.request = some (Request.save s p)) := by
  intro calls
  induction calls with
  | nil =>
    intro w hap
    simp [run, hap]
  | cons c cs ih =>
    intro w hap
    obtain ⟨s1, s2, s3, s4, s5, s6, s7⟩ := step_apMode w a c hap
    by_cases hr : Action.restart ∈ (step w a c).acts
    · have hrun : run w a (c :: cs) = step w a c := by
        rw [run, if_pos hr]
      rw [hrun]
      refine ⟨s1, s2, s3, s4, s5, fun h => absurd hr h, ?_⟩
      intro s p hmem
      obtain ⟨e, he, hreq⟩ := s7 s p hmem
      exact ⟨e, by rw [he]; exact List.mem_cons_self _ _, hreq⟩
    · have hw := s6 hr
      have hrun : run w a (c :: cs) =
          { wifi := (run w a cs).wifi, log := (run w a cs).log,
            acts := (step w a c).acts ++ (run w a cs).acts } := by
        rw [run, if_neg hr, hw, s4]
      rw [hrun]
      obtain ⟨r1, r2, r3, r4, r5, r6, r7⟩ := ih w hap
      refine ⟨r1, r2, r3, r4, ?_, ?_, ?_⟩
      · intro hmem
        rcases List.mem_append.mp hmem with h | h
        · exact absurd h hr
        · exact List.mem_append_right _ (r5 h)
      · intro hno
        exact r6 (fun h => hno (List.mem_append_right _ h))
      · intro s p hmem
        rcases List.mem_append.mp hmem with h | h
        · obtain ⟨e, he, hreq⟩ := s7 s p h
          exact ⟨e, by rw [he]; exact List.mem_cons_self _ _, hreq⟩
        · obtain ⟨e, he, hreq⟩ := r7 s p h
          exact ⟨e, List.mem_cons_of_mem _ he, hreq⟩

/-- A `/save` request with a non-empty SSID calls `WiFi.begin` with the submitted
pair, whether the test then succeeds or not. -/
theorem handleSave_tests (w : WifiManager) (ssid pass : String) (status : Nat → Bool)
    (hlen : ssid.length ≠ 0) :
    Action.wifiBegin ssid pass ∈ (handleSave w ssid pass status).2 := by
  dsimp only [handleSave]
  rw [if_neg hlen]
  split <;> simp

/-- A `/save` request that restarts the device has stored the submitted pair. -/
theorem handleSave_restart (w : WifiManager) (ssid pass : String) (status : Nat → Bool)
    (hr : Action.restart ∈ (handleSave w ssid pass status).2) :
    (handleSave w ssid pass status).1 = (saveCredentials w ssid pass).1 ∧
    Action.putString "ssid" ssid ∈ (handleSave w ssid pass status).2 ∧
    Action.putString "pass" pass ∈ (handleSave w ssid pass status).2 := by
  dsimp only [handleSave] at hr ⊢
  split
  · next hlen =>
    rw [if_pos hlen] at hr
    simp at hr
  · next hlen =>
    rw [if_neg hlen] at hr
    split
    · simp [saveCredentials]
    · next hst =>
      rw [if_neg hst] at hr
      simp [List.mem_replicate] at hr

theorem handleClient_restart (w : WifiManager) (request : Option Request)
    (status : Nat → Bool) (hr : Action.restart ∈ (handleClient w request status).2) :
    ∃ ssid pass, request = some (Request.save ssid pass) ∧
      (handleClient w request status).1 = (saveCredentials w ssid pass).1 ∧
      Action.putString "ssid" ssid ∈ (handleClient w request status).2 ∧
      Action.putString "pass" pass ∈ (handleClient w request status).2 := by
  unfold handleClient at hr ⊢
  split at hr
  · simp at hr
  · simp at hr
  · simp at hr
  · next ssid pass =>
    exact ⟨ssid, pass, rfl, handleSave_restart w ssid pass status hr⟩
  · simp at hr

/-- In access-point mode a call that restarts the device is an `update` that
dispatched a `/save` request and stored its pair. -/
theorem step_apMode_restart (w : WifiManager) (a : AuditLog) (c : Call)
    (hap : w.apMode = true) (hr : Action.restart ∈ (step w a c).acts) :
    ∃ e ssid pass, c = Call.update e ∧ e.request = some (Request.save ssid pass) ∧
      (step w a c).wifi = (saveCredentials w ssid pass).1 ∧
      Action.putString "ssid" ssid ∈ (step w a c).acts ∧
      Action.putString "pass" pass ∈ (step w a c).acts := by
  cases c with
  | connect e =>
    have hnone : (step w a (Call.connect e)).acts = [] := by
      simp only [step, connect, hap, if_true]
    rw [hnone] at hr
    simp at hr
  | update e =>
    by_cases hs : w.setupServer = true
    · have hupd : step w a (Call.update e) =
          { wifi := (handleClient w e.request e.status).1, log := a,
            acts := (handleClient w e.request e.status).2 } := by
        simp only [step, update, hap, hs, if_true]
      rw [hupd] at hr ⊢
      obtain ⟨ssid, pass, h1, h2, h3, h4⟩ := handleClient_restart w e.request e.status hr
      exact ⟨e, ssid, pass, rfl, h1, h2, h3, h4⟩
    · have hnone : (step w a (Call.update e)).acts = [] := by
        simp [step, update, hs, hap]
      rw [hnone] at hr
      simp at hr

/-- A run from access-point mode that restarts the device contains an `update` that
dispatched a `/save` request, and ends with the pair of that request stored. -/
theorem run_apMode_restart (a : AuditLog) :
    ∀ (calls : List Call) (w : WifiManager), w.apMode = true →
      Action.restart ∈ (run w a calls).acts →
      ∃ e ssid pass, Call.update e ∈ calls ∧ e.request = some (Request.save ssid pass) ∧
        (run w a calls).wifi = (saveCredentials w ssid pass).1 ∧
        Action.putString "ssid" ssid ∈ (run w a calls).acts ∧
        Action.putString "pass" pass ∈ (run w a calls).acts := by
  intro calls
  induction calls with
  | nil =>
    intro w _ hr
    simp [run] at hr
  | cons c cs ih =>
    intro w hap hr
    obtain ⟨_, _, _, s4, _, s6, _⟩ := step_apMode w a c hap
    by_cases hstep : Action.restart ∈ (step w a c).acts
    · have hrun : run w a (c :: cs) = step w a c := by
        rw [run, if_pos hstep]
      rw [hrun]
      obtain ⟨e, ssid, pass, hc, h1, h2, h3, h4⟩ := step_apMode_restart w a c hap hstep
      exact ⟨e, ssid, pass, by rw [hc]; exact List.mem_cons_self _ _, h1, h2, h3, h4⟩
    · have hw := s6 hstep
      have hrun : run w a (c :: cs) =
          { wifi := (run w a cs).wifi, log := (run w a cs).log,
            acts := (step w a c).acts ++ (run w a cs).acts } := by
        rw [run, if_neg hstep, hw, s4]
      rw [hrun] at hr ⊢
      have hrest : Action.restart ∈ (run w a cs).acts := by
        rcases List.mem_append.mp hr with h | h
        · exact absurd h hstep
        · exact h
      obtain ⟨e, ssid, pass, hmem, h1, h2, h3, h4⟩ := ih w hap hrest
      exact ⟨e, ssid, pass, List.mem_cons_of_mem _ hmem, h1, h2,
        List.mem_append_right _ h3, List.mem_append_right _ h4⟩

/-! ## Theorems about provisioning -/

/-- C12, as stated, fails: from the Provisioning state that `begin` reaches over an
empty credential store, one `update()` that dispatches a `/save` request calls
`WiFi.begin` with the submitted pair, so a run of `update()` calls does start a
connection attempt. -/
theorem provisioning_update_tests_credentials :
    apWifi = ((WifiManager.init { ssid := none, pass := none }).begin true).1 ∧
    apWifi.apMode = true ∧
    Action.wifiBegin "home" "secret"
      ∈ (run apWifi initAuditLog [Call.update failingSave]).acts ∧
    ¬ (∀ s p, Action.wifiBegin s p
        ∉ (run apWifi initAuditLog [Call.update failingSave]).acts) :=
  ⟨rfl, by decide, by decide, fun h => h "home" "secret" (by decide)⟩

/-- C12, amended: when the stored SSID is empty or absent, `begin` on a new manager
sets `apMode` and leaves `connecting` and `connected` false; and in every run of
`update()` and `connect()` calls from there, under any environment, `apMode`
stays true and `connecting` and `connected` stay false. The only `WiFi.begin`
calls are the tests of credentials that `update()` runs when the portal receives
a `/save` request, each with the submitted pair: such a request with a non-empty
SSID always makes one, and a run without such a request makes none, does not
restart and leaves the manager unchanged. The manager is unchanged as long as no restart happens,
and a restart happens only in an `update()` that dispatched a `/save` request,
after the submitted pair was written to the credential store and together with
the success reply. -/
theorem provisioning_closed (prefs : CredStore) (logPtr : Bool) (a : AuditLog)
    (calls : List Call) (hnossid : (CredStore.get prefs.ssid).length = 0) :
    ((WifiManager.init prefs).begin logPtr).1.apMode = true ∧
    ((WifiManager.init prefs).begin logPtr).1.connecting = false ∧
    ((WifiManager.init prefs).begin logPtr).1.connected = false ∧
    (run ((WifiManager.init prefs).begin logPtr).1 a calls).wifi.apMode = true ∧
    (run ((WifiManager.init prefs).begin logPtr).1 a calls).wifi.connecting = false ∧
    (run ((WifiManager.init prefs).begin logPtr).1 a calls).wifi.connected = false ∧
    (∀ s p, Action.wifiBegin s p ∈ (run ((WifiManager.init prefs).begin logPtr).1 a calls).acts →
      ∃ e, Call.update e ∈ calls ∧ e.request = some (Request.save s p)) ∧
    (Action.restart ∉ (run ((WifiManager.init prefs).begin logPtr).1 a calls).acts →
      (run ((WifiManager.init prefs).begin logPtr).1 a calls).wifi
        = ((WifiManager.init prefs).begin logPtr).1) ∧
    (Action.restart ∈ (run ((WifiManager.init prefs).begin logPtr).1 a calls).acts →
      Action.send (Reply.saveResult true)
        ∈ (run ((WifiManager.init prefs).begin logPtr).1 a calls).acts) ∧
    (Action.restart ∈ (run ((WifiManager.init prefs).begin logPtr).1 a calls).acts →
      ∃ e ssid pass, Call.update e ∈ calls ∧ e.request = some (Request.save ssid pass) ∧
        (run ((WifiManager.init prefs).begin logPtr).1 a calls).wifi
          = (saveCredentials ((WifiManager.init prefs).begin logPtr).1 ssid pass).1 ∧
        (run ((WifiManager.init prefs).begin logPtr).1 a calls).wifi.wifiPrefs
          = { ssid := some ssid, pass := some pass } ∧
        (run ((WifiManager.init prefs).begin logPtr).1 a calls).wifi.storedSSID = ssid ∧
        (run ((WifiManager.init prefs).begin logPtr).1 a calls).wifi.storedPass = pass ∧
        (run ((WifiManager.init prefs).begin logPtr).1 a calls).wifi.configured = true ∧
        Action.putString "ssid" ssid
          ∈ (run ((WifiManager.init prefs).begin logPtr).1 a calls).acts ∧
        Action.putString "pass" pass
          ∈ (run ((WifiManager.init prefs).begin logPtr).1 a calls).acts) ∧
    ((∀ e, Call.update e ∈ calls → ∀ s p, e.request ≠ some (Request.save s p)) →
      (∀ s p, Action.wifiBegin s p
        ∉ (run ((WifiManager.init prefs).begin logPtr).1 a calls).acts) ∧
      Action.restart ∉ (run ((WifiManager.init prefs).begin logPtr).1 a calls).acts ∧
      (run ((WifiManager.init prefs).begin logPtr).1 a calls).wifi
        = ((WifiManager.init prefs).begin logPtr).1) ∧
    (∀ (e : Env) (ssid pass : String), e.request = some (Request.save ssid pass) →
      ssid.length ≠ 0 →
      Action.wifiBegin ssid pass
        ∈ (update ((WifiManager.init prefs).begin logPtr).1 a e).acts) := by
  have hcfg : (loadCredentials { WifiManager.init prefs with auditLog := logPtr }).configured
      = false := by
    simp [loadCredentials, WifiManager.init, hnossid]
  have hbegin : ((WifiManager.init prefs).begin logPtr).1
      = (startAPMode (loadCredentials { WifiManager.init prefs with auditLog := logPtr })).1 := by
    unfold WifiManager.begin
    simp [hcfg]
  have hap : ((WifiManager.init prefs).begin logPtr).1.apMode = true := by
    rw [hbegin]
    rfl
  have hcing : ((WifiManager.init prefs).begin logPtr).1.connecting = false := by
    rw [hbegin]
    rfl
  have hced : ((WifiManager.init prefs).begin logPtr).1.connected = false := by
    rw [hbegin]
    rfl
  have hportal : ((WifiManager.init prefs).begin logPtr).1.setupServer = true := by
    rw [hbegin]
    rfl
  obtain ⟨r1, r2, r3, _, r5, r6, r7⟩ :=
    run_apMode a calls ((WifiManager.init prefs).begin logPtr).1 hap
  have hrestart := run_apMode_restart a calls ((WifiManager.init prefs).begin logPtr).1 hap
  have hnosave : (∀ e, Call.update e ∈ calls → ∀ s p, e.request ≠ some (Request.save s p)) →
      Action.restart ∉ (run ((WifiManager.init prefs).begin logPtr).1 a calls).acts := by
    intro hno hr
    obtain ⟨e, ssid, pass, hmem, hreq, _⟩ := hrestart hr
    exact hno e hmem ssid pass hreq
  refine ⟨hap, hcing, hced, r1, by rw [r2, hcing], by rw [r3, hced], r7, r6, r5, ?_, ?_, ?_⟩
  · intro hr
    obtain ⟨e, ssid, pass, hmem, hreq, hw, hp1, hp2⟩ := hrestart hr
    refine ⟨e, ssid, pass, hmem, hreq, hw, ?_, ?_, ?_, ?_, hp1, hp2⟩ <;> rw [hw] <;> rfl
  · intro hno
    refine ⟨?_, hnosave hno, r6 (hnosave hno)⟩
    intro s p hmem
    obtain ⟨e, he, hreq⟩ := r7 s p hmem
    exact hno e he s p hreq
  · intro e ssid pass hreq hlen
    have hupd : update ((WifiManager.init prefs).begin logPtr).1 a e =
        { wifi := (handleSave ((WifiManager.init prefs).begin logPtr).1 ssid pass e.status).1
          log := a
          acts := (handleSave ((WifiManager.init prefs).begin logPtr).1 ssid pass
            e.status).2 } := by
      unfold update
      simp only [hap, hportal, if_true, hreq, handleClient]
    rw [hupd]
    exact handleSave_tests _ ssid pass e.status hlen

theorem provisioning_closed_witness :
    (CredStore.get (none : Option String)).length = 0 ∧
    (run apWifi initAuditLog
      [Call.update failingSave, Call.connect linkUpEnv, Call.update linkUpEnv]).wifi
      = apWifi ∧
    Action.restart
      ∈ (run apWifi initAuditLog [Call.connect linkUpEnv, Call.update succeedingSave]).acts ∧
    (run apWifi initAuditLog
      [Call.connect linkUpEnv, Call.update succeedingSave]).wifi.apMode = true :=
  ⟨by decide,
    (provisioning_closed { ssid := none, pass := none } true initAuditLog
      [Call.update failingSave, Call.connect linkUpEnv, Call.update linkUpEnv]
      (by decide)).2.2.2.2.2.2.2.1 (by decide),
    by decide,
    (provisioning_closed { ssid := none, pass := none } true initAuditLog
      [Call.connect linkUpEnv, Call.update succeedingSave] (by decide)).2.2.2.1⟩

/-- C15: in access-point mode, when the credential test of a `/save` request does
not succeed (the SSID is empty, or the status check after the wait loop, which
makes at most 20 delays, does not report a connection), the handler leaves the
whole manager as it was, so the credential store, `storedSSID`, `storedPass` and
`configured`, writes nothing to the store, replies `success = false`, does not
restart and leaves `apMode` true; the tick of `update()` that dispatches the
request has exactly this effect. -/
theorem failed_credential_test (w : WifiManager) (a : AuditLog) (e : Env)
    (ssid pass : String) (hap : w.apMode = true) (hportal : w.setupServer = true)
    (hreq : e.request = some (Request.save ssid pass))
    (hfail : ssid.length = 0 ∨ e.status (waitLoop e.status 21 0 + 1) = false) :
    (update w a e).wifi = w ∧
    (update w a e).wifi.apMode = true ∧
    (∀ k v, Action.putString k v ∉ (update w a e).acts) ∧
    Action.send (Reply.saveResult false) ∈ (update w a e).acts ∧
    Action.send (Reply.saveResult true) ∉ (update w a e).acts ∧
    Action.restart ∉ (update w a e).acts ∧
    (update w a e).acts = (handleSave w ssid pass e.status).2 ∧
    waitLoop e.status 21 0 ≤ 20 := by
  obtain ⟨h1, h2, h3, h4, h5⟩ := handleSave_of_fail w ssid pass e.status hfail
  have hupd : update w a e =
      { wifi := (handleSave w ssid pass e.status).1, log := a,
        acts := (handleSave w ssid pass e.status).2 } := by
    unfold update
    simp only [hap, hportal, if_true, hreq, handleClient]
  rw [hupd]
  exact ⟨h1, by rw [h1, hap], h2, h3, h4, h5, rfl, waitLoop_le e.status 21 0 (by omega)⟩

theorem failed_credential_test_witness :
    apWifi.apMode = true ∧ apWifi.setupServer = true ∧
    failingSave.request = some (Request.save "home" "secret") ∧
    (("home".length = 0) ∨ failingSave.status (waitLoop failingSave.status 21 0 + 1) = false) ∧
    (update apWifi initAuditLog failingSave).wifi = apWifi ∧
    Action.restart ∉ (update apWifi initAuditLog failingSave).acts :=
  ⟨by decide, by decide, rfl, by decide,
    (failed_credential_test apWifi initAuditLog failingSave "home" "secret" (by decide)
      (by decide) rfl (by decide)).1,
    (failed_credential_test apWifi initAuditLog failingSave "home" "secret" (by decide)
      (by decide) rfl (by decide)).2.2.2.2.2.1⟩

/-! ## Lemmas about the station-mode machine -/

theorem ntpLoop_no_wifiBegin (timeOk : Nat → Bool) :
    ∀ (fuel retries : Nat), (ntpLoop timeOk fuel retries).2.any Action.isWifiBegin = false := by
  intro fuel
  induction fuel with
  | zero =>
    intro retries
    rfl
  | succ n ih =>
    intro retries
    unfold ntpLoop
    split
    · simp [Action.isWifiBegin, ih]
    · rfl

/-- The method `syncNTP` changes at most `ntpInitialized` in the manager and never
calls `WiFi.begin`. -/
theorem syncNTP_frame (w : WifiManager) (a : AuditLog) (e : Env) :
    (syncNTP w a e).wifi.apMode = w.apMode ∧
    (syncNTP w a e).wifi.lastReconnectAttempt = w.lastReconnectAttempt ∧
    (syncNTP w a e).wifi.connected = w.connected ∧
    (syncNTP w a e).wifi.connecting = w.connecting ∧
    (syncNTP w a e).wifi.ipAddress = w.ipAddress ∧
    (syncNTP w a e).acts.any Action.isWifiBegin = false := by
  unfold syncNTP
  split
  · exact ⟨rfl, rfl, rfl, rfl, rfl, rfl⟩
  · split
    · refine ⟨rfl, rfl, rfl, rfl, rfl, ?_⟩
      simp [Action.isWifiBegin, ntpLoop_no_wifiBegin]
    · refine ⟨rfl, rfl, rfl, rfl, rfl, ?_⟩
      simp [Action.isWifiBegin, ntpLoop_no_wifiBegin]

theorem dropLink_frame (w : WifiManager) :
    (dropLink w).apMode = w.apMode ∧
    (dropLink w).lastReconnectAttempt = w.lastReconnectAttempt ∧
    (dropLink w).connecting = w.connecting := by
  unfold dropLink
  split <;> exact ⟨rfl, rfl, rfl⟩

theorem startAttempt_frame (w : WifiManager) (e : Env) :
    (startAttempt w e).1.apMode = w.apMode ∧
    (startAttempt w e).1.lastReconnectAttempt = w.lastReconnectAttempt := by
  unfold startAttempt
  split <;> exact ⟨rfl, rfl⟩

theorem checkTimeout_frame (w : WifiManager) (e : Env) :
    (checkTimeout w e).apMode = w.apMode ∧
    (checkTimeout w e).lastReconnectAttempt = w.lastReconnectAttempt := by
  unfold checkTimeout
  split <;> exact ⟨rfl, rfl⟩

/-- The method `connect` keeps `apMode` and `lastReconnectAttempt`, and calls
`WiFi.begin` only with the link down. -/
theorem connect_frame (w : WifiManager) (a : AuditLog) (e : Env) :
    (connect w a e).wifi.apMode = w.apMode ∧
    (connect w a e).wifi.lastReconnectAttempt = w.lastReconnectAttempt ∧
    ((connect w a e).acts.any Action.isWifiBegin = true → e.linkUp = false) := by
  unfold connect
  split
  · exact ⟨rfl, rfl, fun h => absurd h (by simp)⟩
  · split
    · split
      · obtain ⟨h1, h2, _, _, _, h6⟩ :=
          syncNTP_frame { w with connected := true, ipAddress := e.localIP } a e
        exact ⟨h1, h2, fun h => absurd h (by simp [h6])⟩
      · exact ⟨rfl, rfl, fun h => absurd h (by simp)⟩
    · next hup =>
      refine ⟨?_, ?_, fun _ => by simpa using hup⟩
      · exact ((checkTimeout_frame _ e).1).trans (startAttempt_frame w e).1
      · exact ((checkTimeout_frame _ e).2).trans (startAttempt_frame w e).2

/-- One tick of `update` in station mode: `WiFi.begin` is called only under the
retry condition, the retry condition sets `lastReconnectAttempt` to the time of
the tick, and without it `lastReconnectAttempt` is kept. -/
theorem update_station (w : WifiManager) (a : AuditLog) (e : Env)
    (hsta : w.apMode = false) :
    (update w a e).wifi.apMode = false ∧
    ((update w a e).acts.any Action.isWifiBegin = true →
      e.linkUp = false ∧ w.connecting = false ∧
      sub32 e.now w.lastReconnectAttempt > 30000) ∧
    (e.linkUp = false → w.connecting = false →
      sub32 e.now w.lastReconnectAttempt > 30000 →
      (update w a e).wifi.lastReconnectAttempt = e.now) ∧
    (¬ (e.linkUp = false ∧ w.connecting = false ∧
        sub32 e.now w.lastReconnectAttempt > 30000) →
      (update w a e).wifi.lastReconnectAttempt = w.lastReconnectAttempt ∧
      (update w a e).acts.any Action.isWifiBegin = false) := by
  obtain ⟨d1, d2, d3⟩ := dropLink_frame w
  by_cases hup : e.linkUp = true
  · have hupd : update w a e =
        if !w.connected then
          syncNTP { w with connected := true, connecting := false, ipAddress := e.localIP } a e
        else { wifi := w, log := a, acts := [] } := by
      unfold update
      simp only [hsta, hup, if_true, Bool.false_eq_true, if_false]
    rw [hupd]
    split
    · obtain ⟨h1, h2, _, _, _, h6⟩ := syncNTP_frame
        { w with connected := true, connecting := false, ipAddress := e.localIP } a e
      refine ⟨h1.trans hsta, fun h => absurd h (by simp [h6]),
        fun hd => absurd hup (by simp [hd]), fun _ => ⟨h2, h6⟩⟩
    · exact ⟨hsta, fun h => absurd h (by simp), fun hd => absurd hup (by simp [hd]),
        fun _ => ⟨rfl, rfl⟩⟩
  · have hdown : e.linkUp = false := by simpa using hup
    by_cases hcond : w.connecting = false ∧ sub32 e.now w.lastReconnectAttempt > 30000
    · have hupd : update w a e =
          connect { dropLink w with lastReconnectAttempt := e.now } a e := by
        unfold update
        simp only [hsta, hdown, Bool.false_eq_true, if_false, d2, d3, hcond.1, Bool.not_false,
          WIFI_RECONNECT_INTERVAL, hcond.2, decide_True, Bool.and_self, if_true]
      obtain ⟨c1, c2, _⟩ := connect_frame { dropLink w with lastReconnectAttempt := e.now } a e
      rw [hupd]
      refine ⟨?_, fun _ => ⟨hdown, hcond.1, hcond.2⟩, fun _ _ _ => c2, ?_⟩
      · rw [c1]
        exact d1.trans hsta
      · intro hno
        exact absurd ⟨hdown, hcond.1, hcond.2⟩ hno
    · have hupd : update w a e = { wifi := dropLink w, log := a, acts := [] } := by
        have hc : (!w.connecting && decide (sub32 e.now w.lastReconnectAttempt > 30000))
            = false := by
          by_cases h1 : w.connecting = false
          · have h2 : ¬ sub32 e.now w.lastReconnectAttempt > 30000 := fun h => hcond ⟨h1, h⟩
            simp [h1, h2]
          · simp [h1]
        unfold update
        simp only [hsta, hdown, Bool.false_eq_true, if_false, d2, d3, WIFI_RECONNECT_INTERVAL,
          hc]
      rw [hupd]
      refine ⟨d1.trans hsta, fun h => absurd h (by simp), ?_, fun _ => ⟨d2, rfl⟩⟩
      intro _ h1 h2
      exact absurd ⟨h1, h2⟩ hcond

/-- A tick with the link down on a manager that is connecting does not reach the
timeout check of `connect`: the manager stays connecting. -/
theorem update_keeps_connecting (w : WifiManager) (a : AuditLog) (e : Env)
    (hsta : w.apMode = false) (hconn : w.connecting = true) (hdown : e.linkUp = false) :
    (update w a e).wifi = dropLink w ∧ (update w a e).acts = [] ∧
    (update w a e).wifi.connecting = true := by
  obtain ⟨_, _, d3⟩ := dropLink_frame w
  have hupd : update w a e = { wifi := dropLink w, log := a, acts := [] } := by
    unfold update
    simp only [hsta, hdown, Bool.false_eq_true, if_false, d3, hconn, Bool.not_true,
      Bool.false_and]
  rw [hupd]
  exact ⟨rfl, rfl, d3.trans hconn⟩

theorem step_atTime_station (w : WifiManager) (a : AuditLog) (T : Nat) (c : Call)
    (hsta : w.apMode = false) :
    (step w a (Call.atTime T c)).wifi.apMode = false := by
  cases c with
  | update e => exact (update_station w a _ hsta).1
  | connect e => exact ((connect_frame w a _).1).trans hsta

/-- Every attempt that a run of timed calls starts from `update` lies more than
30000 ms after the time `L` of the last recorded attempt, when no call of the
run is earlier than `L`. -/
theorem updateAttempts_after :
    ∀ (calls : List (Nat × Call)) (w : WifiManager) (a : AuditLog) (L : Nat),
      w.apMode = false → w.lastReconnectAttempt = L % 2 ^ 32 →
      (∀ c ∈ calls, L ≤ c.1) → calls.Pairwise (fun c d => c.1 ≤ d.1) →
      ∀ t ∈ updateAttempts w a calls, L + 30000 < t := by
  intro calls
  induction calls with
  | nil =>
    intro w a L _ _ _ _ t ht
    simp [updateAttempts] at ht
  | cons c cs ih =>
    intro w a L hsta hL hge hsorted t ht
    obtain ⟨T, call⟩ := c
    have hTL : L ≤ T := hge (T, call) (List.mem_cons_self _ _)
    have hrest : ∀ d ∈ cs, T ≤ d.1 := fun d hd => (List.pairwise_cons.mp hsorted).1 d hd
    have hrestL : ∀ d ∈ cs, L ≤ d.1 := fun d hd => hge d (List.mem_cons_of_mem _ hd)
    have hsorted' := (List.pairwise_cons.mp hsorted).2
    cases call with
    | connect e =>
      simp only [updateAttempts] at ht
      have hfr := connect_frame w a { e with now := T % 2 ^ 32 }
      exact ih _ _ L (by simpa [step, Call.atTime] using hfr.1.trans hsta)
        (by simpa [step, Call.atTime] using hfr.2.1.trans hL) hrestL hsorted' t ht
    | update e =>
      simp only [updateAttempts] at ht
      obtain ⟨u1, u2, u3, u4⟩ := update_station w a { e with now := T % 2 ^ 32 } hsta
      simp only [step, Call.atTime] at ht
      by_cases hcond : ({ e with now := T % 2 ^ 32 } : Env).linkUp = false ∧
          w.connecting = false ∧
          sub32 ({ e with now := T % 2 ^ 32 } : Env).now w.lastReconnectAttempt > 30000
      · have hnew := u3 hcond.1 hcond.2.1 hcond.2.2
        have hgap : L + 30000 < T := by
          have h := hcond.2.2
          simp only [sub32, hL] at h
          omega
        rcases List.mem_append.mp ht with h | h
        · split at h
          · simp only [List.mem_singleton] at h
            omega
          · simp at h
        · have := ih _ _ T u1 hnew hrest hsorted' t h
          omega
      · obtain ⟨hkeep, hnone⟩ := u4 hcond
        simp only [hnone, Bool.false_eq_true, if_false, List.nil_append] at ht
        exact ih _ _ L u1 (hkeep.trans hL) hrestL hsorted' t ht

/-- In a run of timed calls from a station-mode manager, made at non-decreasing
times, the attempts started by `update` are pairwise more than 30000 ms apart. -/
theorem updateAttempts_pairwise (calls : List (Nat × Call)) (w : WifiManager) (a : AuditLog)
    (hsta : w.apMode = false) (hsorted : calls.Pairwise (fun c d => c.1 ≤ d.1)) :
    (updateAttempts w a calls).Pairwise (fun t1 t2 => t1 + 30000 < t2) := by
  induction calls generalizing w a with
  | nil => simp [updateAttempts]
  | cons c cs ih =>
    obtain ⟨T, call⟩ := c
    have hrest : ∀ d ∈ cs, T ≤ d.1 := fun d hd => (List.pairwise_cons.mp hsorted).1 d hd
    have hsorted' := (List.pairwise_cons.mp hsorted).2
    cases call with
    | connect e1 =>
      simp only [updateAttempts]
      exact ih _ _ (step_atTime_station w a T (Call.connect e1) hsta) hsorted'
    | update e1 =>
      have hsta' := step_atTime_station w a T (Call.update e1) hsta
      have htail := ih (step w a (Call.atTime T (Call.update e1))).wifi
        (step w a (Call.atTime T (Call.update e1))).log hsta' hsorted'
      simp only [updateAttempts]
      split
      · next hatt =>
        obtain ⟨_, v2, v3, _⟩ := update_station w a { e1 with now := T % 2 ^ 32 } hsta
        simp only [step, Call.atTime] at hatt
        obtain ⟨c1, c2, c3⟩ := v2 hatt
        have hnew := v3 c1 c2 c3
        rw [List.singleton_append, List.pairwise_cons]
        refine ⟨?_, htail⟩
        intro t ht
        exact updateAttempts_after _ _ _ T hsta'
          (by simpa [step, Call.atTime] using hnew) hrest hsorted' t ht
      · simpa using htail

/-! ## Theorems about the station-mode machine -/

/-- C13, at the failing input: a station-mode manager that is connecting since time
0, link down, ticked by `update()` at 20000 ms, more than 15000 ms after the
attempt started, is still connecting afterwards, while `connect()` on the same
state and time clears the flag. -/
theorem update_skips_connect_timeout :
    stuckWifi.apMode = false ∧ stuckWifi.connecting = true ∧
    stuckWifi.connectStartTime = 0 ∧ tick20000.linkUp = false ∧
    sub32 tick20000.now stuckWifi.connectStartTime > 15000 ∧
    (update stuckWifi initAuditLog tick20000).wifi.connecting = true ∧
    (update (update stuckWifi initAuditLog tick20000).wifi initAuditLog tick40000).wifi.connecting
      = true ∧
    (connect stuckWifi initAuditLog tick20000).wifi.connecting = false := by
  decide

/-- C14: in station mode a tick of `update()` at time `t` calls `WiFi.begin` only if
the link is down, the manager is not connecting and the 32-bit difference
`t - lastReconnectAttempt` exceeds 30000 ms, and under that condition it sets
`lastReconnectAttempt` to `t`; so in a run of calls made at non-decreasing
times, any two attempts started by `update()` are more than 30000 ms apart. -/
theorem update_backoff (w : WifiManager) (a : AuditLog) (e : Env)
    (calls : List (Nat × Call)) (hsta : w.apMode = false)
    (hsorted : calls.Pairwise (fun c d => c.1 ≤ d.1)) :
    ((update w a e).acts.any Action.isWifiBegin = true →
      e.linkUp = false ∧ w.connecting = false ∧
      sub32 e.now w.lastReconnectAttempt > 30000) ∧
    (e.linkUp = false → w.connecting = false →
      sub32 e.now w.lastReconnectAttempt > 30000 →
      (update w a e).wifi.lastReconnectAttempt = e.now) ∧
    (updateAttempts w a calls).Pairwise (fun t1 t2 => t1 + 30000 < t2) := by
  obtain ⟨_, u2, u3, _⟩ := update_station w a e hsta
  exact ⟨u2, u3, updateAttempts_pairwise calls w a hsta hsorted⟩

theorem update_backoff_witness :
    stationWifi.apMode = false ∧
    backoffRun.Pairwise (fun c d => c.1 ≤ d.1) ∧
    (update stationWifi initAuditLog tick40000).wifi.lastReconnectAttempt = 40000 ∧
    updateAttempts stationWifi initAuditLog backoffRun = [40000, 71000] ∧
    (updateAttempts stationWifi initAuditLog
      backoffRun).Pairwise (fun t1 t2 => t1 + 30000 < t2) :=
  ⟨by decide, by decide,
    (update_backoff stationWifi initAuditLog tick40000
      backoffRun (by decide) (by decide)).2.1
      (by decide) (by decide) (by decide),
    by decide,
    (update_backoff stationWifi initAuditLog tick40000
      backoffRun (by decide) (by decide)).2.2⟩

theorem ntpLoop_counts (timeOk : Nat → Bool) :
    ∀ (fuel retries : Nat),
      (ntpLoop timeOk fuel retries).2.count Action.configTime = 0 ∧
      (ntpLoop timeOk fuel retries).2.count Action.getLocalTime ≤ fuel ∧
      (0 < fuel → 1 ≤ (ntpLoop timeOk fuel retries).2.count Action.getLocalTime) := by
  intro fuel
  induction fuel with
  | zero =>
    intro retries
    simp [ntpLoop]
  | succ n ih =>
    intro retries
    obtain ⟨h1, h2, _⟩ := ih (retries + 1)
    unfold ntpLoop
    split
    · simp only [List.count_cons, h1]
      simp only [beq_iff_eq, reduceCtorEq, if_false, if_true, Nat.add_zero, true_and]
      omega
    · simp [List.count_cons]

/-- C19, as stated, fails: on a reconnection after an earlier successful
synchronisation, the tick that makes the manager Connected records the address
but makes no time-sync attempt, since `syncNTP` returns at its first guard. -/
theorem reconnect_makes_no_sync_attempt :
    reconnecting.apMode = false ∧ reconnecting.connected = false ∧
    reconnecting.ntpInitialized = true ∧ linkUpEnv.linkUp = true ∧
    (update reconnecting reconnectingLog linkUpEnv).wifi.connected = true ∧
    (update reconnecting reconnectingLog linkUpEnv).wifi.ipAddress = "192.168.1.7" ∧
    (update reconnecting reconnectingLog linkUpEnv).acts = [] ∧
    ¬ ((update reconnecting reconnectingLog linkUpEnv).acts.count Action.configTime = 1) := by
  decide

/-- C19, amended: in station mode, a tick on which the link is associated and
`connected` was false sets `connected`, records the address and calls `syncNTP`
once, which makes exactly one time-sync attempt (one `configTime` and a query
sequence of 1 to 11 polls) when no earlier attempt has succeeded and an audit
log is attached, and no attempt otherwise; a tick on which the manager is
already Connected makes none and changes nothing. -/
theorem connected_transition_sync (w : WifiManager) (a : AuditLog) (e : Env)
    (hsta : w.apMode = false) (hup : e.linkUp = true) :
    (w.connected = false →
      (update w a e).wifi.connected = true ∧
      (update w a e).wifi.ipAddress = e.localIP ∧
      (w.ntpInitialized = false → w.auditLog = true →
        (update w a e).acts.count Action.configTime = 1 ∧
        1 ≤ (update w a e).acts.count Action.getLocalTime ∧
        (update w a e).acts.count Action.getLocalTime ≤ 11) ∧
      ((w.ntpInitialized = true ∨ w.auditLog = false) → (update w a e).acts = [])) ∧
    (w.connected = true → (update w a e).acts = [] ∧ (update w a e).wifi = w) := by
  constructor
  · intro hconn
    have hupd : update w a e =
        syncNTP { w with connected := true, connecting := false, ipAddress := e.localIP }
          a e := by
      unfold update
      simp only [hsta, hup, hconn, Bool.false_eq_true, if_false, if_true, Bool.not_false]
    obtain ⟨_, _, f3, _, f5, _⟩ := syncNTP_frame
      { w with connected := true, connecting := false, ipAddress := e.localIP } a e
    obtain ⟨n1, n2, n3⟩ := ntpLoop_counts e.timeOk 11 0
    rw [hupd]
    refine ⟨f3, f5, ?_, ?_⟩
    · intro hinit hlog
      unfold syncNTP
      simp only [hinit, hlog, Bool.not_true, Bool.or_self, Bool.false_eq_true, if_false]
      split <;>
        simp only [List.count_cons, n1, beq_self_eq_true, if_true, beq_iff_eq, reduceCtorEq,
          if_false, Nat.add_zero, Nat.zero_add, true_and] <;>
        exact ⟨n3 (by omega), n2⟩
    · intro hskip
      unfold syncNTP
      rcases hskip with h | h <;> simp [h]
  · intro hconn
    unfold update
    simp only [hsta, hup, hconn, Bool.false_eq_true, if_false, if_true, Bool.not_true,
      and_self]

theorem connected_transition_sync_witness :
    stationWifi.apMode = false ∧ linkUpEnv.linkUp = true ∧
    (update stationWifi initAuditLog linkUpEnv).wifi.connected = true ∧
    (update stationWifi initAuditLog linkUpEnv).wifi.ipAddress = "192.168.1.7" ∧
    (update stationWifi initAuditLog linkUpEnv).acts.count Action.configTime = 1 :=
  ⟨by decide, by decide,
    ((connected_transition_sync stationWifi initAuditLog linkUpEnv (by decide)
      (by decide)).1 (by decide)).1,
    ((connected_transition_sync stationWifi initAuditLog linkUpEnv (by decide)
      (by decide)).1 (by decide)).2.1,
    (((connected_transition_sync stationWifi initAuditLog linkUpEnv (by decide)
      (by decide)).1 (by decide)).2.2.1 (by decide) (by decide)).1⟩

/-- The ring after 60 appends: head 10, count 50. -/
theorem wrappedLog_ring : wrappedLog.logHead = 10 ∧ wrappedLog.logCount = 50 :=
  ⟨(appendAll_ring initStorage rfl rfl ((List.range 60).map sampleEntry)).1,
    (appendAll_ring initStorage rfl rfl ((List.range 60).map sampleEntry)).2.1⟩

theorem wrappedLog_bounds : wrappedLog.logHead < 50 ∧ wrappedLog.logCount ≤ 50 := by
  rw [wrappedLog_ring.1, wrappedLog_ring.2]
  decide

/-! ## Theorems about the ring of the audit log -/

/-- C28: after `n` appends to the empty log `logHead` is `n mod 50` and `logCount`
is `min(n, 50)`, so `logCount < 50` implies `logHead = logCount`; and the oldest
retained entry is in slot 0 while `logCount < 50` and in slot `logHead` once
`logCount = 50`, which is where `getLogEntries` starts reading. -/
theorem appendAll_head_count (s : Storage) (es : List LogEntry)
    (hhead : s.logHead = 0) (hcount : s.logCount = 0) :
    (appendAll s es).logHead = es.length % 50 ∧
    (appendAll s es).logCount = min es.length 50 ∧
    ((appendAll s es).logCount < 50 →
      (appendAll s es).logHead = (appendAll s es).logCount) ∧
    (∀ h : es.length - min es.length 50 < es.length,
      (appendAll s es).logBuffer
          (if (appendAll s es).logCount < 50 then 0 else (appendAll s es).logHead)
        = es.get ⟨es.length - min es.length 50, h⟩) := by
  obtain ⟨r1, r2, r3⟩ := appendAll_ring s hhead hcount es
  refine ⟨r1, r2, ?_, ?_⟩
  · intro hlt
    rw [r1, r2]
    rw [r2] at hlt
    omega
  · intro h
    rw [← r3 (es.length - min es.length 50) h (by omega), r1, r2]
    congr 1
    split <;> omega

theorem appendAll_head_count_witness :
    initStorage.logHead = 0 ∧ initStorage.logCount = 0 ∧
    wrappedLog.logHead = 10 ∧ wrappedLog.logCount = 50 :=
  ⟨rfl, rfl,
    (appendAll_head_count initStorage ((List.range 60).map sampleEntry) rfl rfl).1,
    (appendAll_head_count initStorage ((List.range 60).map sampleEntry) rfl rfl).2.1⟩

/-- C27: with `logHead < 50`, `logCount ≤ 50` and `maxEntries ≥ 0`, `getLogEntries`
returns `min(logCount, maxEntries)`, sets `output[i]` to
`logBuffer[(start + i) mod 50]` for every `i` below that, where `start` is 0 when
`logCount < 50` and `logHead` otherwise, and leaves the rest of `output` alone; so
after a run of appends to the empty log, `output[i]` is entry `i` of the
retained window counted from its oldest entry, also when `maxEntries` is smaller
than `logCount`. -/
theorem getLogEntries_spec (s : Storage) (out : Nat → LogEntry) (maxEntries : Int)
    (_hhead : s.logHead < 50) (hcount : s.logCount ≤ 50) (hmax : 0 ≤ maxEntries) :
    (getLogEntries s out maxEntries).1 = min (s.logCount : Int) maxEntries ∧
    (∀ i : Nat, (i : Int) < min (s.logCount : Int) maxEntries →
      (getLogEntries s out maxEntries).2 i
        = s.logBuffer (((if s.logCount < 50 then 0 else s.logHead) + i) % 50)) ∧
    (∀ i : Nat, min (s.logCount : Int) maxEntries ≤ (i : Int) →
      (getLogEntries s out maxEntries).2 i = out i) ∧
    (∀ (s0 : Storage) (es : List LogEntry), s0.logHead = 0 → s0.logCount = 0 →
      s = appendAll s0 es →
      ∀ (i : Nat) (h : es.length - min es.length 50 + i < es.length),
        (i : Int) < maxEntries →
        (getLogEntries s out maxEntries).2 i
          = es.get ⟨es.length - min es.length 50 + i, h⟩) := by
  have hread : ∀ i : Nat, (i : Int) < min (s.logCount : Int) maxEntries →
      (getLogEntries s out maxEntries).2 i
        = s.logBuffer (((if s.logCount < 50 then 0 else s.logHead) + i) % 50) := by
    intro i hi
    have hne : s.logCount ≠ 0 := by omega
    have hin : 0 ≤ i ∧ i < 0 + (min (s.logCount : Int) maxEntries).toNat := by omega
    unfold getLogEntries
    rw [if_neg hne]
    simp only [copyLoop_apply, if_pos hin, MAX_LOG_ENTRIES]
  refine ⟨?_, hread, ?_, ?_⟩
  · unfold getLogEntries
    split
    · next hz =>
      rw [hz]
      simp only [Nat.cast_zero]
      omega
    · rfl
  · intro i hi
    unfold getLogEntries
    split
    · rfl
    · have hout : ¬ (0 ≤ i ∧ i < 0 + (min (s.logCount : Int) maxEntries).toNat) := by omega
      simp only [copyLoop_apply, if_neg hout]
  · intro s0 es h0 hc hs i h hi
    obtain ⟨r1, r2, r3⟩ := appendAll_ring s0 h0 hc es
    rw [← hs] at r1 r2 r3
    rw [hread i (by omega), ← r3 (es.length - min es.length 50 + i) h (by omega), r1, r2]
    congr 1
    split <;> omega

theorem getLogEntries_spec_witness :
    wrappedLog.logHead < 50 ∧ wrappedLog.logCount ≤ 50 ∧ (0 : Int) ≤ 3 ∧
    (getLogEntries wrappedLog (fun _ => zeroEntry) 3).1
      = min (wrappedLog.logCount : Int) 3 ∧
    (getLogEntries wrappedLog (fun _ => zeroEntry) 3).2 2 = sampleEntry 12 :=
  ⟨wrappedLog_bounds.1, wrappedLog_bounds.2, by decide,
    (getLogEntries_spec wrappedLog (fun _ => zeroEntry) 3
      (wrappedLog_bounds.1) (wrappedLog_bounds.2) (by decide)).1,
    (getLogEntries_spec wrappedLog (fun _ => zeroEntry) 3
      (wrappedLog_bounds.1) (wrappedLog_bounds.2)
      (by decide)).2.2.2 initStorage ((List.range 60).map sampleEntry) rfl rfl rfl 2
      (by decide) (by decide)⟩

/-! ## Theorems about the synchronisation anchor -/

theorem AuditOp.apply_of_not_sync (a : AuditLog) (s : Storage) (op : AuditOp)
    (h : op.isSync = false) : (op.apply a s).1 = a := by
  cases op <;> first | rfl | simp [AuditOp.isSync] at h

theorem AuditOp.apply_keeps_synced (a : AuditLog) (s : Storage) (op : AuditOp)
    (h : a.ntpSynced = true) : (op.apply a s).1.ntpSynced = true := by
  cases op <;> first | exact h | rfl

theorem runAudit_keeps_synced :
    ∀ (ops : List AuditOp) (a : AuditLog) (s : Storage), a.ntpSynced = true →
      (runAudit a s ops).1.ntpSynced = true := by
  intro ops
  induction ops with
  | nil =>
    intro a s h
    exact h
  | cons op ops ih =>
    intro a s h
    exact ih _ _ (AuditOp.apply_keeps_synced a s op h)

theorem runAudit_keeps_anchor :
    ∀ (ops : List AuditOp) (a : AuditLog) (s : Storage),
      (∀ op ∈ ops, op.isSync = false) → (runAudit a s ops).1 = a := by
  intro ops
  induction ops with
  | nil =>
    intro a s _
    rfl
  | cons op ops ih =>
    intro a s h
    have h1 := AuditOp.apply_of_not_sync a s op (h op (List.mem_cons_self _ _))
    have h2 := ih (op.apply a s).1 (op.apply a s).2
      (fun o ho => h o (List.mem_cons_of_mem _ ho))
    exact h2.trans h1

/-- C22: after a call of `setNtpSync`, `isNtpSynced` is true after every run of
later `AuditLog` calls; and a later `setNtpSync(T')` at clock value `M'` makes the
anchor `(T', M')` whatever it was before, the anchor stays so through calls other
than `setNtpSync`, and `millisToRealTime` is then computed from `T'` and `M'` only. -/
theorem sync_is_permanent (a : AuditLog) (s : Storage) (T : Int) (M : Nat)
    (ops later : List AuditOp) (T' : Int) (M' : Nat) (t : Nat)
    (hlater : ∀ op ∈ later, op.isSync = false) :
    isNtpSynced (runAudit (setNtpSync a T M) s ops).1 = true ∧
    (runAudit
        (setNtpSync (runAudit (setNtpSync a T M) s ops).1 T' M')
        (runAudit (setNtpSync a T M) s ops).2 later).1
      = { ntpSyncTime := T', ntpSyncMillis := M', ntpSynced := true } ∧
    millisToRealTime
        (runAudit
          (setNtpSync (runAudit (setNtpSync a T M) s ops).1 T' M')
          (runAudit (setNtpSync a T M) s ops).2 later).1 t
      = T' + Int.tdiv (toInt32 (sub32 t M')) 1000 := by
  have hanchor := runAudit_keeps_anchor later
    (setNtpSync (runAudit (setNtpSync a T M) s ops).1 T' M')
    (runAudit (setNtpSync a T M) s ops).2 hlater
  refine ⟨runAudit_keeps_synced ops _ s rfl, ?_, ?_⟩
  · rw [hanchor]
    rfl
  · rw [hanchor]
    rfl

theorem sync_is_permanent_witness :
    (∀ op ∈ auditSession, op.isSync = false) ∧
    isNtpSynced
      (runAudit (setNtpSync initAuditLog 1700000000 1000) initStorage
        [AuditOp.begin, AuditOp.setNtpSync 1700000500 400000]).1 = true ∧
    millisToRealTime
      (runAudit
        (setNtpSync
          (runAudit (setNtpSync initAuditLog 1700000000 1000) initStorage
            [AuditOp.begin, AuditOp.setNtpSync 1700000500 400000]).1
          1700003600 3600000)
        (runAudit (setNtpSync initAuditLog 1700000000 1000) initStorage
          [AuditOp.begin, AuditOp.setNtpSync 1700000500 400000]).2 auditSession).1 3690000
      = 1700003600 + Int.tdiv (toInt32 (sub32 3690000 3600000)) 1000 :=
  ⟨by decide,
    (sync_is_permanent initAuditLog initStorage 1700000000 1000
      [AuditOp.begin, AuditOp.setNtpSync 1700000500 400000] auditSession 1700003600 3600000
      3690000 (by decide)).1,
    (sync_is_permanent initAuditLog initStorage 1700000000 1000
      [AuditOp.begin, AuditOp.setNtpSync 1700000500 400000] auditSession 1700003600 3600000
      3690000 (by decide)).2.2⟩

/-! ## Theorems about `connect` -/

/-- C24: in station mode with the link down, one `connect()` at time `t`: a manager
that is not connecting and has credentials becomes connecting with
`connectStartTime = t`, calls `WiFi.begin` with the stored pair and does not
time out in the same call; a manager that is connecting clears the flag exactly
when the 32-bit difference `t - connectStartTime` exceeds 15000 ms and otherwise
is unchanged; a manager without credentials that is not connecting is unchanged,
so it never becomes connecting. -/
theorem connect_link_down (w : WifiManager) (a : AuditLog) (e : Env)
    (hsta : w.apMode = false) (hdown : e.linkUp = false) :
    (w.connecting = false → w.configured = true →
      (connect w a e).wifi = { w with connecting := true, connectStartTime := e.now } ∧
      (connect w a e).acts = [Action.wifiBegin w.storedSSID w.storedPass]) ∧
    (w.connecting = true → sub32 e.now w.connectStartTime > 15000 →
      (connect w a e).wifi = { w with connecting := false }) ∧
    (w.connecting = true → ¬ sub32 e.now w.connectStartTime > 15000 →
      (connect w a e).wifi = w) ∧
    (w.connecting = true →
      ((connect w a e).wifi.connecting = false ↔ sub32 e.now w.connectStartTime > 15000)) ∧
    (w.connecting = true → (connect w a e).acts = []) ∧
    (w.configured = false → w.connecting = false →
      (connect w a e).wifi = w ∧ (connect w a e).acts = []) ∧
    (w.configured = false → (connect w a e).wifi.connecting = true → w.connecting = true) ∧
    (connect w a e).log = a := by
  have hconn : connect w a e =
      { wifi := checkTimeout (startAttempt w e).1 e, log := a, acts := (startAttempt w e).2 } := by
    unfold connect
    simp only [hsta, hdown, Bool.false_eq_true, if_false]
  have hself : sub32 e.now e.now = 0 := by
    unfold sub32
    omega
  have hstay : ¬ (w.connecting = false) ∨ ¬ (w.configured = true) → startAttempt w e = (w, []) := by
    intro h
    unfold startAttempt
    rcases h with h | h
    · have hc : w.connecting = true := by simpa using h
      simp [hc]
    · have hc : w.configured = false := by simpa using h
      simp [hc]
  rw [hconn]
  refine ⟨?_, ?_, ?_, ?_, ?_, ?_, ?_, rfl⟩
  · intro hc hcfg
    have hstart : startAttempt w e =
        ({ w with connecting := true, connectStartTime := e.now },
          [Action.wifiBegin w.storedSSID w.storedPass]) := by
      unfold startAttempt
      simp [hc, hcfg]
    rw [hstart]
    refine ⟨?_, rfl⟩
    unfold checkTimeout
    simp [hself, WIFI_CONNECT_TIMEOUT]
  · intro hc ht
    rw [hstay (Or.inl (by simp [hc]))]
    unfold checkTimeout
    simp [hc, ht, WIFI_CONNECT_TIMEOUT]
  · intro hc ht
    rw [hstay (Or.inl (by simp [hc]))]
    unfold checkTimeout
    simp [hc, ht, WIFI_CONNECT_TIMEOUT]
  · intro hc
    rw [hstay (Or.inl (by simp [hc]))]
    unfold checkTimeout
    by_cases ht : sub32 e.now w.connectStartTime > 15000
    · simp [hc, ht, WIFI_CONNECT_TIMEOUT]
    · simp [hc, ht, WIFI_CONNECT_TIMEOUT]
  · intro hc
    rw [hstay (Or.inl (by simp [hc]))]
  · intro hcfg hc
    rw [hstay (Or.inr (by simp [hcfg]))]
    refine ⟨?_, rfl⟩
    unfold checkTimeout
    simp [hc]
  · intro hcfg hres
    rw [hstay (Or.inr (by simp [hcfg]))] at hres
    by_contra hne
    have hc : w.connecting = false := by simpa using hne
    unfold checkTimeout at hres
    simp [hc] at hres

theorem connect_link_down_witness :
    stationWifi.apMode = false ∧ tick20000.linkUp = false ∧
    (connect stationWifi initAuditLog tick20000).wifi
      = { stationWifi with connecting := true, connectStartTime := tick20000.now } ∧
    stuckWifi.apMode = false ∧
    (connect stuckWifi initAuditLog tick20000).wifi = { stuckWifi with connecting := false } :=
  ⟨by decide, by decide,
    ((connect_link_down stationWifi initAuditLog tick20000 (by decide) (by decide)).1
      (by decide) (by decide)).1,
    by decide,
    (connect_link_down stuckWifi initAuditLog tick20000 (by decide) (by decide)).2.1
      (by decide) (by decide)⟩

/-! ## Theorems about the narrowing of submitted settings -/

/-- The outcome of a settings update that carries at least one field. -/
theorem postSettings_of_changed (s : Storage) (g : Globals) (r : SettingsArgs)
    (hsome : r.rssiUnlock ≠ none ∨ r.rssiLock ≠ none ∨ r.timeout ≠ none ∨
      r.weakCount ≠ none) :
    postSettings s g r =
      { code := 200
        storage := saveSettings { s with settings := assignSettings s.settings r }
        globals :=
          { RSSI_UNLOCK_THRESHOLD := (assignSettings s.settings r).rssiUnlockThreshold
            RSSI_LOCK_THRESHOLD := (assignSettings s.settings r).rssiLockThreshold
            PROXIMITY_TIMEOUT := (assignSettings s.settings r).proximityTimeout * 1000
            WEAK_SIGNAL_THRESHOLD :=
              ((assignSettings s.settings r).weakSignalThreshold : Int) } } := by
  have hchanged : (r.rssiUnlock.isSome || r.rssiLock.isSome || r.timeout.isSome
      || r.weakCount.isSome) = true := by
    obtain ⟨a, b, c, d⟩ := r
    cases a <;> cases b <;> cases c <;> cases d <;> simp at hsome ⊢
  dsimp only [postSettings]
  rw [if_pos hchanged]
  rfl

theorem toInt8_eq_iff (v : Int) : toInt8 v = v ↔ -128 ≤ v ∧ v ≤ 127 := by
  unfold toInt8
  omega

theorem toUInt8_eq_iff (v : Int) : ((toUInt8 v : Nat) : Int) = v ↔ 0 ≤ v ∧ v ≤ 255 := by
  unfold toUInt8
  omega

/-- C29: a value `v` submitted for a settings field is stored reduced to the 8-bit
type of the field, in the settings record and in the store: the two RSSI
thresholds hold `((v + 128) mod 256) - 128`, the timeout and the weak-signal count
hold `v mod 256`, and the live `PROXIMITY_TIMEOUT` becomes `(v mod 256) * 1000`; the
stored value equals `v` exactly when `v` is in `[-128, 127]` for a threshold and in
`[0, 255]` for the other two fields. -/
theorem postSettings_reduction (s : Storage) (g : Globals) (r : SettingsArgs) (v : Int) :
    (r.rssiUnlock = some v →
      (postSettings s g r).storage.settings.rssiUnlockThreshold = (v + 128) % 256 - 128 ∧
      (postSettings s g r).storage.prefs PKey.rssiUnlock
        = some (PVal.char ((v + 128) % 256 - 128)) ∧
      ((postSettings s g r).storage.settings.rssiUnlockThreshold = v ↔
        -128 ≤ v ∧ v ≤ 127)) ∧
    (r.rssiLock = some v →
      (postSettings s g r).storage.settings.rssiLockThreshold = (v + 128) % 256 - 128 ∧
      (postSettings s g r).storage.prefs PKey.rssiLock
        = some (PVal.char ((v + 128) % 256 - 128)) ∧
      ((postSettings s g r).storage.settings.rssiLockThreshold = v ↔
        -128 ≤ v ∧ v ≤ 127)) ∧
    (r.timeout = some v →
      ((postSettings s g r).storage.settings.proximityTimeout : Int) = v % 256 ∧
      (postSettings s g r).storage.prefs PKey.proxTimeout
        = some (PVal.uchar (v % 256).toNat) ∧
      ((postSettings s g r).globals.PROXIMITY_TIMEOUT : Int) = v % 256 * 1000 ∧
      (((postSettings s g r).storage.settings.proximityTimeout : Int) = v ↔
        0 ≤ v ∧ v ≤ 255)) ∧
    (r.weakCount = some v →
      ((postSettings s g r).storage.settings.weakSignalThreshold : Int) = v % 256 ∧
      (postSettings s g r).storage.prefs PKey.weakSigThr
        = some (PVal.uchar (v % 256).toNat) ∧
      (((postSettings s g r).storage.settings.weakSignalThreshold : Int) = v ↔
        0 ≤ v ∧ v ≤ 255)) := by
  refine ⟨?_, ?_, ?_, ?_⟩
  · intro h
    have hfield := assignSettings_rssiUnlock s.settings r
    rw [h] at hfield
    rw [postSettings_of_changed s g r (Or.inl (by simp [h]))]
    refine ⟨hfield, ?_, ?_⟩
    · simp [saveSettings, Prefs.put, Function.update, hfield, toInt8]
    · show (assignSettings s.settings r).rssiUnlockThreshold = v ↔ _
      rw [hfield]
      exact toInt8_eq_iff v
  · intro h
    have hfield := assignSettings_rssiLock s.settings r
    rw [h] at hfield
    rw [postSettings_of_changed s g r (Or.inr (Or.inl (by simp [h])))]
    refine ⟨hfield, ?_, ?_⟩
    · simp [saveSettings, Prefs.put, Function.update, hfield, toInt8]
    · show (assignSettings s.settings r).rssiLockThreshold = v ↔ _
      rw [hfield]
      exact toInt8_eq_iff v
  · intro h
    have hfield := assignSettings_timeout s.settings r
    rw [h] at hfield
    rw [postSettings_of_changed s g r (Or.inr (Or.inr (Or.inl (by simp [h]))))]
    refine ⟨?_, ?_, ?_, ?_⟩
    · show ((assignSettings s.settings r).proximityTimeout : Int) = _
      rw [hfield]
      exact toUInt8_cast v
    · simp [saveSettings, Prefs.put, Function.update, hfield, toUInt8]
    · show (((assignSettings s.settings r).proximityTimeout * 1000 : Nat) : Int) = _
      rw [hfield, Nat.cast_mul, toUInt8_cast]
      rfl
    · show ((assignSettings s.settings r).proximityTimeout : Int) = v ↔ _
      rw [hfield]
      exact toUInt8_eq_iff v
  · intro h
    have hfield := assignSettings_weakCount s.settings r
    rw [h] at hfield
    rw [postSettings_of_changed s g r (Or.inr (Or.inr (Or.inr (by simp [h]))))]
    refine ⟨?_, ?_, ?_⟩
    · show ((assignSettings s.settings r).weakSignalThreshold : Int) = _
      rw [hfield]
      exact toUInt8_cast v
    · simp [saveSettings, Prefs.put, Function.update, hfield, toUInt8]
    · show ((assignSettings s.settings r).weakSignalThreshold : Int) = v ↔ _
      rw [hfield]
      exact toUInt8_eq_iff v

theorem postSettings_reduction_witness :
    outOfRange.timeout = some 300 ∧
    ((postSettings initStorage initGlobals outOfRange).storage.settings.proximityTimeout : Int)
      = 300 % 256 ∧
    ((postSettings initStorage initGlobals outOfRange).globals.PROXIMITY_TIMEOUT : Int)
      = 300 % 256 * 1000 ∧
    outOfRange.rssiUnlock = some (-200) ∧
    (postSettings initStorage initGlobals outOfRange).storage.settings.rssiUnlockThreshold
      = (-200 + 128) % 256 - 128 :=
  ⟨rfl,
    ((postSettings_reduction initStorage initGlobals outOfRange 300).2.2.1 rfl).1,
    ((postSettings_reduction initStorage initGlobals outOfRange 300).2.2.1 rfl).2.2.1,
    rfl,
    ((postSettings_reduction initStorage initGlobals outOfRange (-200)).1 rfl).1⟩

/-! ## Theorems about the time-sync loop and the mode flags -/

/-- The loop of `syncNTP` ends with `retries < 10` exactly when one of the queries
number `retries` to 9 (counted from 0) succeeds. -/
theorem ntpLoop_lt_ten_iff (timeOk : Nat → Bool) :
    ∀ (fuel retries : Nat), 11 ≤ retries + fuel → retries ≤ 10 →
      ((ntpLoop timeOk fuel retries).1 < 10 ↔
        ∃ k, retries ≤ k ∧ k < 10 ∧ timeOk k = true) := by
  intro fuel
  induction fuel with
  | zero =>
    intro retries h1 h2
    omega
  | succ n ih =>
    intro retries h1 h2
    unfold ntpLoop
    by_cases hok : timeOk retries = true
    · simp only [hok, Bool.not_true, Bool.false_and, Bool.false_eq_true, if_false]
      constructor
      · intro hlt
        exact ⟨retries, le_refl _, hlt, hok⟩
      · rintro ⟨k, hk1, hk2, _⟩
        omega
    · have hno : timeOk retries = false := by simpa using hok
      by_cases hlt : retries < 10
      · simp only [hno, Bool.not_false, hlt, decide_True, Bool.and_self, if_true]
        rw [ih (retries + 1) (by omega) (by omega)]
        constructor
        · rintro ⟨k, hk1, hk2, hk3⟩
          exact ⟨k, by omega, hk2, hk3⟩
        · rintro ⟨k, hk1, hk2, hk3⟩
          have hne : k ≠ retries := by
            rintro rfl
            rw [hno] at hk3
            exact absurd hk3 (by simp)
          exact ⟨k, by omega, hk2, hk3⟩
      · simp only [hno, Bool.not_false, hlt, decide_False, Bool.and_false,
          Bool.false_eq_true, if_false, false_iff, not_exists, not_and]
        intro k hk1 hk2
        omega

/-- The loop of `syncNTP` makes at most `10 - retries` delays. -/
theorem ntpLoop_delays (timeOk : Nat → Bool) :
    ∀ (fuel retries : Nat), retries ≤ 10 →
      (ntpLoop timeOk fuel retries).2.count (Action.delay 500) ≤ 10 - retries := by
  intro fuel
  induction fuel with
  | zero =>
    intro retries _
    simp [ntpLoop]
  | succ n ih =>
    intro retries h
    unfold ntpLoop
    split
    · next hc =>
      simp only [Bool.and_eq_true, decide_eq_true_eq] at hc
      have := ih (retries + 1) (by omega)
      simp only [List.count_cons, beq_iff_eq, reduceCtorEq, if_false, Nat.add_zero,
        beq_self_eq_true, if_true]
      omega
    · simp [List.count_cons]

/-- What holds of `syncNTP` on a manager that has not synchronised and has an audit
log: at most 11 queries and 10 delays; the anchor is set exactly when one of
the first ten queries succeeds; otherwise manager and audit log are unchanged. -/
theorem syncNTP_unsynced (w : WifiManager) (a : AuditLog) (e : Env)
    (hinit : w.ntpInitialized = false) (hlog : w.auditLog = true) :
    (syncNTP w a e).acts.count Action.getLocalTime ≤ 11 ∧
    (syncNTP w a e).acts.count (Action.delay 500) ≤ 10 ∧
    ((∃ k, k < 10 ∧ e.timeOk k = true) →
      (syncNTP w a e).wifi.ntpInitialized = true ∧
      (syncNTP w a e).log = setNtpSync a e.unixTime e.syncMillis) ∧
    ((∀ k, k < 10 → e.timeOk k = false) →
      (syncNTP w a e).wifi = w ∧ (syncNTP w a e).log = a) := by
  obtain ⟨n1, n2, _⟩ := ntpLoop_counts e.timeOk 11 0
  have hd := ntpLoop_delays e.timeOk 11 0 (by omega)
  have hiff := ntpLoop_lt_ten_iff e.timeOk 11 0 (by omega) (by omega)
  have hguard : (w.ntpInitialized || !w.auditLog) = false := by simp [hinit, hlog]
  by_cases hlt : (ntpLoop e.timeOk 11 0).1 < 10
  · have hs : syncNTP w a e =
        { wifi := { w with ntpInitialized := true }
          log := setNtpSync a e.unixTime e.syncMillis
          acts := Action.configTime :: (ntpLoop e.timeOk 11 0).2 } := by
      unfold syncNTP
      rw [if_neg (by simp [hguard]), if_pos hlt]
    rw [hs]
    refine ⟨?_, ?_, fun _ => ⟨rfl, rfl⟩, ?_⟩
    · simp only [List.count_cons, beq_iff_eq, reduceCtorEq, if_false, Nat.add_zero]
      exact n2
    · simp only [List.count_cons, beq_iff_eq, reduceCtorEq, if_false, Nat.add_zero]
      exact hd
    · intro hall
      obtain ⟨k, _, hk2, hk3⟩ := hiff.mp hlt
      rw [hall k hk2] at hk3
      exact absurd hk3 (by simp)
  · have hs : syncNTP w a e =
        { wifi := w, log := a, acts := Action.configTime :: (ntpLoop e.timeOk 11 0).2 } := by
      unfold syncNTP
      rw [if_neg (by simp [hguard]), if_neg hlt]
    rw [hs]
    refine ⟨?_, ?_, ?_, fun _ => ⟨rfl, rfl⟩⟩
    · simp only [List.count_cons, beq_iff_eq, reduceCtorEq, if_false, Nat.add_zero]
      exact n2
    · simp only [List.count_cons, beq_iff_eq, reduceCtorEq, if_false, Nat.add_zero]
      exact hd
    · rintro ⟨k, hk1, hk2⟩
      exact absurd (hiff.mpr ⟨k, Nat.zero_le _, hk1, hk2⟩) hlt

/-- C26, at the failing input: on a manager that has not synchronised, when the
time source answers the eleventh query only, `syncNTP` makes 11 queries and 10
delays, the eleventh query succeeds, and yet the audit log is not anchored and
`ntpInitialized` stays false; an answer to the tenth query does set the anchor. -/
theorem syncNTP_discards_eleventh_query :
    stationWifi.ntpInitialized = false ∧ stationWifi.auditLog = true ∧
    lateAnswerEnv.timeOk 10 = true ∧
    (syncNTP stationWifi initAuditLog lateAnswerEnv).acts.count Action.getLocalTime = 11 ∧
    (syncNTP stationWifi initAuditLog lateAnswerEnv).acts.count (Action.delay 500) = 10 ∧
    (syncNTP stationWifi initAuditLog lateAnswerEnv).wifi.ntpInitialized = false ∧
    isNtpSynced (syncNTP stationWifi initAuditLog lateAnswerEnv).log = false ∧
    (syncNTP stationWifi initAuditLog lateAnswerEnv).log = initAuditLog ∧
    (syncNTP stationWifi initAuditLog tenthAnswerEnv).wifi.ntpInitialized = true ∧
    isNtpSynced (syncNTP stationWifi initAuditLog tenthAnswerEnv).log = true := by
  decide

/-- C25, at the failing input: after `begin` over stored credentials, a `connect()`
with the link down and a `connect()` with the link up leave `connecting` and
`connected` both true; `update()` in place of the second call clears
`connecting`. -/
theorem connect_leaves_connecting_set :
    stationWifi = ((WifiManager.init { ssid := some "home", pass := some "secret" }).begin
      true).1 ∧
    (run stationWifi initAuditLog
      [Call.connect quietEnv, Call.connect linkUpEnv]).wifi.apMode = false ∧
    (run stationWifi initAuditLog
      [Call.connect quietEnv, Call.connect linkUpEnv]).wifi.connecting = true ∧
    (run stationWifi initAuditLog
      [Call.connect quietEnv, Call.connect linkUpEnv]).wifi.connected = true ∧
    (run stationWifi initAuditLog
      [Call.connect quietEnv, Call.update linkUpEnv]).wifi.connecting = false ∧
    (run stationWifi initAuditLog
      [Call.connect quietEnv, Call.update linkUpEnv]).wifi.connected = true := by
  decide

/-! ## Lemmas about runs of registry calls -/

theorem deleteDevice_valid (s : Storage) (index : Int)
    (h0 : 0 ≤ index) (hi : index < s.deviceCount) :
    deleteDevice s index =
      (true, saveDevices
        { s with
          devices := shiftLoop (s.deviceCount - 1 - index).toNat index.toNat s.devices
          deviceCount := s.deviceCount - 1 }) := by
  unfold deleteDevice
  rw [if_neg (by omega)]

theorem deleteDevice_invalid (s : Storage) (index : Int)
    (h : index < 0 ∨ index ≥ s.deviceCount) : deleteDevice s index = (false, s) := by
  unfold deleteDevice
  rw [if_pos h]

theorem renameDevice_valid (s : Storage) (index : Int) (newName : List Nat)
    (h0 : 0 ≤ index) (hi : index < s.deviceCount) :
    renameDevice s index newName =
      (true,
        { s with
          devices := Function.update s.devices index.toNat
            { s.devices index.toNat with name := setName newName }
          prefs := s.prefs.put (PKey.name index.toNat)
            (PVal.str (cstr (setName newName))) }) := by
  unfold renameDevice
  rw [if_neg (by omega)]

theorem renameDevice_invalid (s : Storage) (index : Int) (newName : List Nat)
    (h : index < 0 ∨ index ≥ s.deviceCount) : renameDevice s index newName = (false, s) := by
  unfold renameDevice
  rw [if_pos h]

/-- Each registry call keeps `deviceCount` non-negative and the live keys distinct. -/
theorem RegOp.apply_keysDistinct (s : Storage) (op : RegOp)
    (h0 : 0 ≤ s.deviceCount) (hd : s.keysDistinct) :
    0 ≤ (op.apply s).deviceCount ∧ (op.apply s).keysDistinct := by
  cases op with
  | add irk name =>
    by_cases hrej : s.deviceCount ≥ 10 ∨
        ∃ j : Nat, (j : Int) < s.deviceCount ∧ (s.devices j).irk = irk
    · simp only [RegOp.apply, addDevice_reject s irk name hrej]
      exact ⟨h0, hd⟩
    · have hroom : s.deviceCount < 10 := by
        by_contra hge
        exact hrej (Or.inl (by omega))
      have hnew : ∀ j : Nat, (j : Int) < s.deviceCount → (s.devices j).irk ≠ irk :=
        fun j hj hk => hrej (Or.inr ⟨j, hj, hk⟩)
      simp only [RegOp.apply, addDevice_accept s irk name hroom hnew]
      refine ⟨by simp only [saveDevices_deviceCount]; omega, ?_⟩
      intro i j hi hj hij
      simp only [saveDevices_deviceCount] at hi hj
      simp only [saveDevices_devices]
      by_cases hik : i = s.deviceCount.toNat
      · have hjk : j ≠ s.deviceCount.toNat := by omega
        rw [hik, Function.update_same, Function.update_noteq hjk]
        exact fun h => hnew j (by omega) h.symm
      · rw [Function.update_noteq hik]
        by_cases hjk : j = s.deviceCount.toNat
        · rw [hjk, Function.update_same]
          exact hnew i (by omega)
        · rw [Function.update_noteq hjk]
          exact hd i j (by omega) (by omega) hij
  | rename index name =>
    by_cases hbad : index < 0 ∨ index ≥ s.deviceCount
    · simp only [RegOp.apply, renameDevice_invalid s index name hbad]
      exact ⟨h0, hd⟩
    · simp only [RegOp.apply, renameDevice_valid s index name (by omega) (by omega)]
      refine ⟨h0, ?_⟩
      intro i j hi hj hij
      have hirk : ∀ k : Nat,
          (Function.update s.devices index.toNat
            { s.devices index.toNat with name := setName name } k).irk = (s.devices k).irk := by
        intro k
        by_cases hk : k = index.toNat
        · rw [hk, Function.update_same]
        · rw [Function.update_noteq hk]
      show (Function.update s.devices index.toNat _ i).irk
        ≠ (Function.update s.devices index.toNat _ j).irk
      rw [hirk i, hirk j]
      exact hd i j hi hj hij
  | delete index =>
    by_cases hbad : index < 0 ∨ index ≥ s.deviceCount
    · simp only [RegOp.apply, deleteDevice_invalid s index hbad]
      exact ⟨h0, hd⟩
    · simp only [RegOp.apply, deleteDevice_valid s index (by omega) (by omega)]
      refine ⟨by simp only [saveDevices_deviceCount]; omega, ?_⟩
      intro i j hi hj hij
      simp only [saveDevices_deviceCount] at hi hj
      simp only [saveDevices_devices, shiftLoop_apply]
      split <;> split <;> exact hd _ _ (by omega) (by omega) (by omega)

theorem applyOps_keysDistinct :
    ∀ (ops : List RegOp) (s : Storage), 0 ≤ s.deviceCount → s.keysDistinct →
      0 ≤ (applyOps s ops).deviceCount ∧ (applyOps s ops).keysDistinct := by
  intro ops
  induction ops with
  | nil =>
    intro s h0 hd
    exact ⟨h0, hd⟩
  | cons op ops ih =>
    intro s h0 hd
    obtain ⟨h0', hd'⟩ := RegOp.apply_keysDistinct s op h0 hd
    exact ih (op.apply s) h0' hd'

/-! ## Theorems about runs of registry calls -/

/-- C21: in every state reached from an empty registry by a run of `addDevice`,
`renameDevice` and `deleteDevice` calls, two live slots with different indices
hold different keys. -/
theorem keys_pairwise_distinct (s : Storage) (ops : List RegOp)
    (hempty : s.deviceCount = 0) :
    ∀ i j : Nat, (i : Int) < (applyOps s ops).deviceCount →
      (j : Int) < (applyOps s ops).deviceCount → i ≠ j →
      ((applyOps s ops).devices i).irk.val ≠ ((applyOps s ops).devices j).irk.val := by
  have hd0 : s.keysDistinct := by
    intro i j hi _ _
    omega
  obtain ⟨_, hd⟩ := applyOps_keysDistinct ops s (by omega) hd0
  intro i j hi hj hij hval
  exact hd i j hi hj hij (Subtype.ext hval)

theorem keys_pairwise_distinct_witness :
    initStorage.deviceCount = 0 ∧
    (applyOps initStorage registrySession).deviceCount = 2 ∧
    ((applyOps initStorage registrySession).devices 0).irk.val
      ≠ ((applyOps initStorage registrySession).devices 1).irk.val :=
  ⟨rfl, by decide,
    keys_pairwise_distinct initStorage registrySession rfl 0 1 (by decide) (by decide)
      (by decide)⟩

/-! ## Lemmas about saving and loading the registry -/

theorem saveLoop_irk (devices : Nat → StoredDevice) :
    ∀ (fuel i : Nat) (p : Prefs) (j : Nat),
      saveLoop devices fuel i p (PKey.irk j)
        = if i ≤ j ∧ j < i + fuel then some (PVal.bytes (devices j).irk.val)
          else p (PKey.irk j) := by
  intro fuel
  induction fuel with
  | zero =>
    intro i p j
    have hno : ¬ (i ≤ j ∧ j < i) := by omega
    simp [saveLoop, hno]
  | succ n ih =>
    intro i p j
    simp only [saveLoop, ih]
    by_cases h1 : i + 1 ≤ j ∧ j < i + 1 + n
    · have h2 : i ≤ j ∧ j < i + (n + 1) := by omega
      rw [if_pos h1, if_pos h2]
    · by_cases hji : j = i
      · subst hji
        have h2 : j ≤ j ∧ j < j + (n + 1) := by omega
        rw [if_neg h1, if_pos h2]
        simp [Prefs.put, Function.update]
      · have h2 : ¬ (i ≤ j ∧ j < i + (n + 1)) := by omega
        rw [if_neg h1, if_neg h2]
        simp [Prefs.put, Function.update, hji]

theorem saveLoop_name (devices : Nat → StoredDevice) :
    ∀ (fuel i : Nat) (p : Prefs) (j : Nat),
      saveLoop devices fuel i p (PKey.name j)
        = if i ≤ j ∧ j < i + fuel then some (PVal.str (cstr (devices j).name))
          else p (PKey.name j) := by
  intro fuel
  induction fuel with
  | zero =>
    intro i p j
    have hno : ¬ (i ≤ j ∧ j < i) := by omega
    simp [saveLoop, hno]
  | succ n ih =>
    intro i p j
    simp only [saveLoop, ih]
    by_cases h1 : i + 1 ≤ j ∧ j < i + 1 + n
    · have h2 : i ≤ j ∧ j < i + (n + 1) := by omega
      rw [if_pos h1, if_pos h2]
    · by_cases hji : j = i
      · subst hji
        have h2 : j ≤ j ∧ j < j + (n + 1) := by omega
        rw [if_neg h1, if_pos h2]
        simp [Prefs.put, Function.update]
      · have h2 : ¬ (i ≤ j ∧ j < i + (n + 1)) := by omega
        rw [if_neg h1, if_neg h2]
        simp [Prefs.put, Function.update, hji]

theorem saveLoop_act (devices : Nat → StoredDevice) :
    ∀ (fuel i : Nat) (p : Prefs) (j : Nat),
      saveLoop devices fuel i p (PKey.act j)
        = if i ≤ j ∧ j < i + fuel then some (PVal.bool (devices j).active)
          else p (PKey.act j) := by
  intro fuel
  induction fuel with
  | zero =>
    intro i p j
    have hno : ¬ (i ≤ j ∧ j < i) := by omega
    simp [saveLoop, hno]
  | succ n ih =>
    intro i p j
    simp only [saveLoop, ih]
    by_cases h1 : i + 1 ≤ j ∧ j < i + 1 + n
    · have h2 : i ≤ j ∧ j < i + (n + 1) := by omega
      rw [if_pos h1, if_pos h2]
    · by_cases hji : j = i
      · subst hji
        have h2 : j ≤ j ∧ j < j + (n + 1) := by omega
        rw [if_neg h1, if_pos h2]
        simp [Prefs.put, Function.update]
      · have h2 : ¬ (i ≤ j ∧ j < i + (n + 1)) := by omega
        rw [if_neg h1, if_neg h2]
        simp [Prefs.put, Function.update, hji]

theorem saveLoop_devCount (devices : Nat → StoredDevice) :
    ∀ (fuel i : Nat) (p : Prefs),
      saveLoop devices fuel i p PKey.devCount = p PKey.devCount := by
  intro fuel
  induction fuel with
  | zero =>
    intro i p
    rfl
  | succ n ih =>
    intro i p
    simp only [saveLoop, ih]
    simp [Prefs.put, Function.update]

/-- After `saveDevices` the store holds the registry, when the count is in range and
the live names have at most 19 characters. -/
theorem saveDevices_persisted (t : Storage) (h0 : 0 ≤ t.deviceCount)
    (h10 : t.deviceCount ≤ 10)
    (hnames : ∀ i : Nat, (i : Int) < t.deviceCount → (cstr (t.devices i).name).length ≤ 19) :
    (saveDevices t).persisted := by
  refine ⟨h0, h10, ?_, ?_⟩
  · show Prefs.getInt (saveDevices t).prefs PKey.devCount 0 = t.deviceCount
    unfold Prefs.getInt saveDevices
    simp only [saveLoop_devCount]
    simp [Prefs.put, Function.update]
  · intro i hi
    have hi' : (i : Int) < t.deviceCount := hi
    have hin : 0 ≤ i ∧ i < 0 + t.deviceCount.toNat := by omega
    refine ⟨?_, ?_, hnames i hi', ?_⟩
    · show saveLoop t.devices t.deviceCount.toNat 0 _ (PKey.irk i) = _
      rw [saveLoop_irk, if_pos hin]
      rfl
    · show saveLoop t.devices t.deviceCount.toNat 0 _ (PKey.name i) = _
      rw [saveLoop_name, if_pos hin]
      rfl
    · show saveLoop t.devices t.deviceCount.toNat 0 _ (PKey.act i) = _
      rw [saveLoop_act, if_pos hin]
      rfl

theorem cstr_length_setName (src : List Nat) : (cstr (setName src)).length ≤ 19 := by
  rw [cstr_setName, List.length_take]
  omega

/-- Each registry call keeps the store in step with the registry. -/
theorem RegOp.apply_persisted (s : Storage) (op : RegOp) (hp : s.persisted) :
    (op.apply s).persisted := by
  obtain ⟨h0, h10, hcnt, hslots⟩ := hp
  cases op with
  | add irk name =>
    by_cases hrej : s.deviceCount ≥ 10 ∨
        ∃ j : Nat, (j : Int) < s.deviceCount ∧ (s.devices j).irk = irk
    · simp only [RegOp.apply, addDevice_reject s irk name hrej]
      exact ⟨h0, h10, hcnt, hslots⟩
    · have hroom : s.deviceCount < 10 := by
        by_contra hge
        exact hrej (Or.inl (by omega))
      have hnew : ∀ j : Nat, (j : Int) < s.deviceCount → (s.devices j).irk ≠ irk :=
        fun j hj hk => hrej (Or.inr ⟨j, hj, hk⟩)
      simp only [RegOp.apply, addDevice_accept s irk name hroom hnew]
      apply saveDevices_persisted
      · show 0 ≤ s.deviceCount + 1
        omega
      · show s.deviceCount + 1 ≤ 10
        omega
      · intro i hi
        have hi' : (i : Int) < s.deviceCount + 1 := hi
        show (cstr (Function.update s.devices s.deviceCount.toNat _ i).name).length ≤ 19
        by_cases hik : i = s.deviceCount.toNat
        · rw [hik, Function.update_same]
          exact cstr_length_setName name
        · rw [Function.update_noteq hik]
          exact (hslots i (by omega)).2.2.1
  | rename index name =>
    by_cases hbad : index < 0 ∨ index ≥ s.deviceCount
    · simp only [RegOp.apply, renameDevice_invalid s index name hbad]
      exact ⟨h0, h10, hcnt, hslots⟩
    · simp only [RegOp.apply, renameDevice_valid s index name (by omega) (by omega)]
      refine ⟨h0, h10, ?_, ?_⟩
      · dsimp only
        rw [← hcnt]
        simp [Prefs.getInt, Prefs.put, Function.update]
      · intro i hi
        have hi' : (i : Int) < s.deviceCount := hi
        obtain ⟨s1, s2, s3, s4⟩ := hslots i hi'
        dsimp only
        by_cases hik : i = index.toNat
        · subst hik
          simp only [Function.update_same]
          refine ⟨?_, ?_, cstr_length_setName name, ?_⟩
          · simpa [Prefs.put, Function.update] using s1
          · simp [Prefs.put, Function.update]
          · simpa [Prefs.put, Function.update] using s4
        · simp only [Function.update_noteq hik]
          refine ⟨?_, ?_, s3, ?_⟩
          · simpa [Prefs.put, Function.update] using s1
          · simpa [Prefs.put, Function.update, hik] using s2
          · simpa [Prefs.put, Function.update] using s4
  | delete index =>
    by_cases hbad : index < 0 ∨ index ≥ s.deviceCount
    · simp only [RegOp.apply, deleteDevice_invalid s index hbad]
      exact ⟨h0, h10, hcnt, hslots⟩
    · simp only [RegOp.apply, deleteDevice_valid s index (by omega) (by omega)]
      apply saveDevices_persisted
      · show 0 ≤ s.deviceCount - 1
        omega
      · show s.deviceCount - 1 ≤ 10
        omega
      · intro i hi
        have hi' : (i : Int) < s.deviceCount - 1 := hi
        show (cstr (shiftLoop (s.deviceCount - 1 - index).toNat index.toNat s.devices i).name).length
          ≤ 19
        rw [shiftLoop_apply]
        split
        · exact (hslots (i + 1) (by omega)).2.2.1
        · exact (hslots i (by omega)).2.2.1

theorem applyOps_persisted :
    ∀ (ops : List RegOp) (s : Storage), s.persisted → (applyOps s ops).persisted := by
  intro ops
  induction ops with
  | nil =>
    intro s hp
    exact hp
  | cons op ops ih =>
    intro s hp
    exact ih (op.apply s) (RegOp.apply_persisted s op hp)

theorem loadLoop_apply (p : Prefs) :
    ∀ (fuel i : Nat) (d : Nat → StoredDevice) (j : Nat),
      loadLoop p fuel i d j =
        if i ≤ j ∧ j < i + fuel then
          { irk := p.getBytes (PKey.irk j) (d j).irk
            name := p.getString (PKey.name j) (d j).name DEVICE_NAME_LEN
            active := p.getBool (PKey.act j) true }
        else d j := by
  intro fuel
  induction fuel with
  | zero =>
    intro i d j
    have hno : ¬ (i ≤ j ∧ j < i) := by omega
    simp [loadLoop, hno]
  | succ n ih =>
    intro i d j
    simp only [loadLoop, ih]
    by_cases h1 : i + 1 ≤ j ∧ j < i + 1 + n
    · have h2 : i ≤ j ∧ j < i + (n + 1) := by omega
      have hji : j ≠ i := by omega
      rw [if_pos h1, if_pos h2, Function.update_noteq hji]
    · by_cases hji : j = i
      · subst hji
        have h2 : j ≤ j ∧ j < j + (n + 1) := by omega
        rw [if_neg h1, if_pos h2, Function.update_same]
      · have h2 : ¬ (i ≤ j ∧ j < i + (n + 1)) := by omega
        rw [if_neg h1, if_neg h2, Function.update_noteq hji]

/-- A stored key of 16 bytes is read back whole. -/
theorem getBytes_stored (p : Prefs) (k : PKey) (b buf : Irk)
    (h : p k = some (PVal.bytes b.val)) : p.getBytes k buf = b := by
  unfold Prefs.getBytes
  rw [h]
  have hlen : b.val.length ≤ 16 := by rw [b.property]
  simp only [hlen, dif_pos]
  apply Subtype.ext
  show b.val ++ buf.val.drop b.val.length = b.val
  rw [b.property, List.drop_of_length_le (by rw [buf.property]), List.append_nil]

/-- A stored name of at most 19 characters is read back as the same string,
whatever the buffer held. -/
theorem cstr_getString_stored (p : Prefs) (k : PKey) (name buf : List Nat)
    (h : p k = some (PVal.str (cstr name))) (hlen : (cstr name).length ≤ 19) :
    cstr (p.getString k buf DEVICE_NAME_LEN) = cstr name := by
  have hpos : ∀ c ∈ cstr name, (fun c : Nat => c != 0) c = true := by
    intro c hc
    have := cstr_ne_zero hc
    simpa using this
  unfold Prefs.getString
  rw [h]
  have hfit : (cstr name).length + 1 ≤ DEVICE_NAME_LEN := by
    simp only [DEVICE_NAME_LEN]
    omega
  simp only [hfit, if_true]
  show List.takeWhile (fun c => c != 0) _ = _
  rw [List.append_assoc, List.takeWhile_append_of_pos hpos]
  simp

/-! ## Theorem about the round trip through the store -/

/-- C23: starting from an empty store and an empty registry, after any run of
`addDevice`, `renameDevice` and `deleteDevice` calls, `loadDevices` run on any
`Storage` object over the resulting store yields the same `deviceCount` and, for
every index below it, the same key bytes, the same name string and the same
active flag as the registry in memory. -/
theorem loadDevices_roundtrip (s m : Storage) (ops : List RegOp)
    (hempty : s.deviceCount = 0) (hstore : ∀ k, s.prefs k = none)
    (hm : m.prefs = (applyOps s ops).prefs) :
    (loadDevices m).2.deviceCount = (applyOps s ops).deviceCount ∧
    (loadDevices m).1 = decide ((applyOps s ops).deviceCount > 0) ∧
    ∀ i : Nat, (i : Int) < (applyOps s ops).deviceCount →
      ((loadDevices m).2.devices i).irk.val = ((applyOps s ops).devices i).irk.val ∧
      cstr ((loadDevices m).2.devices i).name = cstr ((applyOps s ops).devices i).name ∧
      ((loadDevices m).2.devices i).active = ((applyOps s ops).devices i).active := by
  have hp0 : s.persisted := by
    refine ⟨by omega, by omega, ?_, ?_⟩
    · simp [Prefs.getInt, hstore, hempty]
    · intro i hi
      omega
  obtain ⟨h0, h10, hcnt, hslots⟩ := applyOps_persisted ops s hp0
  have hget : m.prefs.getInt PKey.devCount 0 = (applyOps s ops).deviceCount := by
    rw [hm]
    exact hcnt
  have hload : loadDevices m =
      (decide ((applyOps s ops).deviceCount > 0),
        { m with
          deviceCount := (applyOps s ops).deviceCount
          devices := loadLoop m.prefs (applyOps s ops).deviceCount.toNat 0 m.devices }) := by
    unfold loadDevices
    rw [hget, if_neg (by simp only [MAX_DEVICES, Nat.cast_ofNat]; omega)]
  rw [hload]
  refine ⟨rfl, rfl, ?_⟩
  intro i hi
  obtain ⟨s1, s2, s3, s4⟩ := hslots i hi
  have hin : 0 ≤ i ∧ i < 0 + (applyOps s ops).deviceCount.toNat := by omega
  show (loadLoop m.prefs _ 0 m.devices i).irk.val = _ ∧
    cstr (loadLoop m.prefs _ 0 m.devices i).name = _ ∧
    (loadLoop m.prefs _ 0 m.devices i).active = _
  rw [loadLoop_apply, if_pos hin, hm]
  refine ⟨?_, ?_, ?_⟩
  · show (Prefs.getBytes _ (PKey.irk i) (m.devices i).irk).val = _
    rw [getBytes_stored _ _ _ _ s1]
  · exact cstr_getString_stored _ _ _ _ s2 s3
  · show Prefs.getBool _ (PKey.act i) true = _
    unfold Prefs.getBool
    rw [s4]

theorem loadDevices_roundtrip_witness :
    initStorage.deviceCount = 0 ∧ (∀ k, initStorage.prefs k = none) ∧
    rebooted.prefs = (applyOps initStorage registrySession).prefs ∧
    (loadDevices rebooted).2.deviceCount = (applyOps initStorage registrySession).deviceCount ∧
    (loadDevices rebooted).2.deviceCount = 2 ∧
    cstr ((loadDevices rebooted).2.devices 0).name = [68, 69] :=
  ⟨rfl, fun _ => rfl, rfl,
    (loadDevices_roundtrip initStorage rebooted registrySession rfl (fun _ => rfl) rfl).1,
    by decide, by decide⟩

end ESPKeylessCar
